import Mathlib

/-!
# Verification development for `pdf_creator.go`

A shallow embedding of the layout and formatting engine of `pdf_creator.go`
together with theorems about it.

Conventions of the embedding.

* The functions are embedded twice.  The definitions that bear the names of
  the source compute with exact rationals: Go `float64` values are modelled by
  `ℚ` (no rounding, no NaN, no infinities).  The definitions whose names end in
  `64` follow the same source lines in `float64` arithmetic (`F64`, `round64`):
  every operation is rounded to the nearest `float64` value, ties to even, and
  a division by zero gives an infinity or NaN.  Facts that hold only without
  rounding are stated of the first and say so; facts that depend on how a
  computed value compares with another, or on a division by zero, are stated
  of the second.
* Go `int` colour channels are modelled by `Int`; no arithmetic is performed
  on them.
* The `*gofpdf.Fpdf` receiver is modelled by the ordered list of calls made on
  it (`DrawCall`, `DrawCall64`).
* A failed Go type assertion is a run-time panic; it is modelled by
  `Except.error`.
* Library functions whose result is only passed through (`fmt.Sprintf`,
  `GetStringWidth`) are parameters of the embedding.
* In the exact embedding a Go `float64` division by zero is not represented
  (`x / 0` is `0` in `ℚ`), so a quotient carries meaning there only where its
  divisor is not zero.
-/

namespace PdfCreator

/-! ## Data model -/

/-- Go struct `Colour`. -/
structure Colour where
  R : Int
  G : Int
  B : Int
  deriving DecidableEq, Repr

/-- Go struct `CellBorders`. -/
structure CellBorders where
  Style : String
  Colour : Colour
  deriving DecidableEq, Repr

/-- Go struct `CellFill`. -/
structure CellFill where
  Filled : Bool
  Colour : Colour
  deriving DecidableEq, Repr

/-- Go struct `HeaderFont`. -/
structure HeaderFont where
  Colour : Colour
  Style : String
  Size : ℚ
  Family : String
  Alignment : String
  LineSpacing : ℚ
  CellBorders : CellBorders
  CellFill : CellFill
  deriving DecidableEq, Repr

/-- Go struct `Font`. -/
structure Font where
  Colour : Colour
  Style : String
  Size : ℚ
  Family : String
  Alignment : String
  LineSpacing : ℚ
  CellBorders : CellBorders
  CellFill : CellFill
  HeaderFont : HeaderFont
  deriving DecidableEq, Repr

/-- Go struct `ShapeStyle`. -/
structure ShapeStyle where
  Style : String
  FillColour : Colour
  BorderColour : Colour
  LineWidth : ℚ
  LineColour : Colour
  deriving DecidableEq, Repr

/-- Go struct `ChartTitle`. -/
structure ChartTitle where
  Text : String
  DistanceFromTopOfChartArea : ℚ
  Font : Font
  deriving DecidableEq, Repr

/-- Go struct `ChartSettings`. -/
structure ChartSettings where
  WatermarkFormat : ShapeStyle
  SeriesFormat : ShapeStyle
  AxisFormat : ShapeStyle
  ChartTextFont : Font
  ChartTitle : ChartTitle
  DistanceFromTopOfChartArea : ℚ
  DistanceFromBottomOfChartArea : ℚ
  DistanceFromSidesOfChartArea : ℚ
  NumberOfYAxisTicks : ℚ
  GapBetweenBars : ℚ
  TickMarkLength : ℚ
  deriving DecidableEq, Repr

/-- Go struct `PdfContentItem`. -/
structure PdfContentItem where
  ItemType : String
  Text : String
  DataSource : String
  DataSeries : String
  DataSeriesCategory : String
  XPosition : ℚ
  YPosition : ℚ
  Width : ℚ
  Height : ℚ
  Font : Font
  ChartSettings : ChartSettings
  deriving DecidableEq, Repr

/-- The anonymous Go struct of the field `PdfFields.PdfSettings`. -/
structure PdfSettings where
  PageOrientation : String
  PageUnits : String
  PdfName : String
  PdfLocation : String
  PageHeight : ℚ
  PageWidth : ℚ
  PageLeftAndRightMargins : ℚ
  PageTopMargin : ℚ
  Watermark : Colour
  deriving DecidableEq, Repr

/-- Go struct `PdfFields`. -/
structure PdfFields where
  PdfSettings : PdfSettings
  PdfContents : List PdfContentItem
  deriving DecidableEq, Repr

/-- A value stored under a key of a data point, as `encoding/json` decodes it
into an `interface{}`: a `string`, a `float64`, or anything else (`bool`,
`nil`, a nested array or object). -/
inductive Value where
  | str (s : String)
  | num (x : ℚ)
  | other
  deriving DecidableEq, Repr

/-- One element of `DataPoints []interface{}`: a `map[string]interface{}`
(held as its list of key/value pairs) or a value of any other dynamic type. -/
inductive DataPoint where
  | object (fields : List (String × Value))
  | notObject
  deriving DecidableEq, Repr

/-- One element of the Go slice type `Data`. -/
structure DataSet where
  DataSource : String
  DataPoints : List DataPoint
  deriving DecidableEq, Repr

/-- Go type `Data`. -/
abbrev Data := List DataSet

/-- The calls made on the `*gofpdf.Fpdf` value, with their arguments. -/
inductive DrawCall where
  | SetFont (familyStr styleStr : String) (size : ℚ)
  | SetTextColor (r g b : Int)
  | SetFillColor (r g b : Int)
  | SetDrawColor (r g b : Int)
  | SetLineWidth (width : ℚ)
  | SetXY (x y : ℚ)
  | MultiCell (w h : ℚ) (txtStr borderStr alignStr : String) (fill : Bool)
  | CellFormat (w h : ℚ) (txtStr borderStr : String) (ln : Int) (alignStr : String)
      (fill : Bool) (link : Int) (linkStr : String)
  | Rect (x y w h : ℚ) (styleStr : String)
  | Line (x1 y1 x2 y2 : ℚ)
  | AddPage
  | SetMargins (left top right : ℚ)
  | SetAutoPageBreak (auto : Bool) (margin : ℚ)
  deriving DecidableEq, Repr

/-- A Go run-time panic raised by a failed type assertion. -/
inductive Panic where
  | interfaceConversion
  deriving DecidableEq, Repr

deriving instance DecidableEq for Except

/-- Go type assertion `point.(map[string]interface{})`. -/
def assertMap : DataPoint → Except Panic (List (String × Value))
  | .object fields => .ok fields
  | .notObject => .error .interfaceConversion

/-- Go type assertion `v.(string)` on the result of a map index; indexing a
missing key yields `nil`, here `none`. -/
def assertString : Option Value → Except Panic String
  | some (.str s) => .ok s
  | _ => .error .interfaceConversion

/-- Go builtin `len` on a string: its length in bytes. -/
def len (s : String) : Nat := s.utf8ByteSize

/-! ## `FetchTextFormattingFromRecipe` -/

/-- The values assigned to `font` at the top of `FetchTextFormattingFromRecipe`
(source lines 416-447). -/
def defaultFont : Font :=
  { Size := 9
    Style := ""
    Family := "Helvetica"
    Alignment := "CM"
    LineSpacing := 3
    Colour := { R := 0, G := 0, B := 0 }
    CellFill := { Filled := false, Colour := { R := 255, G := 255, B := 255 } }
    CellBorders := { Style := "1", Colour := { R := 0, G := 0, B := 0 } }
    HeaderFont :=
      { Size := 10
        Style := "B"
        Family := "Helvetica"
        Alignment := "CM"
        LineSpacing := 3
        Colour := { R := 0, G := 0, B := 0 }
        CellFill := { Filled := false, Colour := { R := 213, G := 213, B := 213 } }
        CellBorders := { Style := "0", Colour := { R := 0, G := 0, B := 0 } } } }

/-- The style test of source lines 452 and 505. -/
def styleAccepted (s : String) : Prop :=
  s = "B" ∨ s = "" ∨ s = "I" ∨ s = "BI" ∨ s = "IB"

instance (s : String) : Decidable (styleAccepted s) := by
  unfold styleAccepted; infer_instance

/-- Go function `FetchTextFormattingFromRecipe` (source lines 414-557).  Each
`let` is one Go statement `if c { font.f = recipe.f }`, written as the update
`font.f := if c then recipe.f else font.f`, in source order. -/
def FetchTextFormattingFromRecipe (formattingFromRecipeForItem : Font) : Font :=
  let r := formattingFromRecipeForItem
  let font : Font := defaultFont
  let font : Font := { font with Size := if r.Size > 0 then r.Size else font.Size }
  let font : Font := { font with Style := if styleAccepted r.Style then r.Style else font.Style }
  let font : Font := { font with Family := if len r.Family > 0 then r.Family else font.Family }
  let font : Font := { font with Colour.R := if r.Colour.R ≥ 0 then r.Colour.R else font.Colour.R }
  let font : Font := { font with Colour.G := if r.Colour.G ≥ 0 then r.Colour.G else font.Colour.G }
  let font : Font := { font with Colour.B := if r.Colour.B ≥ 0 then r.Colour.B else font.Colour.B }
  let font : Font := { font with CellBorders.Style :=
    if (len r.CellBorders.Style > 0) then r.CellBorders.Style else font.CellBorders.Style }
  let font : Font := { font with CellBorders.Colour.R :=
    if (r.CellBorders.Colour.R ≥ 0) then r.CellBorders.Colour.R else font.CellBorders.Colour.R }
  let font : Font := { font with CellBorders.Colour.G :=
    if (r.CellBorders.Colour.G ≥ 0) then r.CellBorders.Colour.G else font.CellBorders.Colour.G }
  let font : Font := { font with CellBorders.Colour.B :=
    if (r.CellBorders.Colour.B ≥ 0) then r.CellBorders.Colour.B else font.CellBorders.Colour.B }
  let font : Font := { font with CellFill.Filled :=
    if (r.CellFill.Filled = true) then r.CellFill.Filled else font.CellFill.Filled }
  let font : Font := { font with CellFill.Colour.R :=
    if (r.CellFill.Colour.R ≥ 0) then r.CellFill.Colour.R else font.CellFill.Colour.R }
  let font : Font := { font with CellFill.Colour.G :=
    if (r.CellFill.Colour.G ≥ 0) then r.CellFill.Colour.G else font.CellFill.Colour.G }
  let font : Font := { font with CellFill.Colour.B :=
    if (r.CellFill.Colour.B ≥ 0) then r.CellFill.Colour.B else font.CellFill.Colour.B }
  let font : Font := { font with LineSpacing :=
    if (r.LineSpacing ≥ 0) then r.LineSpacing else font.LineSpacing }
  let font : Font := { font with HeaderFont.Size :=
    if (r.HeaderFont.Size > 0) then r.HeaderFont.Size else font.HeaderFont.Size }
  let font : Font := { font with HeaderFont.Style :=
    if (styleAccepted r.HeaderFont.Style) then r.HeaderFont.Style else font.HeaderFont.Style }
  let font : Font := { font with HeaderFont.Family :=
    if (len r.HeaderFont.Family > 0) then r.HeaderFont.Family else font.HeaderFont.Family }
  let font : Font := { font with HeaderFont.Colour.R :=
    if (r.HeaderFont.Colour.R ≥ 0) then r.HeaderFont.Colour.R else font.HeaderFont.Colour.R }
  let font : Font := { font with HeaderFont.Colour.G :=
    if (r.HeaderFont.Colour.G ≥ 0) then r.HeaderFont.Colour.G else font.HeaderFont.Colour.G }
  let font : Font := { font with HeaderFont.Colour.B :=
    if (r.HeaderFont.Colour.B ≥ 0) then r.HeaderFont.Colour.B else font.HeaderFont.Colour.B }
  let font : Font := { font with HeaderFont.CellBorders.Style :=
    if (len r.HeaderFont.CellBorders.Style > 0) then r.HeaderFont.CellBorders.Style
    else font.HeaderFont.CellBorders.Style }
  let font : Font := { font with HeaderFont.CellBorders.Colour.R :=
    if (r.HeaderFont.CellBorders.Colour.R ≥ 0) then r.HeaderFont.CellBorders.Colour.R
    else font.HeaderFont.CellBorders.Colour.R }
  let font : Font := { font with HeaderFont.CellBorders.Colour.G :=
    if (r.HeaderFont.CellBorders.Colour.G ≥ 0) then r.HeaderFont.CellBorders.Colour.G
    else font.HeaderFont.CellBorders.Colour.G }
  let font : Font := { font with HeaderFont.CellBorders.Colour.B :=
    if (r.HeaderFont.CellBorders.Colour.B ≥ 0) then r.HeaderFont.CellBorders.Colour.B
    else font.HeaderFont.CellBorders.Colour.B }
  let font : Font := { font with HeaderFont.CellFill.Filled :=
    if (r.HeaderFont.CellFill.Filled = true) then r.HeaderFont.CellFill.Filled
    else font.HeaderFont.CellFill.Filled }
  let font : Font := { font with HeaderFont.CellFill.Colour.R :=
    if (r.HeaderFont.CellFill.Colour.R ≥ 0) then r.HeaderFont.CellFill.Colour.R
    else font.HeaderFont.CellFill.Colour.R }
  let font : Font := { font with HeaderFont.CellFill.Colour.G :=
    if (r.HeaderFont.CellFill.Colour.G ≥ 0) then r.HeaderFont.CellFill.Colour.G
    else font.HeaderFont.CellFill.Colour.G }
  let font : Font := { font with HeaderFont.CellFill.Colour.B :=
    if (r.HeaderFont.CellFill.Colour.B ≥ 0) then r.HeaderFont.CellFill.Colour.B
    else font.HeaderFont.CellFill.Colour.B }
  -- source lines 551-553 test and assign the body `LineSpacing` a second time
  let font : Font := { font with LineSpacing :=
    if (r.LineSpacing ≥ 0) then r.LineSpacing else font.LineSpacing }
  font

/-! ## `GetMaxValueForAxisOnChart` -/

/-- The loop `for maxValueFromData >= place*10.0 { place *= 10.0 }` of
`GetMaxValueForAxisOnChart`, run for at most `fuel` iterations; the result is
the value of `place` when the loop stops.  Exact arithmetic; `placeLoop64` is
the same loop in `float64`. -/
def placeLoop : Nat → ℚ → ℚ → ℚ
  | 0, _, place => place
  | fuel + 1, maxValueFromData, place =>
    if (maxValueFromData ≥ place * 10) then placeLoop fuel maxValueFromData (place * 10)
    else place

/-- Go function `GetMaxValueForAxisOnChart` (source lines 385-391).  The loop
is given `⌈maxValueFromData⌉` iterations, which are always enough for the
loop to stop by its own test (`placeLoop_spec`, `lt_pow_fuel`).  Exact
arithmetic; `GetMaxValueForAxisOnChart64` is the same function in `float64`,
where the quotient, the ceiling and the product are rounded. -/
def GetMaxValueForAxisOnChart (maxValueFromData : ℚ) : ℚ :=
  let place := placeLoop ⌈maxValueFromData⌉.toNat maxValueFromData 1
  (⌈maxValueFromData / place⌉ : ℚ) * place

/-! ## `ProcessTablePDFItem` -/

section Table

variable (Sprintf : Option Value → String)

/-- Header formatting and header row of `ProcessTablePDFItem` (source lines
210-220), drawn with the top of the row at `getYPosition`. -/
def headerCalls (tableItem : PdfContentItem) (font : Font)
    (columnWidth getXPosition getYPosition : ℚ) : List DrawCall :=
  [ .SetFont font.HeaderFont.Family font.HeaderFont.Style font.HeaderFont.Size,
    .SetTextColor font.HeaderFont.Colour.R font.HeaderFont.Colour.G font.HeaderFont.Colour.B,
    .SetFillColor font.HeaderFont.CellFill.Colour.R font.HeaderFont.CellFill.Colour.G
      font.HeaderFont.CellFill.Colour.B,
    .SetDrawColor font.HeaderFont.CellBorders.Colour.R font.HeaderFont.CellBorders.Colour.G
      font.HeaderFont.CellBorders.Colour.B,
    .SetXY getXPosition getYPosition,
    .MultiCell columnWidth (font.HeaderFont.Size + font.HeaderFont.LineSpacing)
      tableItem.DataSeriesCategory font.HeaderFont.CellBorders.Style font.HeaderFont.Alignment
      font.HeaderFont.CellFill.Filled,
    .SetXY (getXPosition + columnWidth) getYPosition,
    .MultiCell columnWidth (font.HeaderFont.Size + font.HeaderFont.LineSpacing)
      tableItem.DataSeries font.HeaderFont.CellBorders.Style font.HeaderFont.Alignment
      font.HeaderFont.CellFill.Filled ]

/-- Row formatting of `ProcessTablePDFItem` (source lines 225-228). -/
def rowFormatCalls (font : Font) : List DrawCall :=
  [ .SetFont font.Family font.Style font.Size,
    .SetTextColor font.Colour.R font.Colour.G font.Colour.B,
    .SetFillColor font.CellFill.Colour.R font.CellFill.Colour.G font.CellFill.Colour.B,
    .SetDrawColor font.CellBorders.Colour.R font.CellBorders.Colour.G
      font.CellBorders.Colour.B ]

/-- The ellipsis row (source lines 236 and 240): the `SetXY` that opens the
loop body, then the cell drawn when the height test succeeds. -/
def ellipsisCalls (font : Font) (tableWidth getXPosition getYPosition : ℚ) : List DrawCall :=
  [ .SetXY getXPosition getYPosition,
    .MultiCell tableWidth (0.5 * (font.Size + font.LineSpacing)) "..." font.CellBorders.Style
      "CB" font.CellFill.Filled ]

/-- One data row (source lines 236 and 245-247) showing the category text
`category` and the series value `value` (`nil` being `none`). -/
def dataRowCalls (font : Font) (columnWidth getXPosition getYPosition : ℚ)
    (category : String) (value : Option Value) : List DrawCall :=
  [ .SetXY getXPosition getYPosition,
    .MultiCell columnWidth (font.Size + font.LineSpacing) category font.CellBorders.Style
      font.Alignment font.CellFill.Filled,
    .SetXY (getXPosition + columnWidth) getYPosition,
    .MultiCell columnWidth (font.Size + font.LineSpacing) (Sprintf value)
      font.CellBorders.Style font.Alignment font.CellFill.Filled ]

/-- The loop `for _, point := range dataset.DataPoints` of `ProcessTablePDFItem`
(source lines 233-251), started with the given values of `getYPosition` and
`cumulativeTableHeight`.  It returns the calls made and the final value of
`getYPosition`.  Exact arithmetic; `tableRows64` is the same loop in
`float64`, where the running total and the height test are rounded. -/
def tableRows (tableItem : PdfContentItem) (font : Font)
    (tableWidth columnWidth getXPosition : ℚ) :
    List DataPoint → ℚ → ℚ → Except Panic (List DrawCall × ℚ)
  | [], getYPosition, _ => .ok ([], getYPosition)
  | point :: rest, getYPosition, cumulativeTableHeight =>
    if cumulativeTableHeight + 0.5 * (font.Size + font.LineSpacing) > tableItem.Height then
      .ok (ellipsisCalls font tableWidth getXPosition getYPosition, getYPosition)
    else
      match assertMap point with
      | .error e => .error e
      | .ok fields =>
        match assertString (fields.lookup tableItem.DataSeriesCategory) with
        | .error e => .error e
        | .ok category =>
          match tableRows tableItem font tableWidth columnWidth getXPosition rest
              (getYPosition + font.Size + font.LineSpacing)
              (cumulativeTableHeight + font.Size + font.LineSpacing) with
          | .error e => .error e
          | .ok (calls, y) =>
            .ok (dataRowCalls Sprintf font columnWidth getXPosition getYPosition category
              (fields.lookup tableItem.DataSeries) ++ calls, y)

/-- The body of `if tableItem.DataSource == dataset.DataSource` in
`ProcessTablePDFItem` (source lines 209-251) for one dataset. -/
def tableSeries (tableItem : PdfContentItem) (font : Font)
    (tableWidth columnWidth getXPosition : ℚ) (dataset : DataSet) (getYPosition : ℚ) :
    Except Panic (List DrawCall × ℚ) :=
  let header := headerCalls tableItem font columnWidth getXPosition getYPosition
  let getYPosition := getYPosition + font.HeaderFont.Size + font.HeaderFont.LineSpacing
  let rowFormat := rowFormatCalls font
  let cumulativeTableHeight := font.HeaderFont.Size + font.HeaderFont.LineSpacing
  match tableRows Sprintf tableItem font tableWidth columnWidth getXPosition dataset.DataPoints
      getYPosition cumulativeTableHeight with
  | .error e => .error e
  | .ok (rows, y) => .ok (header ++ rowFormat ++ rows, y)

/-- The loop `for _, dataset := range data` of `ProcessTablePDFItem` (source
lines 206-253); `getYPosition` is carried from one matching dataset to the
next. -/
def tableDatasets (tableItem : PdfContentItem) (font : Font)
    (tableWidth columnWidth getXPosition : ℚ) : Data → ℚ → Except Panic (List DrawCall)
  | [], _ => .ok []
  | dataset :: rest, getYPosition =>
    if tableItem.DataSource = dataset.DataSource then
      match tableSeries Sprintf tableItem font tableWidth columnWidth getXPosition dataset
          getYPosition with
      | .error e => .error e
      | .ok (calls, y) =>
        match tableDatasets tableItem font tableWidth columnWidth getXPosition rest y with
        | .error e => .error e
        | .ok more => .ok (calls ++ more)
    else
      tableDatasets tableItem font tableWidth columnWidth getXPosition rest getYPosition

/-- Go function `ProcessTablePDFItem` (source lines 192-256).  The result
`.ok calls` is a normal return (the Go `err` is always `nil`) after the calls
`calls` were made on `pdf`; `.error` is a panic. -/
def ProcessTablePDFItem (tableItem : PdfContentItem) (pdfFields : PdfFields) (data : Data) :
    Except Panic (List DrawCall) :=
  let font := FetchTextFormattingFromRecipe tableItem.Font
  let tableWidth := if tableItem.Width ≥ 0 then tableItem.Width else 100
  let columnWidth := tableWidth / 2
  let getXPosition := tableItem.XPosition + pdfFields.PdfSettings.PageLeftAndRightMargins
  let getYPosition := tableItem.YPosition + pdfFields.PdfSettings.PageTopMargin
  tableDatasets Sprintf tableItem font tableWidth columnWidth getXPosition data getYPosition

end Table

/-! ## Quantities named by the claims about tables -/

/-- The font `ProcessTablePDFItem` resolves for a table item (source line 194). -/
def tableFont (tableItem : PdfContentItem) : Font :=
  FetchTextFormattingFromRecipe tableItem.Font

/-- Height of the header row: resolved header size plus header line spacing. -/
def headerHeight (tableItem : PdfContentItem) : ℚ :=
  (tableFont tableItem).HeaderFont.Size + (tableFont tableItem).HeaderFont.LineSpacing

/-- Height of a data row: resolved size plus line spacing. -/
def rowHeight (tableItem : PdfContentItem) : ℚ :=
  (tableFont tableItem).Size + (tableFont tableItem).LineSpacing

/-- The local `tableWidth` of `ProcessTablePDFItem` (source lines 195-198). -/
def tableWidthOf (tableItem : PdfContentItem) : ℚ :=
  if tableItem.Width ≥ 0 then tableItem.Width else 100

/-- The initial `getXPosition` of `ProcessTablePDFItem` (source line 202). -/
def tableLeft (tableItem : PdfContentItem) (pdfFields : PdfFields) : ℚ :=
  tableItem.XPosition + pdfFields.PdfSettings.PageLeftAndRightMargins

/-- The initial `getYPosition` of `ProcessTablePDFItem` (source line 203). -/
def tableTop (tableItem : PdfContentItem) (pdfFields : PdfFields) : ℚ :=
  tableItem.YPosition + pdfFields.PdfSettings.PageTopMargin

/-- The category text of a record: the string stored under `key`, when the
record is an object that has one. -/
def categoryOf (key : String) : DataPoint → Option String
  | .object fields =>
    match fields.lookup key with
    | some (.str s) => some s
    | _ => none
  | .notObject => none

/-- The value a record stores under `key` (`none` when there is none). -/
def seriesValueOf (key : String) : DataPoint → Option Value
  | .object fields => fields.lookup key
  | .notObject => none

/-- The draw calls of the data rows for the records `points`, in order, the
record at position `j` of the list being row `i + j` of the table: its cells
are drawn at `y0 + (i + j) * (size + line spacing)`. -/
def expectedRows (Sprintf : Option Value → String) (tableItem : PdfContentItem) (font : Font)
    (columnWidth getXPosition y0 : ℚ) : ℕ → List DataPoint → List DrawCall
  | _, [] => []
  | i, point :: rest =>
    dataRowCalls Sprintf font columnWidth getXPosition
        (y0 + (i : ℚ) * (font.Size + font.LineSpacing))
        ((categoryOf tableItem.DataSeriesCategory point).getD "")
        (seriesValueOf tableItem.DataSeries point) ++
      expectedRows Sprintf tableItem font columnWidth getXPosition y0 (i + 1) rest

/-- The draw calls of a table showing the header row, the first `k` records of
`points` as data rows and, when `ellipsis` is set, the ellipsis row below
them. -/
def tableOutput (Sprintf : Option Value → String) (tableItem : PdfContentItem)
    (pdfFields : PdfFields) (points : List DataPoint) (k : ℕ) (ellipsis : Bool) :
    List DrawCall :=
  headerCalls tableItem (tableFont tableItem) (tableWidthOf tableItem / 2)
      (tableLeft tableItem pdfFields) (tableTop tableItem pdfFields) ++
    rowFormatCalls (tableFont tableItem) ++
    expectedRows Sprintf tableItem (tableFont tableItem) (tableWidthOf tableItem / 2)
      (tableLeft tableItem pdfFields) (tableTop tableItem pdfFields + headerHeight tableItem) 0
      (points.take k) ++
    (if ellipsis then
      ellipsisCalls (tableFont tableItem) (tableWidthOf tableItem)
        (tableLeft tableItem pdfFields)
        (tableTop tableItem pdfFields + headerHeight tableItem + (k : ℚ) * rowHeight tableItem)
    else [])

/-- Cumulative height of a table showing the header row, `k` data rows and,
when `ellipsis` is set, the ellipsis row. -/
def emittedHeight (tableItem : PdfContentItem) (k : ℕ) (ellipsis : Bool) : ℚ :=
  headerHeight tableItem + (k : ℚ) * rowHeight tableItem +
    (if ellipsis then 0.5 * rowHeight tableItem else 0)

/-- One colour channel as `FetchTextFormattingFromRecipe` resolves it: the
recipe value when it is not negative, else the default `d`. -/
def resolveChannel (v d : Int) : Int := if v ≥ 0 then v else d

/-! ## Example inputs -/

/-- A colour with no channel set. -/
def unsetColour : Colour := { R := -1, G := -1, B := -1 }

/-- A header font with nothing set. -/
def unsetHeaderFont : HeaderFont :=
  { Colour := unsetColour
    Style := ""
    Size := 0
    Family := ""
    Alignment := ""
    LineSpacing := -1
    CellBorders := { Style := "", Colour := unsetColour }
    CellFill := { Filled := false, Colour := unsetColour } }

/-- A font with nothing set, in the body and in the header. -/
def unsetFont : Font :=
  { Colour := unsetColour
    Style := ""
    Size := 0
    Family := ""
    Alignment := ""
    LineSpacing := -1
    CellBorders := { Style := "", Colour := unsetColour }
    CellFill := { Filled := false, Colour := unsetColour }
    HeaderFont := unsetHeaderFont }

/-- A shape style with every field zero. -/
def zeroShapeStyle : ShapeStyle :=
  { Style := ""
    FillColour := { R := 0, G := 0, B := 0 }
    BorderColour := { R := 0, G := 0, B := 0 }
    LineWidth := 0
    LineColour := { R := 0, G := 0, B := 0 } }

/-- Chart settings with every field zero and no font set. -/
def zeroChartSettings : ChartSettings :=
  { WatermarkFormat := zeroShapeStyle
    SeriesFormat := zeroShapeStyle
    AxisFormat := zeroShapeStyle
    ChartTextFont := unsetFont
    ChartTitle := { Text := "", DistanceFromTopOfChartArea := 0, Font := unsetFont }
    DistanceFromTopOfChartArea := 0
    DistanceFromBottomOfChartArea := 0
    DistanceFromSidesOfChartArea := 0
    NumberOfYAxisTicks := 0
    GapBetweenBars := 0
    TickMarkLength := 0 }

/-- A table item of width 100 and the given height, bound to the series
`"sales"`, with no font set: header rows are 13 high and data rows 12. -/
def exampleTable (height : ℚ) : PdfContentItem :=
  { ItemType := "table"
    Text := ""
    DataSource := "sales"
    DataSeries := "volume"
    DataSeriesCategory := "month"
    XPosition := 0
    YPosition := 0
    Width := 100
    Height := height
    Font := unsetFont
    ChartSettings := zeroChartSettings }

/-- Page settings with zero margins and nothing else set. -/
def exampleFields : PdfFields :=
  { PdfSettings :=
      { PageOrientation := ""
        PageUnits := ""
        PdfName := ""
        PdfLocation := ""
        PageHeight := 0
        PageWidth := 0
        PageLeftAndRightMargins := 0
        PageTopMargin := 0
        Watermark := unsetColour }
    PdfContents := [] }

/-- A record with a month and a volume. -/
def examplePoint (month : String) (volume : ℚ) : DataPoint :=
  .object [("month", .str month), ("volume", .num volume)]

/-- A dataset holding the one series `"sales"` with two records. -/
def exampleData : Data :=
  [{ DataSource := "sales", DataPoints := [examplePoint "Jan" 10, examplePoint "Feb" 40] }]

/-- A stand-in for `fmt.Sprintf("%.f", v)` that prints every value as `"#"`. -/
def exampleSprintf : Option Value → String := fun _ => "#"

/-! ## `ProcessTextBlockPDFItem` -/

/-- Go function `ProcessTextBlockPDFItem` (source lines 395-410).  It makes no
type assertion; the result is always a normal return (`err` is `nil`). -/
def ProcessTextBlockPDFItem (textBlockItem : PdfContentItem) (pdfSettings : PdfFields) :
    Except Panic (List DrawCall) :=
  let font := FetchTextFormattingFromRecipe textBlockItem.Font
  .ok
    [ .SetFont font.Family font.Style font.Size,
      .SetTextColor font.Colour.R font.Colour.G font.Colour.B,
      .SetFillColor font.CellFill.Colour.R font.CellFill.Colour.G font.CellFill.Colour.B,
      .SetDrawColor font.CellBorders.Colour.R font.CellBorders.Colour.G
        font.CellBorders.Colour.B,
      .SetXY (textBlockItem.XPosition + pdfSettings.PdfSettings.PageLeftAndRightMargins)
        (textBlockItem.YPosition + pdfSettings.PdfSettings.PageTopMargin),
      .MultiCell textBlockItem.Width (font.Size + font.LineSpacing) textBlockItem.Text
        font.CellBorders.Style font.Alignment font.CellFill.Filled ]

/-! ## `ProcessVerticalBarChartPDFItem` -/

/-- Go type assertion `v.(float64)` on the result of a map index. -/
def assertFloat64 : Option Value → Except Panic ℚ
  | some (.num x) => .ok x
  | _ => .error .interfaceConversion

/-- The scan of the series values (source lines 291-297), started with the
given values of `maxValueFromData` and `numberCategories`; it returns their
final values. -/
def scanSeries (vbarItem : PdfContentItem) : List DataPoint → ℚ → ℚ → Except Panic (ℚ × ℚ)
  | [], maxValueFromData, numberCategories => .ok (maxValueFromData, numberCategories)
  | valuesFromDataPoints :: rest, maxValueFromData, numberCategories =>
    match assertMap valuesFromDataPoints with
    | .error e => .error e
    | .ok fields =>
      match assertFloat64 (fields.lookup vbarItem.DataSeries) with
      | .error e => .error e
      | .ok v =>
        scanSeries vbarItem rest (if v > maxValueFromData then v else maxValueFromData)
          (numberCategories + 1)

section Chart

variable (Sprintf : Option Value → String)
  (GetStringWidth : String → String → ℚ → String → ℚ)

/-- The chart background (source lines 283-286). -/
def backgroundCalls (vbarItem : PdfContentItem) (chartBoxX chartBoxY : ℚ) : List DrawCall :=
  [ .SetFillColor vbarItem.ChartSettings.WatermarkFormat.FillColour.R
      vbarItem.ChartSettings.WatermarkFormat.FillColour.G
      vbarItem.ChartSettings.WatermarkFormat.FillColour.B,
    .SetDrawColor vbarItem.ChartSettings.WatermarkFormat.BorderColour.R
      vbarItem.ChartSettings.WatermarkFormat.BorderColour.G
      vbarItem.ChartSettings.WatermarkFormat.BorderColour.B,
    .Rect chartBoxX chartBoxY vbarItem.Width vbarItem.Height
      vbarItem.ChartSettings.WatermarkFormat.Style ]

/-- The two calls that select the axis line format (source lines 304-305,
repeated at 316-317, 337-338, 356-357 and 361-362). -/
def axisFormatCalls (vbarItem : PdfContentItem) : List DrawCall :=
  [ .SetLineWidth vbarItem.ChartSettings.AxisFormat.LineWidth,
    .SetDrawColor vbarItem.ChartSettings.AxisFormat.LineColour.R
      vbarItem.ChartSettings.AxisFormat.LineColour.G
      vbarItem.ChartSettings.AxisFormat.LineColour.B ]

/-- One y-axis tick (source lines 316-322): the tick line at `tickYPosition`
and the label showing `yAxisTickLabel`. -/
def yTickCalls (vbarItem : PdfContentItem) (font : Font)
    (chartBoxX yAxisXPosition tickLength tickYPosition yAxisTickLabel : ℚ) : List DrawCall :=
  axisFormatCalls vbarItem ++
  [ .Line yAxisXPosition tickYPosition (yAxisXPosition - tickLength) tickYPosition,
    .SetXY chartBoxX (tickYPosition - 0.5 * font.Size),
    .CellFormat
      (vbarItem.ChartSettings.DistanceFromSidesOfChartArea -
        vbarItem.ChartSettings.TickMarkLength)
      font.Size (Sprintf (some (.num yAxisTickLabel))) "" 0 "RM" false 0 "" ]

/-- The loop `for i := 0.0; i <= yAxisTicks; { ...; i++ }` (source lines
313-327), run for at most `fuel` iterations from the given values of `i`,
`tickYPosition` and `yAxisTickLabel`. -/
def yAxisTickLoop (vbarItem : PdfContentItem) (font : Font)
    (chartBoxX yAxisXPosition tickLength tickIntervalOnAxis maxValueForYAxis yAxisTicks : ℚ) :
    Nat → ℚ → ℚ → ℚ → List DrawCall
  | 0, _, _, _ => []
  | fuel + 1, i, tickYPosition, yAxisTickLabel =>
    if i ≤ yAxisTicks then
      yTickCalls Sprintf vbarItem font chartBoxX yAxisXPosition tickLength tickYPosition
          yAxisTickLabel ++
        yAxisTickLoop vbarItem font chartBoxX yAxisXPosition tickLength tickIntervalOnAxis
          maxValueForYAxis yAxisTicks fuel (i + 1) (tickYPosition + tickIntervalOnAxis)
          (yAxisTickLabel - maxValueForYAxis / yAxisTicks)
    else []

/-- One x-axis tick mark (source lines 337-339 and 356-358). -/
def xTickCalls (vbarItem : PdfContentItem) (axisZeroPosition tickLength tickXPosition : ℚ) :
    List DrawCall :=
  axisFormatCalls vbarItem ++
  [ .Line tickXPosition axisZeroPosition tickXPosition (axisZeroPosition + tickLength) ]

/-- What the loop over the records draws for one record (source lines
337-351): the tick mark, the category label `category` and the bar of the
series value `value`.  Exact arithmetic, in which a quotient by 0 is 0;
`barsLoop64` draws the same calls in `float64`, where that quotient is NaN or
an infinity. -/
def barCalls (vbarItem : PdfContentItem) (font : Font)
    (tickXInterval maxValueForYAxis axisZeroPosition yAxisMaxYPosition tickLength
      tickXPosition : ℚ)
    (category : String) (value : ℚ) : List DrawCall :=
  xTickCalls vbarItem axisZeroPosition tickLength tickXPosition ++
  [ .SetXY tickXPosition (axisZeroPosition + 0.5 * tickLength),
    .CellFormat tickXInterval font.Size category "" 0 "CM" false 0 "",
    .SetFillColor vbarItem.ChartSettings.SeriesFormat.FillColour.R
      vbarItem.ChartSettings.SeriesFormat.FillColour.G
      vbarItem.ChartSettings.SeriesFormat.FillColour.B,
    .SetDrawColor vbarItem.ChartSettings.SeriesFormat.BorderColour.R
      vbarItem.ChartSettings.SeriesFormat.BorderColour.G
      vbarItem.ChartSettings.SeriesFormat.BorderColour.B,
    .Rect (tickXPosition + vbarItem.ChartSettings.GapBetweenBars) axisZeroPosition
      (tickXInterval - 2 * vbarItem.ChartSettings.GapBetweenBars)
      (-(value / maxValueForYAxis * (axisZeroPosition - yAxisMaxYPosition)))
      vbarItem.ChartSettings.SeriesFormat.Style ]

/-- The loop `for _, values := range dataset.DataPoints` that draws the bars
(source lines 334-354), started with the given `tickXPosition`.  It returns
the calls made and the final value of `tickXPosition`. -/
def barsLoop (vbarItem : PdfContentItem) (font : Font)
    (tickXInterval maxValueForYAxis axisZeroPosition yAxisMaxYPosition tickLength : ℚ) :
    List DataPoint → ℚ → Except Panic (List DrawCall × ℚ)
  | [], tickXPosition => .ok ([], tickXPosition)
  | values :: rest, tickXPosition =>
    match assertMap values with
    | .error e => .error e
    | .ok fields =>
      match assertString (fields.lookup vbarItem.DataSeriesCategory) with
      | .error e => .error e
      | .ok category =>
        match assertFloat64 (fields.lookup vbarItem.DataSeries) with
        | .error e => .error e
        | .ok value =>
          match barsLoop vbarItem font tickXInterval maxValueForYAxis axisZeroPosition
              yAxisMaxYPosition tickLength rest (tickXPosition + tickXInterval) with
          | .error e => .error e
          | .ok (calls, x) =>
            .ok (barCalls vbarItem font tickXInterval maxValueForYAxis axisZeroPosition
              yAxisMaxYPosition tickLength tickXPosition category value ++ calls, x)

/-- The chart title (source lines 367-376).  The font fields are those of the
recipe's `ChartTitle.Font`; `GetStringWidth` receives the arguments of the
`SetFont` call that precedes it. -/
def titleCalls (vbarItem : PdfContentItem) (chartBoxX chartBoxY : ℚ) : List DrawCall :=
  let title := vbarItem.ChartSettings.ChartTitle
  let titleWidth := GetStringWidth title.Font.Family title.Font.Style title.Font.Size title.Text
  [ .SetFont title.Font.Family title.Font.Style title.Font.Size,
    .SetFillColor title.Font.CellFill.Colour.R title.Font.CellFill.Colour.G
      title.Font.CellFill.Colour.B,
    .SetTextColor title.Font.Colour.R title.Font.Colour.G title.Font.Colour.B,
    .SetDrawColor vbarItem.ChartSettings.AxisFormat.LineColour.R
      vbarItem.ChartSettings.AxisFormat.LineColour.G
      vbarItem.ChartSettings.AxisFormat.LineColour.B,
    .SetXY ((chartBoxX + vbarItem.Width / 2) - 0.5 * titleWidth)
      (chartBoxY + title.DistanceFromTopOfChartArea),
    .CellFormat (titleWidth + 5) (title.Font.Size + title.Font.LineSpacing) title.Text
      title.Font.CellBorders.Style 0 title.Font.Alignment title.Font.CellFill.Filled 0 "" ]

/-- The body of `if vbarItem.DataSource == dataset.DataSource` in
`ProcessVerticalBarChartPDFItem` (source lines 272-376) for one dataset. -/
def chartSeries (vbarItem : PdfContentItem) (pdfSettings : PdfFields) (yAxisTicks : ℚ)
    (dataset : DataSet) : Except Panic (List DrawCall) :=
  let font := FetchTextFormattingFromRecipe vbarItem.ChartSettings.ChartTextFont
  let chartBoxX := vbarItem.XPosition + pdfSettings.PdfSettings.PageLeftAndRightMargins
  let chartBoxY := vbarItem.YPosition + pdfSettings.PdfSettings.PageTopMargin
  let chartWidth := vbarItem.Width - vbarItem.ChartSettings.DistanceFromSidesOfChartArea
  let yAxisXPosition := chartBoxX + vbarItem.ChartSettings.DistanceFromSidesOfChartArea
  let yAxisMaxYPosition := chartBoxY + vbarItem.ChartSettings.DistanceFromTopOfChartArea
  let axisZeroPosition :=
    chartBoxY + vbarItem.Height - vbarItem.ChartSettings.DistanceFromBottomOfChartArea
  let chartHeight := axisZeroPosition - yAxisMaxYPosition
  match scanSeries vbarItem dataset.DataPoints 0 0 with
  | .error e => .error e
  | .ok (maxValueFromData, numberCategories) =>
    let maxValueForYAxis := GetMaxValueForAxisOnChart maxValueFromData
    let tickIntervalOnAxis := chartHeight / yAxisTicks
    let tickLength := vbarItem.ChartSettings.TickMarkLength
    let tickXInterval :=
      (chartWidth - vbarItem.ChartSettings.DistanceFromSidesOfChartArea) / numberCategories
    match barsLoop vbarItem font tickXInterval maxValueForYAxis axisZeroPosition
        yAxisMaxYPosition tickLength dataset.DataPoints yAxisXPosition with
    | .error e => .error e
    | .ok (bars, tickXPosition) =>
      .ok
        (backgroundCalls vbarItem chartBoxX chartBoxY ++
          (axisFormatCalls vbarItem ++
            [.Line yAxisXPosition yAxisMaxYPosition yAxisXPosition axisZeroPosition]) ++
          [ .SetFont font.Family font.Style font.Size,
            .SetTextColor font.Colour.R font.Colour.G font.Colour.B ] ++
          yAxisTickLoop Sprintf vbarItem font chartBoxX yAxisXPosition tickLength
            tickIntervalOnAxis maxValueForYAxis yAxisTicks (⌊yAxisTicks⌋ + 1).toNat 0
            yAxisMaxYPosition maxValueForYAxis ++
          bars ++
          xTickCalls vbarItem axisZeroPosition tickLength tickXPosition ++
          (axisFormatCalls vbarItem ++
            [.Line yAxisXPosition axisZeroPosition (chartBoxX + chartWidth) axisZeroPosition]) ++
          titleCalls GetStringWidth vbarItem chartBoxX chartBoxY)

/-- The loop `for _, dataset := range data` of `ProcessVerticalBarChartPDFItem`
(source lines 269-379). -/
def chartDatasets (vbarItem : PdfContentItem) (pdfSettings : PdfFields) (yAxisTicks : ℚ) :
    Data → Except Panic (List DrawCall)
  | [] => .ok []
  | dataset :: rest =>
    if vbarItem.DataSource = dataset.DataSource then
      match chartSeries Sprintf GetStringWidth vbarItem pdfSettings yAxisTicks dataset with
      | .error e => .error e
      | .ok calls =>
        match chartDatasets vbarItem pdfSettings yAxisTicks rest with
        | .error e => .error e
        | .ok more => .ok (calls ++ more)
    else
      chartDatasets vbarItem pdfSettings yAxisTicks rest

/-- Go function `ProcessVerticalBarChartPDFItem` (source lines 260-381).  The
result `.ok calls` is a normal return (the Go `err` is always `nil`) after the
calls `calls` were made on `pdf`; `.error` is a panic.  The y-axis tick loop
is given `⌊yAxisTicks⌋ + 1` iterations, which are always enough for it to stop
by its own test (`yAxisTickLoop_fuel`). -/
def ProcessVerticalBarChartPDFItem (vbarItem : PdfContentItem) (pdfSettings : PdfFields)
    (data : Data) : Except Panic (List DrawCall) :=
  let yAxisTicks : ℚ :=
    if vbarItem.ChartSettings.NumberOfYAxisTicks > 0 then
      vbarItem.ChartSettings.NumberOfYAxisTicks
    else 5
  let yAxisTicks := yAxisTicks - 1
  chartDatasets Sprintf GetStringWidth vbarItem pdfSettings yAxisTicks data

/-! ## `ProcessPDFContentsItems` -/

/-- The loop of `ProcessPDFContentsItems` (source lines 158-187) over the
remaining items, `pdf` being the calls made on the document so far.  Each
renderer's calls are appended to `pdf`; its returned `err` is only printed. -/
def processItemsLoop (contentsToProcessFromRecipe : PdfFields) (dataset : Data) :
    List PdfContentItem → List DrawCall → Except Panic (List DrawCall)
  | [], pdf => .ok pdf
  | itemToProcess :: rest, pdf =>
    if itemToProcess.ItemType = "textBlock" then
      match ProcessTextBlockPDFItem itemToProcess contentsToProcessFromRecipe with
      | .error e => .error e
      | .ok calls => processItemsLoop contentsToProcessFromRecipe dataset rest (pdf ++ calls)
    else if itemToProcess.ItemType = "table" then
      match ProcessTablePDFItem Sprintf itemToProcess contentsToProcessFromRecipe dataset with
      | .error e => .error e
      | .ok calls => processItemsLoop contentsToProcessFromRecipe dataset rest (pdf ++ calls)
    else if itemToProcess.ItemType = "verticalBar" then
      match ProcessVerticalBarChartPDFItem Sprintf GetStringWidth itemToProcess
          contentsToProcessFromRecipe dataset with
      | .error e => .error e
      | .ok calls => processItemsLoop contentsToProcessFromRecipe dataset rest (pdf ++ calls)
    else
      processItemsLoop contentsToProcessFromRecipe dataset rest pdf

/-- Go function `ProcessPDFContentsItems` (source lines 156-188), given the
calls `pdf` already made on the document; the result is the calls made on the
document when it returns. -/
def ProcessPDFContentsItems (pdf : List DrawCall) (contentsToProcessFromRecipe : PdfFields)
    (dataset : Data) : Except Panic (List DrawCall) :=
  processItemsLoop Sprintf GetStringWidth contentsToProcessFromRecipe dataset
    contentsToProcessFromRecipe.PdfContents pdf

end Chart

/-! ## Example inputs for charts and text blocks -/

/-- A stand-in for `GetStringWidth` that measures every text as 20 wide. -/
def exampleStringWidth : String → String → ℚ → String → ℚ := fun _ _ _ _ => 20

/-- A vertical bar chart item of width 220 and height 120, bound to the
series `"sales"`, with 10 left free on every side of the chart area, five
y-axis ticks by default, and no font set for the labels or the title. -/
def exampleChart : PdfContentItem :=
  { ItemType := "verticalBar"
    Text := ""
    DataSource := "sales"
    DataSeries := "volume"
    DataSeriesCategory := "month"
    XPosition := 0
    YPosition := 0
    Width := 220
    Height := 120
    Font := unsetFont
    ChartSettings :=
      { zeroChartSettings with
        DistanceFromTopOfChartArea := 10
        DistanceFromBottomOfChartArea := 10
        DistanceFromSidesOfChartArea := 10 } }

/-- A dataset holding the one series `"sales"` with the values 10, 40, 25. -/
def exampleChartData : Data :=
  [{ DataSource := "sales",
     DataPoints := [examplePoint "Jan" 10, examplePoint "Feb" 40, examplePoint "Mar" 25] }]

/-- A text block of width 200 showing `"Hello"`, with font size 9 and line
spacing 3 set in the recipe. -/
def exampleTextBlock : PdfContentItem :=
  { ItemType := "textBlock"
    Text := "Hello"
    DataSource := ""
    DataSeries := ""
    DataSeriesCategory := ""
    XPosition := 5
    YPosition := 7
    Width := 200
    Height := 0
    Font := { unsetFont with Size := 9, LineSpacing := 3 }
    ChartSettings := zeroChartSettings }

/-! ## Quantities named by the claims about charts -/

/-- The font `ProcessVerticalBarChartPDFItem` resolves for the tick and
category labels (source line 272). -/
def chartFont (vbarItem : PdfContentItem) : Font :=
  FetchTextFormattingFromRecipe vbarItem.ChartSettings.ChartTextFont

/-- The local `chartBoxX` (source line 274). -/
def chartBoxX (vbarItem : PdfContentItem) (pdfSettings : PdfFields) : ℚ :=
  vbarItem.XPosition + pdfSettings.PdfSettings.PageLeftAndRightMargins

/-- The local `chartBoxY` (source line 275). -/
def chartBoxY (vbarItem : PdfContentItem) (pdfSettings : PdfFields) : ℚ :=
  vbarItem.YPosition + pdfSettings.PdfSettings.PageTopMargin

/-- The x position of the y axis, `yAxisXPosition` (source line 277). -/
def yAxisX (vbarItem : PdfContentItem) (pdfSettings : PdfFields) : ℚ :=
  chartBoxX vbarItem pdfSettings + vbarItem.ChartSettings.DistanceFromSidesOfChartArea

/-- The top of the y axis, `yAxisMaxYPosition` (source line 278). -/
def axisTop (vbarItem : PdfContentItem) (pdfSettings : PdfFields) : ℚ :=
  chartBoxY vbarItem pdfSettings + vbarItem.ChartSettings.DistanceFromTopOfChartArea

/-- The zero line of the chart, `axisZeroPosition` (source line 279). -/
def axisZero (vbarItem : PdfContentItem) (pdfSettings : PdfFields) : ℚ :=
  chartBoxY vbarItem pdfSettings + vbarItem.Height -
    vbarItem.ChartSettings.DistanceFromBottomOfChartArea

/-- The chart pixel height: `Height` less the distances kept free at the top
and at the bottom of the chart area. -/
def chartPixelHeight (vbarItem : PdfContentItem) : ℚ :=
  vbarItem.Height - vbarItem.ChartSettings.DistanceFromTopOfChartArea -
    vbarItem.ChartSettings.DistanceFromBottomOfChartArea

/-- The requested number of y-axis ticks: the configured number when it is
positive, else 5 (source lines 262-265). -/
def tickCount (vbarItem : PdfContentItem) : ℚ :=
  if vbarItem.ChartSettings.NumberOfYAxisTicks > 0 then
    vbarItem.ChartSettings.NumberOfYAxisTicks
  else 5

/-- The number a record stores under `key`, when it is an object that stores a
number there. -/
def seriesNumber (key : String) : DataPoint → Option ℚ
  | .object fields =>
    match fields.lookup key with
    | some (.num x) => some x
    | _ => none
  | .notObject => none

/-- The series values of the records that have one, in order. -/
def seriesValues (key : String) (points : List DataPoint) : List ℚ :=
  points.filterMap (seriesNumber key)

/-- The largest of 0 and the series values of the records. -/
def seriesMax (vbarItem : PdfContentItem) (points : List DataPoint) : ℚ :=
  (seriesValues vbarItem.DataSeries points).foldl max 0

/-- The y-axis maximum: `GetMaxValueForAxisOnChart` of the series maximum. -/
def axisMax (vbarItem : PdfContentItem) (points : List DataPoint) : ℚ :=
  GetMaxValueForAxisOnChart (seriesMax vbarItem points)

/-- The x-axis cell width for `n` records. -/
def cellWidth (vbarItem : PdfContentItem) (n : ℕ) : ℚ :=
  (vbarItem.Width - 2 * vbarItem.ChartSettings.DistanceFromSidesOfChartArea) / (n : ℚ)

/-- The calls that precede the y-axis ticks: the background, the y-axis line
and the selection of the label font. -/
def chartHead (vbarItem : PdfContentItem) (pdfSettings : PdfFields) : List DrawCall :=
  backgroundCalls vbarItem (chartBoxX vbarItem pdfSettings) (chartBoxY vbarItem pdfSettings) ++
    (axisFormatCalls vbarItem ++
      [.Line (yAxisX vbarItem pdfSettings) (axisTop vbarItem pdfSettings)
        (yAxisX vbarItem pdfSettings) (axisZero vbarItem pdfSettings)]) ++
    [ .SetFont (chartFont vbarItem).Family (chartFont vbarItem).Style (chartFont vbarItem).Size,
      .SetTextColor (chartFont vbarItem).Colour.R (chartFont vbarItem).Colour.G
        (chartFont vbarItem).Colour.B ]

/-- The y-axis tick number `i` (counted from 0 at the top of the axis) of a
chart whose axis maximum is `top`: the tick line at
`axisTop + i * (chartPixelHeight / (N - 1))` and the label showing
`top - i * (top / (N - 1))`, `N` being the requested number of ticks. -/
def specYTick (Sprintf : Option Value → String) (vbarItem : PdfContentItem)
    (pdfSettings : PdfFields) (top : ℚ) (i : ℕ) : List DrawCall :=
  yTickCalls Sprintf vbarItem (chartFont vbarItem) (chartBoxX vbarItem pdfSettings)
    (yAxisX vbarItem pdfSettings) vbarItem.ChartSettings.TickMarkLength
    (axisTop vbarItem pdfSettings +
      (i : ℚ) * (chartPixelHeight vbarItem / (tickCount vbarItem - 1)))
    (top - (i : ℚ) * (top / (tickCount vbarItem - 1)))

/-- The calls drawn for the records `points`, in order, with x-axis cells of
width `w` and y-axis maximum `top`, the record at position `k` of the list
being record `j + k` of the series: its tick mark is at `yAxisX + (j + k) * w`. -/
def expectedBars (vbarItem : PdfContentItem) (pdfSettings : PdfFields) (w top : ℚ) :
    ℕ → List DataPoint → List DrawCall
  | _, [] => []
  | j, point :: rest =>
    barCalls vbarItem (chartFont vbarItem) w top (axisZero vbarItem pdfSettings)
        (axisTop vbarItem pdfSettings) vbarItem.ChartSettings.TickMarkLength
        (yAxisX vbarItem pdfSettings + (j : ℚ) * w)
        ((categoryOf vbarItem.DataSeriesCategory point).getD "")
        ((seriesNumber vbarItem.DataSeries point).getD 0) ++
      expectedBars vbarItem pdfSettings w top (j + 1) rest

/-- The calls that follow the bars: the final x-axis tick mark at `xEnd`, the
x-axis line and the title. -/
def chartEnd (GetStringWidth : String → String → ℚ → String → ℚ) (vbarItem : PdfContentItem)
    (pdfSettings : PdfFields) (xEnd : ℚ) : List DrawCall :=
  xTickCalls vbarItem (axisZero vbarItem pdfSettings) vbarItem.ChartSettings.TickMarkLength
      xEnd ++
    (axisFormatCalls vbarItem ++
      [.Line (yAxisX vbarItem pdfSettings) (axisZero vbarItem pdfSettings)
        (chartBoxX vbarItem pdfSettings +
          (vbarItem.Width - vbarItem.ChartSettings.DistanceFromSidesOfChartArea))
        (axisZero vbarItem pdfSettings)]) ++
    titleCalls GetStringWidth vbarItem (chartBoxX vbarItem pdfSettings)
      (chartBoxY vbarItem pdfSettings)

/-- The `Rect` calls among `calls`, in order. -/
def rectCalls (calls : List DrawCall) : List DrawCall :=
  calls.filter fun c =>
    match c with
    | .Rect _ _ _ _ _ => true
    | _ => false

/-- The `SetFont` calls among `calls`, in order. -/
def setFontCalls (calls : List DrawCall) : List DrawCall :=
  calls.filter fun c =>
    match c with
    | .SetFont _ _ _ => true
    | _ => false

/-- Whether a call draws a multi-line text box. -/
def isTextBox : DrawCall → Bool
  | .MultiCell _ _ _ _ _ _ => true
  | _ => false

/-- The draw calls of one content item: those of the renderer matching its
`ItemType`, and none for any other type. -/
def itemDrawCalls (Sprintf : Option Value → String)
    (GetStringWidth : String → String → ℚ → String → ℚ) (recipe : PdfFields) (dataset : Data)
    (item : PdfContentItem) : Except Panic (List DrawCall) :=
  if item.ItemType = "textBlock" then ProcessTextBlockPDFItem item recipe
  else if item.ItemType = "table" then ProcessTablePDFItem Sprintf item recipe dataset
  else if item.ItemType = "verticalBar" then
    ProcessVerticalBarChartPDFItem Sprintf GetStringWidth item recipe dataset
  else .ok []

/-- A font in which only the header line spacing is set, to 5. -/
def headerSpacingFont : Font :=
  { unsetFont with HeaderFont := { unsetHeaderFont with LineSpacing := 5 } }

/-- Modelled from the spec: the drawing state of the Canvas collaborator that
the setters `setFont`, `setTextColor`, `setFillColor`, `setDrawColor` and
`setLineWidth` change: current font, text colour, fill colour, draw colour
and line width. -/
structure CanvasState where
  fontFamily : String
  fontStyle : String
  fontSize : ℚ
  textColour : Colour
  fillColour : Colour
  drawColour : Colour
  lineWidth : ℚ
  deriving DecidableEq, Repr

/-- Modelled from the spec: the Canvas state after a call; only the five
setters change it. -/
def CanvasState.after (s : CanvasState) : DrawCall → CanvasState
  | .SetFont familyStr styleStr size =>
    { s with fontFamily := familyStr, fontStyle := styleStr, fontSize := size }
  | .SetTextColor r g b => { s with textColour := { R := r, G := g, B := b } }
  | .SetFillColor r g b => { s with fillColour := { R := r, G := g, B := b } }
  | .SetDrawColor r g b => { s with drawColour := { R := r, G := g, B := b } }
  | .SetLineWidth width => { s with lineWidth := width }
  | _ => s

/-- A drawing primitive together with the values, at the time it is drawn, of
the state attributes it depends on: a text cell depends on the font, the
text, fill and draw colours and the line width (borders); a rectangle on the
fill and draw colours and the line width; a line on the draw colour and the
line width. -/
inductive StyledPrimitive where
  | cell (call : DrawCall) (fontFamily fontStyle : String) (fontSize : ℚ)
      (textColour fillColour drawColour : Colour) (lineWidth : ℚ)
  | rect (call : DrawCall) (fillColour drawColour : Colour) (lineWidth : ℚ)
  | line (call : DrawCall) (drawColour : Colour) (lineWidth : ℚ)
  deriving DecidableEq, Repr

/-- Modelled from the spec: the primitives drawn by a sequence of calls made
on a Canvas in state `s`, each with its effective styling. -/
def drawn : CanvasState → List DrawCall → List StyledPrimitive
  | _, [] => []
  | s, call :: rest =>
    match call with
    | .MultiCell _ _ _ _ _ _ =>
      .cell call s.fontFamily s.fontStyle s.fontSize s.textColour s.fillColour s.drawColour
        s.lineWidth :: drawn s rest
    | .CellFormat _ _ _ _ _ _ _ _ _ =>
      .cell call s.fontFamily s.fontStyle s.fontSize s.textColour s.fillColour s.drawColour
        s.lineWidth :: drawn s rest
    | .Rect _ _ _ _ _ => .rect call s.fillColour s.drawColour s.lineWidth :: drawn s rest
    | .Line _ _ _ _ => .line call s.drawColour s.lineWidth :: drawn s rest
    | _ => drawn (s.after call) rest

/-- A Canvas state with black colours, font Helvetica 9 and the given line
width. -/
def exampleCanvas (lineWidth : ℚ) : CanvasState :=
  { fontFamily := "Helvetica"
    fontStyle := ""
    fontSize := 9
    textColour := { R := 0, G := 0, B := 0 }
    fillColour := { R := 0, G := 0, B := 0 }
    drawColour := { R := 0, G := 0, B := 0 }
    lineWidth := lineWidth }

/-- A Canvas state with red colours, font Courier bold 20 and the given line
width. -/
def otherCanvas (lineWidth : ℚ) : CanvasState :=
  { fontFamily := "Courier"
    fontStyle := "B"
    fontSize := 20
    textColour := { R := 255, G := 0, B := 0 }
    fillColour := { R := 255, G := 0, B := 0 }
    drawColour := { R := 255, G := 0, B := 0 }
    lineWidth := lineWidth }

/-! ## `InitialisePDF` -/

/-- The document `InitialisePDF` returns: the arguments of `gofpdf.New` and
the calls then made on the new document. -/
structure Document where
  orientationStr : String
  unitStr : String
  sizeStr : String
  fontDirStr : String
  calls : List DrawCall
  deriving DecidableEq, Repr

/-- Go function `InitialisePDF` (source lines 561-626); the returned `err` is
always `nil`. -/
def InitialisePDF (recipeFile : PdfFields) : Document :=
  let pageOrientation :=
    if recipeFile.PdfSettings.PageOrientation = "L" ∨
        recipeFile.PdfSettings.PageOrientation = "P" then
      recipeFile.PdfSettings.PageOrientation
    else "P"
  let pageUnits :=
    if recipeFile.PdfSettings.PageUnits = "pt" ∨ recipeFile.PdfSettings.PageUnits = "mm" ∨
        recipeFile.PdfSettings.PageUnits = "cm" ∨ recipeFile.PdfSettings.PageUnits = "in" then
      recipeFile.PdfSettings.PageUnits
    else "pt"
  let pageWidth : ℚ :=
    if recipeFile.PdfSettings.PageWidth > 0 then recipeFile.PdfSettings.PageWidth else 595.28
  let pageHeight : ℚ :=
    if recipeFile.PdfSettings.PageHeight > 0 then recipeFile.PdfSettings.PageHeight else 841.89
  let leftAndRightMargin : ℚ :=
    if recipeFile.PdfSettings.PageLeftAndRightMargins ≥ 0 then
      recipeFile.PdfSettings.PageLeftAndRightMargins
    else 28.3
  let topMarginPage : ℚ :=
    if recipeFile.PdfSettings.PageTopMargin ≥ 0 then recipeFile.PdfSettings.PageTopMargin
    else 42.5
  -- source lines 595-598: `pageWidth = pageHeight` and then `pageHeight = pageWidth`
  let pageWidth : ℚ := if pageOrientation = "L" then pageHeight else pageWidth
  let pageHeight : ℚ := if pageOrientation = "L" then pageWidth else pageHeight
  let watermarkR : Int :=
    if recipeFile.PdfSettings.Watermark.R ≥ 0 then recipeFile.PdfSettings.Watermark.R else -1
  let watermarkG : Int :=
    if recipeFile.PdfSettings.Watermark.G ≥ 0 then recipeFile.PdfSettings.Watermark.G else -1
  let watermarkB : Int :=
    if recipeFile.PdfSettings.Watermark.B ≥ 0 then recipeFile.PdfSettings.Watermark.B else -1
  { orientationStr := pageOrientation
    unitStr := pageUnits
    sizeStr := "A4"
    fontDirStr := ""
    calls :=
      [ .AddPage,
        .SetMargins leftAndRightMargin topMarginPage leftAndRightMargin,
        .SetAutoPageBreak true 2 ] ++
      (if watermarkR ≥ 0 then
        [ .SetFillColor watermarkR watermarkG watermarkB,
          .Rect 0 0 pageWidth pageHeight "F" ]
      else []) }

/-- The page width `InitialisePDF` uses before looking at the orientation:
the configured width when positive, else the default (source lines 567, 581). -/
def effectivePageWidth (recipeFile : PdfFields) : ℚ :=
  if recipeFile.PdfSettings.PageWidth > 0 then recipeFile.PdfSettings.PageWidth else 595.28

/-- The page height `InitialisePDF` uses before looking at the orientation:
the configured height when positive, else the default (source lines 568, 584). -/
def effectivePageHeight (recipeFile : PdfFields) : ℚ :=
  if recipeFile.PdfSettings.PageHeight > 0 then recipeFile.PdfSettings.PageHeight else 841.89

/-- Page settings for a landscape page 100 wide and 200 high with a grey
watermark. -/
def landscapeFields : PdfFields :=
  { PdfSettings :=
      { PageOrientation := "L"
        PageUnits := "pt"
        PdfName := ""
        PdfLocation := ""
        PageHeight := 200
        PageWidth := 100
        PageLeftAndRightMargins := 0
        PageTopMargin := 0
        Watermark := { R := 200, G := 200, B := 200 } }
    PdfContents := [] }

/-! ## Quantities named by the claims about x-axis ticks -/

/-- The `Line` calls among `calls`, in order. -/
def lineCalls (calls : List DrawCall) : List DrawCall :=
  calls.filter fun c =>
    match c with
    | .Line _ _ _ _ => true
    | _ => false

/-- The x-axis tick mark number `j` (counted from 0 at the y axis) of a chart
of `n` records: a line of the tick mark length going down from the zero line
at `yAxisX + j * cellWidth`. -/
def xTickLine (vbarItem : PdfContentItem) (pdfSettings : PdfFields) (n j : ℕ) : DrawCall :=
  .Line (yAxisX vbarItem pdfSettings + (j : ℚ) * cellWidth vbarItem n)
    (axisZero vbarItem pdfSettings)
    (yAxisX vbarItem pdfSettings + (j : ℚ) * cellWidth vbarItem n)
    (axisZero vbarItem pdfSettings + vbarItem.ChartSettings.TickMarkLength)

/-- The right endpoint of the x-axis baseline. -/
def xAxisEnd (vbarItem : PdfContentItem) (pdfSettings : PdfFields) : ℚ :=
  chartBoxX vbarItem pdfSettings + vbarItem.Width -
    vbarItem.ChartSettings.DistanceFromSidesOfChartArea

/-- The calls that follow the last x-axis tick mark: the x-axis baseline, from
the y axis to `xAxisEnd`, and the title. -/
def baselineAndTitle (GetStringWidth : String → String → ℚ → String → ℚ)
    (vbarItem : PdfContentItem) (pdfSettings : PdfFields) : List DrawCall :=
  (axisFormatCalls vbarItem ++
    [.Line (yAxisX vbarItem pdfSettings) (axisZero vbarItem pdfSettings)
      (xAxisEnd vbarItem pdfSettings) (axisZero vbarItem pdfSettings)]) ++
  titleCalls GetStringWidth vbarItem (chartBoxX vbarItem pdfSettings)
    (chartBoxY vbarItem pdfSettings)

/-- A dataset holding the one series `"sales"` whose two values are not
positive. -/
def nonPositiveData : Data :=
  [{ DataSource := "sales", DataPoints := [examplePoint "Jan" 0, examplePoint "Feb" (-5)] }]

/-! ## Go `float64` arithmetic -/

/-- A value of a Go `float64` variable (IEEE-754 binary64): a finite value,
held as the rational it denotes, an infinity, or NaN.  The two zeros are not
told apart: comparisons treat them alike, and no divisor in `pdf_creator.go`
can be the negative zero (the divisors are `place`, the axis maximum, the
record count, the tick count less one and the constant 2, each of them `+0`
or positive when it is a zero or is reached from recipe values through the
statements of the program), so only the sign of a zero handed to the canvas
is forgotten. -/
inductive F64 where
  | fin (q : ℚ)
  | inf (negative : Bool)
  | nan
  deriving DecidableEq, Repr

/-- The integer part of the binary logarithm of `n ≥ 1`, found by halving `n`
at most `fuel` times. -/
def log2Loop : ℕ → ℕ → ℕ
  | 0, _ => 0
  | fuel + 1, n => if n < 2 then 0 else log2Loop fuel (n / 2) + 1

/-- The binary exponent of a positive rational `a`: the integer `e` with
`2 ^ e ≤ a < 2 ^ (e + 1)` (`binade_spec`). -/
def binade (a : ℚ) : ℤ :=
  let e0 : ℤ := (log2Loop a.num.natAbs a.num.natAbs : ℤ) - (log2Loop a.den a.den : ℤ)
  if (2 : ℚ) ^ e0 ≤ a then e0 else e0 - 1

/-- The integer nearest to `x`, the even one of the two when `x` lies half way
between them. -/
def roundHalfEven (x : ℚ) : ℤ :=
  if x - ⌊x⌋ < 1 / 2 then ⌊x⌋
  else if x - ⌊x⌋ > 1 / 2 then ⌊x⌋ + 1
  else if ⌊x⌋ % 2 = 0 then ⌊x⌋ else ⌊x⌋ + 1

/-- Rounding of a real result to `float64`: to the nearest value with a 53-bit
significand and an exponent from -1022 (below `2 ^ (-1022)` the spacing stays
`2 ^ (-1074)`), ties to the even significand; a result that rounds to
`2 ^ 1024` or more is an infinity. -/
def round64 (q : ℚ) : F64 :=
  if q = 0 then .fin 0
  else
    let e : ℤ := max (binade |q|) (-1022)
    let quantum : ℚ := (2 : ℚ) ^ (e - 52)
    let r : ℚ := (roundHalfEven (|q| / quantum) : ℚ) * quantum
    if r ≥ (2 : ℚ) ^ (1024 : ℤ) then .inf (decide (q < 0))
    else .fin (if q < 0 then -r else r)

/-- Whether the rational `q` is a `float64` value. -/
def isFloat64 (q : ℚ) : Prop := round64 q = .fin q

instance (q : ℚ) : Decidable (isFloat64 q) := by
  unfold isFloat64
  infer_instance

namespace F64

/-- Go unary `-x`. -/
def neg : F64 → F64
  | .fin q => .fin (-q)
  | .inf s => .inf (!s)
  | .nan => .nan

/-- Go `x + y`. -/
def add : F64 → F64 → F64
  | .fin a, .fin b => round64 (a + b)
  | .fin _, .inf s => .inf s
  | .inf s, .fin _ => .inf s
  | .inf s, .inf t => if s = t then .inf s else .nan
  | _, _ => .nan

/-- Go `x - y`. -/
def sub (x y : F64) : F64 := add x (neg y)

/-- Go `x * y`. -/
def mul : F64 → F64 → F64
  | .fin a, .fin b => round64 (a * b)
  | .fin a, .inf s => if a = 0 then .nan else .inf (decide (a < 0) != s)
  | .inf s, .fin b => if b = 0 then .nan else .inf (s != decide (b < 0))
  | .inf s, .inf t => .inf (s != t)
  | _, _ => .nan

/-- Go `x / y`; a division by zero does not panic. -/
def div : F64 → F64 → F64
  | .fin a, .fin b =>
    if b = 0 then (if a = 0 then .nan else .inf (decide (a < 0)))
    else round64 (a / b)
  | .fin _, .inf _ => .fin 0
  | .inf s, .fin b => .inf (s != decide (b < 0))
  | _, _ => .nan

/-- Go `math.Ceil`. -/
def ceil : F64 → F64
  | .fin q => .fin ⌈q⌉
  | x => x

/-- Go `x < y`; a comparison with NaN is false. -/
def lt : F64 → F64 → Bool
  | .fin a, .fin b => decide (a < b)
  | .fin _, .inf s => !s
  | .inf s, .fin _ => s
  | .inf s, .inf t => s && !t
  | _, _ => false

/-- Go `x <= y`; a comparison with NaN is false. -/
def le : F64 → F64 → Bool
  | .fin a, .fin b => decide (a ≤ b)
  | .fin _, .inf s => !s
  | .inf s, .fin _ => s
  | .inf s, .inf t => s || !t
  | _, _ => false

/-- Go `x > y`. -/
def gt (x y : F64) : Bool := lt y x

/-- Go `x >= y`. -/
def ge (x y : F64) : Bool := le y x

end F64

/-! ## The renderers in `float64` arithmetic

The definitions above compute with exact rationals.  The definitions of this
part follow the same source lines with every `float64` operation rounded as Go
rounds it; the `float64` fields of the recipe and the numbers of the data hold
the values that `encoding/json` decoded (finite `float64` values, as
rationals). -/

/-- The calls made on the `*gofpdf.Fpdf` value by the renderers, with their
`float64` arguments. -/
inductive DrawCall64 where
  | SetFont (familyStr styleStr : String) (size : F64)
  | SetTextColor (r g b : Int)
  | SetFillColor (r g b : Int)
  | SetDrawColor (r g b : Int)
  | SetLineWidth (width : F64)
  | SetXY (x y : F64)
  | MultiCell (w h : F64) (txtStr borderStr alignStr : String) (fill : Bool)
  | CellFormat (w h : F64) (txtStr borderStr : String) (ln : Int) (alignStr : String)
      (fill : Bool) (link : Int) (linkStr : String)
  | Rect (x y w h : F64) (styleStr : String)
  | Line (x1 y1 x2 y2 : F64)
  deriving DecidableEq, Repr

section Table64

variable (Sprintf : Option Value → String)

/-- The loop `for _, point := range dataset.DataPoints` of `ProcessTablePDFItem`
(source lines 233-251) in `float64` arithmetic, started with the given values
of `getYPosition` and `cumulativeTableHeight`.  It returns the calls made and
the final value of `getYPosition`. -/
def tableRows64 (tableItem : PdfContentItem) (font : Font)
    (tableWidth columnWidth getXPosition : F64) :
    List DataPoint → F64 → F64 → Except Panic (List DrawCall64 × F64)
  | [], getYPosition, _ => .ok ([], getYPosition)
  | point :: rest, getYPosition, cumulativeTableHeight =>
    if F64.gt
        (F64.add cumulativeTableHeight
          (F64.mul (.fin 0.5) (F64.add (.fin font.Size) (.fin font.LineSpacing))))
        (.fin tableItem.Height) = true then
      .ok ([ .SetXY getXPosition getYPosition,
             .MultiCell tableWidth
               (F64.mul (.fin 0.5) (F64.add (.fin font.Size) (.fin font.LineSpacing))) "..."
               font.CellBorders.Style "CB" font.CellFill.Filled ], getYPosition)
    else
      match assertMap point with
      | .error e => .error e
      | .ok fields =>
        match assertString (fields.lookup tableItem.DataSeriesCategory) with
        | .error e => .error e
        | .ok category =>
          match tableRows64 tableItem font tableWidth columnWidth getXPosition rest
              (F64.add (F64.add getYPosition (.fin font.Size)) (.fin font.LineSpacing))
              (F64.add (F64.add cumulativeTableHeight (.fin font.Size))
                (.fin font.LineSpacing)) with
          | .error e => .error e
          | .ok (calls, y) =>
            .ok ([ .SetXY getXPosition getYPosition,
                   .MultiCell columnWidth (F64.add (.fin font.Size) (.fin font.LineSpacing))
                     category font.CellBorders.Style font.Alignment font.CellFill.Filled,
                   .SetXY (F64.add getXPosition columnWidth) getYPosition,
                   .MultiCell columnWidth (F64.add (.fin font.Size) (.fin font.LineSpacing))
                     (Sprintf (fields.lookup tableItem.DataSeries)) font.CellBorders.Style
                     font.Alignment font.CellFill.Filled ] ++ calls, y)

/-- The body of `if tableItem.DataSource == dataset.DataSource` in
`ProcessTablePDFItem` (source lines 209-251) for one dataset, in `float64`
arithmetic. -/
def tableSeries64 (tableItem : PdfContentItem) (font : Font)
    (tableWidth columnWidth getXPosition : F64) (dataset : DataSet) (getYPosition : F64) :
    Except Panic (List DrawCall64 × F64) :=
  match tableRows64 Sprintf tableItem font tableWidth columnWidth getXPosition
      dataset.DataPoints
      (F64.add (F64.add getYPosition (.fin font.HeaderFont.Size))
        (.fin font.HeaderFont.LineSpacing))
      (F64.add (.fin font.HeaderFont.Size) (.fin font.HeaderFont.LineSpacing)) with
  | .error e => .error e
  | .ok (rows, y) =>
    .ok ([ .SetFont font.HeaderFont.Family font.HeaderFont.Style (.fin font.HeaderFont.Size),
           .SetTextColor font.HeaderFont.Colour.R font.HeaderFont.Colour.G
             font.HeaderFont.Colour.B,
           .SetFillColor font.HeaderFont.CellFill.Colour.R font.HeaderFont.CellFill.Colour.G
             font.HeaderFont.CellFill.Colour.B,
           .SetDrawColor font.HeaderFont.CellBorders.Colour.R
             font.HeaderFont.CellBorders.Colour.G font.HeaderFont.CellBorders.Colour.B,
           .SetXY getXPosition getYPosition,
           .MultiCell columnWidth
             (F64.add (.fin font.HeaderFont.Size) (.fin font.HeaderFont.LineSpacing))
             tableItem.DataSeriesCategory font.HeaderFont.CellBorders.Style
             font.HeaderFont.Alignment font.HeaderFont.CellFill.Filled,
           .SetXY (F64.add getXPosition columnWidth) getYPosition,
           .MultiCell columnWidth
             (F64.add (.fin font.HeaderFont.Size) (.fin font.HeaderFont.LineSpacing))
             tableItem.DataSeries font.HeaderFont.CellBorders.Style
             font.HeaderFont.Alignment font.HeaderFont.CellFill.Filled,
           .SetFont font.Family font.Style (.fin font.Size),
           .SetTextColor font.Colour.R font.Colour.G font.Colour.B,
           .SetFillColor font.CellFill.Colour.R font.CellFill.Colour.G font.CellFill.Colour.B,
           .SetDrawColor font.CellBorders.Colour.R font.CellBorders.Colour.G
             font.CellBorders.Colour.B ] ++ rows, y)

/-- The loop `for _, dataset := range data` of `ProcessTablePDFItem` (source
lines 206-253) in `float64` arithmetic; `getYPosition` is carried from one
matching dataset to the next. -/
def tableDatasets64 (tableItem : PdfContentItem) (font : Font)
    (tableWidth columnWidth getXPosition : F64) : Data → F64 → Except Panic (List DrawCall64)
  | [], _ => .ok []
  | dataset :: rest, getYPosition =>
    if tableItem.DataSource = dataset.DataSource then
      match tableSeries64 Sprintf tableItem font tableWidth columnWidth getXPosition dataset
          getYPosition with
      | .error e => .error e
      | .ok (calls, y) =>
        match tableDatasets64 tableItem font tableWidth columnWidth getXPosition rest y with
        | .error e => .error e
        | .ok more => .ok (calls ++ more)
    else
      tableDatasets64 tableItem font tableWidth columnWidth getXPosition rest getYPosition

/-- Go function `ProcessTablePDFItem` (source lines 192-256) in `float64`
arithmetic.  The result `.ok calls` is a normal return (the Go `err` is always
`nil`) after the calls `calls` were made on `pdf`; `.error` is a panic. -/
def ProcessTablePDFItem64 (tableItem : PdfContentItem) (pdfFields : PdfFields) (data : Data) :
    Except Panic (List DrawCall64) :=
  let font := FetchTextFormattingFromRecipe tableItem.Font
  let tableWidth : ℚ := if tableItem.Width ≥ 0 then tableItem.Width else 100
  let columnWidth := F64.div (.fin tableWidth) (.fin 2)
  let getXPosition :=
    F64.add (.fin tableItem.XPosition) (.fin pdfFields.PdfSettings.PageLeftAndRightMargins)
  let getYPosition :=
    F64.add (.fin tableItem.YPosition) (.fin pdfFields.PdfSettings.PageTopMargin)
  tableDatasets64 Sprintf tableItem font (.fin tableWidth) columnWidth getXPosition data
    getYPosition

end Table64

/-! ## Quantities named by the claims about tables, in `float64` -/

/-- Height of the header row as the code computes it: resolved header size
plus header line spacing, rounded. -/
def headerHeight64 (tableItem : PdfContentItem) : F64 :=
  F64.add (.fin (tableFont tableItem).HeaderFont.Size)
    (.fin (tableFont tableItem).HeaderFont.LineSpacing)

/-- Height of a data row as the code computes it: resolved size plus line
spacing, rounded. -/
def rowHeight64 (tableItem : PdfContentItem) : F64 :=
  F64.add (.fin (tableFont tableItem).Size) (.fin (tableFont tableItem).LineSpacing)

/-- Half the height of a data row, as the code computes it. -/
def halfRowHeight64 (tableItem : PdfContentItem) : F64 :=
  F64.mul (.fin 0.5) (rowHeight64 tableItem)

/-- The local `columnWidth` of `ProcessTablePDFItem` (source line 199). -/
def columnWidth64 (tableItem : PdfContentItem) : F64 :=
  F64.div (.fin (tableWidthOf tableItem)) (.fin 2)

/-- The initial `getXPosition` of `ProcessTablePDFItem` (source line 202). -/
def tableLeft64 (tableItem : PdfContentItem) (pdfFields : PdfFields) : F64 :=
  F64.add (.fin tableItem.XPosition) (.fin pdfFields.PdfSettings.PageLeftAndRightMargins)

/-- The initial `getYPosition` of `ProcessTablePDFItem` (source line 203). -/
def tableTop64 (tableItem : PdfContentItem) (pdfFields : PdfFields) : F64 :=
  F64.add (.fin tableItem.YPosition) (.fin pdfFields.PdfSettings.PageTopMargin)

/-- A running `float64` total after `j` data rows, started at `start`: each
data row adds the resolved size and then the line spacing (source lines 249
and 250). -/
def afterRows64 (tableItem : PdfContentItem) (start : F64) : ℕ → F64
  | 0 => start
  | j + 1 =>
    F64.add (F64.add (afterRows64 tableItem start j) (.fin (tableFont tableItem).Size))
      (.fin (tableFont tableItem).LineSpacing)

/-- The running cumulative height `cumulativeTableHeight` before data row `j`:
the header row height and then `j` data rows. -/
def runningHeight64 (tableItem : PdfContentItem) (j : ℕ) : F64 :=
  afterRows64 tableItem (headerHeight64 tableItem) j

/-- The top `getYPosition` of data row `j`: the table top, the header size and
header line spacing added one after the other, and then `j` data rows. -/
def rowTop64 (tableItem : PdfContentItem) (pdfFields : PdfFields) (j : ℕ) : F64 :=
  afterRows64 tableItem
    (F64.add
      (F64.add (tableTop64 tableItem pdfFields) (.fin (tableFont tableItem).HeaderFont.Size))
      (.fin (tableFont tableItem).HeaderFont.LineSpacing)) j

/-- The height test made before data row `j` (source line 239): whether the
running cumulative height plus half a data-row height is greater than the
declared `Height`, all in `float64`. -/
def heightCheck64 (tableItem : PdfContentItem) (j : ℕ) : Bool :=
  F64.gt (F64.add (runningHeight64 tableItem j) (halfRowHeight64 tableItem))
    (.fin tableItem.Height)

/-- The header row: the header format and the two header cells, showing the
names of the category and of the series, at the top of the table. -/
def specHeaderRow64 (tableItem : PdfContentItem) (pdfFields : PdfFields) : List DrawCall64 :=
  [ .SetFont (tableFont tableItem).HeaderFont.Family (tableFont tableItem).HeaderFont.Style
      (.fin (tableFont tableItem).HeaderFont.Size),
    .SetTextColor (tableFont tableItem).HeaderFont.Colour.R
      (tableFont tableItem).HeaderFont.Colour.G (tableFont tableItem).HeaderFont.Colour.B,
    .SetFillColor (tableFont tableItem).HeaderFont.CellFill.Colour.R
      (tableFont tableItem).HeaderFont.CellFill.Colour.G
      (tableFont tableItem).HeaderFont.CellFill.Colour.B,
    .SetDrawColor (tableFont tableItem).HeaderFont.CellBorders.Colour.R
      (tableFont tableItem).HeaderFont.CellBorders.Colour.G
      (tableFont tableItem).HeaderFont.CellBorders.Colour.B,
    .SetXY (tableLeft64 tableItem pdfFields) (tableTop64 tableItem pdfFields),
    .MultiCell (columnWidth64 tableItem) (headerHeight64 tableItem)
      tableItem.DataSeriesCategory (tableFont tableItem).HeaderFont.CellBorders.Style "CM"
      (tableFont tableItem).HeaderFont.CellFill.Filled,
    .SetXY (F64.add (tableLeft64 tableItem pdfFields) (columnWidth64 tableItem))
      (tableTop64 tableItem pdfFields),
    .MultiCell (columnWidth64 tableItem) (headerHeight64 tableItem)
      tableItem.DataSeries (tableFont tableItem).HeaderFont.CellBorders.Style "CM"
      (tableFont tableItem).HeaderFont.CellFill.Filled ]

/-- The format of the data rows. -/
def specRowFormat64 (tableItem : PdfContentItem) : List DrawCall64 :=
  [ .SetFont (tableFont tableItem).Family (tableFont tableItem).Style
      (.fin (tableFont tableItem).Size),
    .SetTextColor (tableFont tableItem).Colour.R (tableFont tableItem).Colour.G
      (tableFont tableItem).Colour.B,
    .SetFillColor (tableFont tableItem).CellFill.Colour.R
      (tableFont tableItem).CellFill.Colour.G (tableFont tableItem).CellFill.Colour.B,
    .SetDrawColor (tableFont tableItem).CellBorders.Colour.R
      (tableFont tableItem).CellBorders.Colour.G (tableFont tableItem).CellBorders.Colour.B ]

/-- The data rows of the records `points`, in order, the first of them being
data row `j` of the table: for each record one category cell and one value
cell, each a column wide and a data row high, side by side at the top of
their row. -/
def specDataRows64 (Sprintf : Option Value → String) (tableItem : PdfContentItem)
    (pdfFields : PdfFields) : ℕ → List DataPoint → List DrawCall64
  | _, [] => []
  | j, point :: rest =>
    [ .SetXY (tableLeft64 tableItem pdfFields) (rowTop64 tableItem pdfFields j),
      .MultiCell (columnWidth64 tableItem) (rowHeight64 tableItem)
        ((categoryOf tableItem.DataSeriesCategory point).getD "")
        (tableFont tableItem).CellBorders.Style "CM" (tableFont tableItem).CellFill.Filled,
      .SetXY (F64.add (tableLeft64 tableItem pdfFields) (columnWidth64 tableItem))
        (rowTop64 tableItem pdfFields j),
      .MultiCell (columnWidth64 tableItem) (rowHeight64 tableItem)
        (Sprintf (seriesValueOf tableItem.DataSeries point))
        (tableFont tableItem).CellBorders.Style "CM" (tableFont tableItem).CellFill.Filled ] ++
    specDataRows64 Sprintf tableItem pdfFields (j + 1) rest

/-- The ellipsis row drawn in place of data row `k`: one cell as wide as the
table and half a data row high, showing `"..."`. -/
def specEllipsisRow64 (tableItem : PdfContentItem) (pdfFields : PdfFields) (k : ℕ) :
    List DrawCall64 :=
  [ .SetXY (tableLeft64 tableItem pdfFields) (rowTop64 tableItem pdfFields k),
    .MultiCell (.fin (tableWidthOf tableItem)) (halfRowHeight64 tableItem) "..."
      (tableFont tableItem).CellBorders.Style "CB" (tableFont tableItem).CellFill.Filled ]

/-- The calls of a table showing the header row, the first `k` records of
`points` as data rows and, when `ellipsis` is set, the ellipsis row below
them. -/
def specTable64 (Sprintf : Option Value → String) (tableItem : PdfContentItem)
    (pdfFields : PdfFields) (points : List DataPoint) (k : ℕ) (ellipsis : Bool) :
    List DrawCall64 :=
  specHeaderRow64 tableItem pdfFields ++ specRowFormat64 tableItem ++
    specDataRows64 Sprintf tableItem pdfFields 0 (points.take k) ++
    (if ellipsis then specEllipsisRow64 tableItem pdfFields k else [])

/-- Whether a call draws an ellipsis cell (text `"..."`, alignment `"CB"`). -/
def isEllipsisCell64 : DrawCall64 → Bool
  | .MultiCell _ _ txtStr _ alignStr _ => txtStr == "..." && alignStr == "CB"
  | _ => false

/-- Whether a call draws a multi-line text cell. -/
def isTextBox64 : DrawCall64 → Bool
  | .MultiCell _ _ _ _ _ _ => true
  | _ => false

/-! ## The table, call by call -/

/-- The header row in exact arithmetic: the header format and the two header
cells, showing the names of the category and of the series, at the top of the
table. -/
def specHeaderRow (tableItem : PdfContentItem) (pdfFields : PdfFields) : List DrawCall :=
  [ .SetFont (tableFont tableItem).HeaderFont.Family (tableFont tableItem).HeaderFont.Style
      (tableFont tableItem).HeaderFont.Size,
    .SetTextColor (tableFont tableItem).HeaderFont.Colour.R
      (tableFont tableItem).HeaderFont.Colour.G (tableFont tableItem).HeaderFont.Colour.B,
    .SetFillColor (tableFont tableItem).HeaderFont.CellFill.Colour.R
      (tableFont tableItem).HeaderFont.CellFill.Colour.G
      (tableFont tableItem).HeaderFont.CellFill.Colour.B,
    .SetDrawColor (tableFont tableItem).HeaderFont.CellBorders.Colour.R
      (tableFont tableItem).HeaderFont.CellBorders.Colour.G
      (tableFont tableItem).HeaderFont.CellBorders.Colour.B,
    .SetXY (tableLeft tableItem pdfFields) (tableTop tableItem pdfFields),
    .MultiCell (tableWidthOf tableItem / 2) (headerHeight tableItem)
      tableItem.DataSeriesCategory (tableFont tableItem).HeaderFont.CellBorders.Style "CM"
      (tableFont tableItem).HeaderFont.CellFill.Filled,
    .SetXY (tableLeft tableItem pdfFields + tableWidthOf tableItem / 2)
      (tableTop tableItem pdfFields),
    .MultiCell (tableWidthOf tableItem / 2) (headerHeight tableItem)
      tableItem.DataSeries (tableFont tableItem).HeaderFont.CellBorders.Style "CM"
      (tableFont tableItem).HeaderFont.CellFill.Filled ]

/-- The format of the data rows. -/
def specRowFormat (tableItem : PdfContentItem) : List DrawCall :=
  [ .SetFont (tableFont tableItem).Family (tableFont tableItem).Style
      (tableFont tableItem).Size,
    .SetTextColor (tableFont tableItem).Colour.R (tableFont tableItem).Colour.G
      (tableFont tableItem).Colour.B,
    .SetFillColor (tableFont tableItem).CellFill.Colour.R
      (tableFont tableItem).CellFill.Colour.G (tableFont tableItem).CellFill.Colour.B,
    .SetDrawColor (tableFont tableItem).CellBorders.Colour.R
      (tableFont tableItem).CellBorders.Colour.G (tableFont tableItem).CellBorders.Colour.B ]

/-- The top of data row `j` in exact arithmetic: the table top, the header row
height and `j` data-row heights. -/
def rowTop (tableItem : PdfContentItem) (pdfFields : PdfFields) (j : ℕ) : ℚ :=
  tableTop tableItem pdfFields + headerHeight tableItem + (j : ℚ) * rowHeight tableItem

/-- The data rows of the records `points` in exact arithmetic, in order, the
first of them being data row `j` of the table: for each record one category
cell and one value cell, each a column wide and a data row high, side by side
at the top of their row. -/
def specDataRows (Sprintf : Option Value → String) (tableItem : PdfContentItem)
    (pdfFields : PdfFields) : ℕ → List DataPoint → List DrawCall
  | _, [] => []
  | j, point :: rest =>
    [ .SetXY (tableLeft tableItem pdfFields) (rowTop tableItem pdfFields j),
      .MultiCell (tableWidthOf tableItem / 2) (rowHeight tableItem)
        ((categoryOf tableItem.DataSeriesCategory point).getD "")
        (tableFont tableItem).CellBorders.Style "CM" (tableFont tableItem).CellFill.Filled,
      .SetXY (tableLeft tableItem pdfFields + tableWidthOf tableItem / 2)
        (rowTop tableItem pdfFields j),
      .MultiCell (tableWidthOf tableItem / 2) (rowHeight tableItem)
        (Sprintf (seriesValueOf tableItem.DataSeries point))
        (tableFont tableItem).CellBorders.Style "CM" (tableFont tableItem).CellFill.Filled ] ++
    specDataRows Sprintf tableItem pdfFields (j + 1) rest

/-- The ellipsis row drawn in place of data row `k`, in exact arithmetic: one
cell as wide as the table and half a data row high, showing `"..."`. -/
def specEllipsisRow (tableItem : PdfContentItem) (pdfFields : PdfFields) (k : ℕ) :
    List DrawCall :=
  [ .SetXY (tableLeft tableItem pdfFields) (rowTop tableItem pdfFields k),
    .MultiCell (tableWidthOf tableItem) (0.5 * rowHeight tableItem) "..."
      (tableFont tableItem).CellBorders.Style "CB" (tableFont tableItem).CellFill.Filled ]

/-- The calls of a table in exact arithmetic, showing the header row, the
first `k` records of `points` as data rows and, when `ellipsis` is set, the
ellipsis row below them. -/
def specTable (Sprintf : Option Value → String) (tableItem : PdfContentItem)
    (pdfFields : PdfFields) (points : List DataPoint) (k : ℕ) (ellipsis : Bool) :
    List DrawCall :=
  specHeaderRow tableItem pdfFields ++ specRowFormat tableItem ++
    specDataRows Sprintf tableItem pdfFields 0 (points.take k) ++
    (if ellipsis then specEllipsisRow tableItem pdfFields k else [])

/-- The top and the height of every text cell among `calls`: a `MultiCell` is
drawn with its top at the `y` of the last `SetXY` call before it (`y0` when
there is none) and is `h` high. -/
def cellExtents : ℚ → List DrawCall → List (ℚ × ℚ)
  | _, [] => []
  | _, .SetXY _ y :: rest => cellExtents y rest
  | y0, .MultiCell _ h _ _ _ _ :: rest => (y0, h) :: cellExtents y0 rest
  | y0, _ :: rest => cellExtents y0 rest

/-! ## Example inputs in `float64` -/

/-- The `float64` value that the decimal number `q` of a recipe or of a data
file denotes: the one nearest to `q`. -/
def dec64 (q : ℚ) : ℚ :=
  match round64 q with
  | .fin r => r
  | _ => 0

/-- Four records of the series `"sales"`. -/
def fourRecords : Data :=
  [{ DataSource := "sales",
     DataPoints := [examplePoint "Jan" 10, examplePoint "Feb" 40, examplePoint "Mar" 25,
       examplePoint "Apr" 30] }]

/-- A table of declared height 52.2 with font size 8 and line spacing 3.2:
the header row is 13 high and a data row is 11.2 high, and the three decimal
fractions are not `float64` values. -/
def roundingTable : PdfContentItem :=
  { exampleTable (dec64 52.2) with
    Font := { unsetFont with Size := 8, LineSpacing := dec64 3.2 } }

/-- The ways in which a run in `float64` does not return: a failed type
assertion, or a loop that never ends. -/
inductive Abort where
  | panic
  | endless
  deriving DecidableEq, Repr

/-- The loop `for maxValueFromData >= place*10.0 { place *= 10.0 }` of
`GetMaxValueForAxisOnChart` in `float64`, its test evaluated at most `fuel`
times; the result is the value of `place` when the loop stops, `none` when it
has not stopped. -/
def placeLoop64 : ℕ → F64 → F64 → Option F64
  | 0, _, _ => none
  | fuel + 1, maxValueFromData, place =>
    if F64.ge maxValueFromData (F64.mul place (.fin 10)) = true then
      placeLoop64 fuel maxValueFromData (F64.mul place (.fin 10))
    else some place

/-- Go function `GetMaxValueForAxisOnChart` (source lines 385-391) in
`float64`.  The loop is given 1024 evaluations of its test, which are enough
for it to stop unless the argument is `+Inf` (`placeLoop64_returns`), for
which the Go loop never ends; the result is then `none`. -/
def GetMaxValueForAxisOnChart64 (maxValueFromData : F64) : Option F64 :=
  match placeLoop64 1024 maxValueFromData (.fin 1) with
  | none => none
  | some place => some (F64.mul (F64.ceil (F64.div maxValueFromData place)) place)

/-- The scan of the series values (source lines 291-297) in `float64`, started
with the given values of `maxValueFromData` and `numberCategories`; it returns
their final values. -/
def scanSeries64 (vbarItem : PdfContentItem) :
    List DataPoint → F64 → F64 → Except Abort (F64 × F64)
  | [], maxValueFromData, numberCategories => .ok (maxValueFromData, numberCategories)
  | valuesFromDataPoints :: rest, maxValueFromData, numberCategories =>
    match assertMap valuesFromDataPoints with
    | .error _ => .error .panic
    | .ok fields =>
      match assertFloat64 (fields.lookup vbarItem.DataSeries) with
      | .error _ => .error .panic
      | .ok v =>
        scanSeries64 vbarItem rest
          (if F64.gt (.fin v) maxValueFromData = true then .fin v else maxValueFromData)
          (F64.add numberCategories (.fin 1))

section Chart64

variable (Sprintf64 : F64 → String)
  (GetStringWidth : String → String → ℚ → String → ℚ)

/-- The loop `for i := 0.0; i <= yAxisTicks; { ...; i++ }` (source lines
313-327) in `float64`, its test evaluated at most `fuel` times from the given
values of `i`, `tickYPosition` and `yAxisTickLabel`; `none` when the loop has
not stopped.  `Sprintf64` stands for `fmt.Sprintf("%.f", ·)` on a
`float64`. -/
def yAxisTickLoop64 (vbarItem : PdfContentItem) (font : Font)
    (chartBoxX yAxisXPosition tickIntervalOnAxis maxValueForYAxis yAxisTicks : F64) :
    ℕ → F64 → F64 → F64 → Option (List DrawCall64)
  | 0, _, _, _ => none
  | fuel + 1, i, tickYPosition, yAxisTickLabel =>
    if F64.le i yAxisTicks = true then
      match yAxisTickLoop64 vbarItem font chartBoxX yAxisXPosition tickIntervalOnAxis
          maxValueForYAxis yAxisTicks fuel (F64.add i (.fin 1))
          (F64.add tickYPosition tickIntervalOnAxis)
          (F64.sub yAxisTickLabel (F64.div maxValueForYAxis yAxisTicks)) with
      | none => none
      | some more =>
        some
          ([ .SetLineWidth (.fin vbarItem.ChartSettings.AxisFormat.LineWidth),
             .SetDrawColor vbarItem.ChartSettings.AxisFormat.LineColour.R
               vbarItem.ChartSettings.AxisFormat.LineColour.G
               vbarItem.ChartSettings.AxisFormat.LineColour.B,
             .Line yAxisXPosition tickYPosition
               (F64.sub yAxisXPosition (.fin vbarItem.ChartSettings.TickMarkLength))
               tickYPosition,
             .SetXY chartBoxX (F64.sub tickYPosition (F64.mul (.fin 0.5) (.fin font.Size))),
             .CellFormat
               (F64.sub (.fin vbarItem.ChartSettings.DistanceFromSidesOfChartArea)
                 (.fin vbarItem.ChartSettings.TickMarkLength))
               (.fin font.Size) (Sprintf64 yAxisTickLabel) "" 0 "RM" false 0 "" ] ++ more)
    else some []

/-- The loop `for _, values := range dataset.DataPoints` that draws the bars
(source lines 334-354) in `float64`, started with the given `tickXPosition`.
It returns the calls made and the final value of `tickXPosition`. -/
def barsLoop64 (vbarItem : PdfContentItem) (font : Font)
    (tickXInterval maxValueForYAxis axisZeroPosition yAxisMaxYPosition : F64) :
    List DataPoint → F64 → Except Abort (List DrawCall64 × F64)
  | [], tickXPosition => .ok ([], tickXPosition)
  | values :: rest, tickXPosition =>
    match assertMap values with
    | .error _ => .error .panic
    | .ok fields =>
      match assertString (fields.lookup vbarItem.DataSeriesCategory) with
      | .error _ => .error .panic
      | .ok category =>
        match assertFloat64 (fields.lookup vbarItem.DataSeries) with
        | .error _ => .error .panic
        | .ok value =>
          match barsLoop64 vbarItem font tickXInterval maxValueForYAxis axisZeroPosition
              yAxisMaxYPosition rest (F64.add tickXPosition tickXInterval) with
          | .error e => .error e
          | .ok (calls, x) =>
            .ok
              ([ .SetLineWidth (.fin vbarItem.ChartSettings.AxisFormat.LineWidth),
                 .SetDrawColor vbarItem.ChartSettings.AxisFormat.LineColour.R
                   vbarItem.ChartSettings.AxisFormat.LineColour.G
                   vbarItem.ChartSettings.AxisFormat.LineColour.B,
                 .Line tickXPosition axisZeroPosition tickXPosition
                   (F64.add axisZeroPosition (.fin vbarItem.ChartSettings.TickMarkLength)),
                 .SetXY tickXPosition
                   (F64.add axisZeroPosition
                     (F64.mul (.fin 0.5) (.fin vbarItem.ChartSettings.TickMarkLength))),
                 .CellFormat tickXInterval (.fin font.Size) category "" 0 "CM" false 0 "",
                 .SetFillColor vbarItem.ChartSettings.SeriesFormat.FillColour.R
                   vbarItem.ChartSettings.SeriesFormat.FillColour.G
                   vbarItem.ChartSettings.SeriesFormat.FillColour.B,
                 .SetDrawColor vbarItem.ChartSettings.SeriesFormat.BorderColour.R
                   vbarItem.ChartSettings.SeriesFormat.BorderColour.G
                   vbarItem.ChartSettings.SeriesFormat.BorderColour.B,
                 .Rect (F64.add tickXPosition (.fin vbarItem.ChartSettings.GapBetweenBars))
                   axisZeroPosition
                   (F64.sub tickXInterval
                     (F64.mul (.fin 2) (.fin vbarItem.ChartSettings.GapBetweenBars)))
                   (F64.neg
                     (F64.mul (F64.div (.fin value) maxValueForYAxis)
                       (F64.sub axisZeroPosition yAxisMaxYPosition)))
                   vbarItem.ChartSettings.SeriesFormat.Style ] ++ calls, x)

/-- The body of `if vbarItem.DataSource == dataset.DataSource` in
`ProcessVerticalBarChartPDFItem` (source lines 272-376) for one dataset, in
`float64`.  The y-axis tick loop is given `2 ^ 53 + 1` evaluations of its
test: they are enough for it to stop when `yAxisTicks` is below `2 ^ 53`
(`yAxisTickLoop64_returns`), and from `2 ^ 53` on the Go loop never ends,
because `i++` leaves `i = 2 ^ 53` unchanged. -/
def chartSeries64 (vbarItem : PdfContentItem) (pdfSettings : PdfFields) (yAxisTicks : F64)
    (dataset : DataSet) : Except Abort (List DrawCall64) :=
  let font := FetchTextFormattingFromRecipe vbarItem.ChartSettings.ChartTextFont
  let chartBoxX :=
    F64.add (.fin vbarItem.XPosition) (.fin pdfSettings.PdfSettings.PageLeftAndRightMargins)
  let chartBoxY :=
    F64.add (.fin vbarItem.YPosition) (.fin pdfSettings.PdfSettings.PageTopMargin)
  let chartWidth :=
    F64.sub (.fin vbarItem.Width) (.fin vbarItem.ChartSettings.DistanceFromSidesOfChartArea)
  let yAxisXPosition :=
    F64.add chartBoxX (.fin vbarItem.ChartSettings.DistanceFromSidesOfChartArea)
  let yAxisMaxYPosition :=
    F64.add chartBoxY (.fin vbarItem.ChartSettings.DistanceFromTopOfChartArea)
  let axisZeroPosition :=
    F64.sub (F64.add chartBoxY (.fin vbarItem.Height))
      (.fin vbarItem.ChartSettings.DistanceFromBottomOfChartArea)
  let chartHeight := F64.sub axisZeroPosition yAxisMaxYPosition
  match scanSeries64 vbarItem dataset.DataPoints (.fin 0) (.fin 0) with
  | .error e => .error e
  | .ok (maxValueFromData, numberCategories) =>
    match GetMaxValueForAxisOnChart64 maxValueFromData with
    | none => .error .endless
    | some maxValueForYAxis =>
      let tickIntervalOnAxis := F64.div chartHeight yAxisTicks
      match yAxisTickLoop64 Sprintf64 vbarItem font chartBoxX yAxisXPosition
          tickIntervalOnAxis maxValueForYAxis yAxisTicks (2 ^ 53 + 1) (.fin 0)
          yAxisMaxYPosition maxValueForYAxis with
      | none => .error .endless
      | some ticks =>
        let tickXInterval :=
          F64.div
            (F64.sub chartWidth (.fin vbarItem.ChartSettings.DistanceFromSidesOfChartArea))
            numberCategories
        match barsLoop64 vbarItem font tickXInterval maxValueForYAxis axisZeroPosition
            yAxisMaxYPosition dataset.DataPoints yAxisXPosition with
        | .error e => .error e
        | .ok (bars, tickXPosition) =>
          let title := vbarItem.ChartSettings.ChartTitle
          let titleWidth : F64 :=
            .fin (GetStringWidth title.Font.Family title.Font.Style title.Font.Size title.Text)
          .ok
            ([ .SetFillColor vbarItem.ChartSettings.WatermarkFormat.FillColour.R
                 vbarItem.ChartSettings.WatermarkFormat.FillColour.G
                 vbarItem.ChartSettings.WatermarkFormat.FillColour.B,
               .SetDrawColor vbarItem.ChartSettings.WatermarkFormat.BorderColour.R
                 vbarItem.ChartSettings.WatermarkFormat.BorderColour.G
                 vbarItem.ChartSettings.WatermarkFormat.BorderColour.B,
               .Rect chartBoxX chartBoxY (.fin vbarItem.Width) (.fin vbarItem.Height)
                 vbarItem.ChartSettings.WatermarkFormat.Style,
               .SetLineWidth (.fin vbarItem.ChartSettings.AxisFormat.LineWidth),
               .SetDrawColor vbarItem.ChartSettings.AxisFormat.LineColour.R
                 vbarItem.ChartSettings.AxisFormat.LineColour.G
                 vbarItem.ChartSettings.AxisFormat.LineColour.B,
               .Line yAxisXPosition yAxisMaxYPosition yAxisXPosition axisZeroPosition,
               .SetFont font.Family font.Style (.fin font.Size),
               .SetTextColor font.Colour.R font.Colour.G font.Colour.B ] ++
              ticks ++ bars ++
              [ .SetLineWidth (.fin vbarItem.ChartSettings.AxisFormat.LineWidth),
                .SetDrawColor vbarItem.ChartSettings.AxisFormat.LineColour.R
                  vbarItem.ChartSettings.AxisFormat.LineColour.G
                  vbarItem.ChartSettings.AxisFormat.LineColour.B,
                .Line tickXPosition axisZeroPosition tickXPosition
                  (F64.add axisZeroPosition (.fin vbarItem.ChartSettings.TickMarkLength)),
                .SetLineWidth (.fin vbarItem.ChartSettings.AxisFormat.LineWidth),
                .SetDrawColor vbarItem.ChartSettings.AxisFormat.LineColour.R
                  vbarItem.ChartSettings.AxisFormat.LineColour.G
                  vbarItem.ChartSettings.AxisFormat.LineColour.B,
                .Line yAxisXPosition axisZeroPosition (F64.add chartBoxX chartWidth)
                  axisZeroPosition,
                .SetFont title.Font.Family title.Font.Style (.fin title.Font.Size),
                .SetFillColor title.Font.CellFill.Colour.R title.Font.CellFill.Colour.G
                  title.Font.CellFill.Colour.B,
                .SetTextColor title.Font.Colour.R title.Font.Colour.G title.Font.Colour.B,
                .SetDrawColor vbarItem.ChartSettings.AxisFormat.LineColour.R
                  vbarItem.ChartSettings.AxisFormat.LineColour.G
                  vbarItem.ChartSettings.AxisFormat.LineColour.B,
                .SetXY
                  (F64.sub (F64.add chartBoxX (F64.div (.fin vbarItem.Width) (.fin 2)))
                    (F64.mul (.fin 0.5) titleWidth))
                  (F64.add chartBoxY (.fin title.DistanceFromTopOfChartArea)),
                .CellFormat (F64.add titleWidth (.fin 5))
                  (F64.add (.fin title.Font.Size) (.fin title.Font.LineSpacing)) title.Text
                  title.Font.CellBorders.Style 0 title.Font.Alignment
                  title.Font.CellFill.Filled 0 "" ])

/-- The loop `for _, dataset := range data` of `ProcessVerticalBarChartPDFItem`
(source lines 269-379) in `float64`. -/
def chartDatasets64 (vbarItem : PdfContentItem) (pdfSettings : PdfFields) (yAxisTicks : F64) :
    Data → Except Abort (List DrawCall64)
  | [] => .ok []
  | dataset :: rest =>
    if vbarItem.DataSource = dataset.DataSource then
      match chartSeries64 Sprintf64 GetStringWidth vbarItem pdfSettings yAxisTicks dataset with
      | .error e => .error e
      | .ok calls =>
        match chartDatasets64 vbarItem pdfSettings yAxisTicks rest with
        | .error e => .error e
        | .ok more => .ok (calls ++ more)
    else
      chartDatasets64 vbarItem pdfSettings yAxisTicks rest

/-- Go function `ProcessVerticalBarChartPDFItem` (source lines 260-381) in
`float64`.  The result `.ok calls` is a normal return (the Go `err` is always
`nil`) after the calls `calls` were made on `pdf`; `.error` is a panic or a
loop that never ends. -/
def ProcessVerticalBarChartPDFItem64 (vbarItem : PdfContentItem) (pdfSettings : PdfFields)
    (data : Data) : Except Abort (List DrawCall64) :=
  let yAxisTicks : ℚ :=
    if vbarItem.ChartSettings.NumberOfYAxisTicks > 0 then
      vbarItem.ChartSettings.NumberOfYAxisTicks
    else 5
  chartDatasets64 Sprintf64 GetStringWidth vbarItem pdfSettings
    (F64.sub (.fin yAxisTicks) (.fin 1)) data

end Chart64

/-! ## Quantities named by the claims about charts, in `float64` -/

/-- The local `yAxisTicks` after line 267: the requested number of ticks less
one. -/
def yAxisTicks64 (vbarItem : PdfContentItem) : F64 :=
  F64.sub (.fin (tickCount vbarItem)) (.fin 1)

/-- The local `chartBoxX` (source line 274). -/
def chartBoxX64 (vbarItem : PdfContentItem) (pdfSettings : PdfFields) : F64 :=
  F64.add (.fin vbarItem.XPosition) (.fin pdfSettings.PdfSettings.PageLeftAndRightMargins)

/-- The local `chartBoxY` (source line 275). -/
def chartBoxY64 (vbarItem : PdfContentItem) (pdfSettings : PdfFields) : F64 :=
  F64.add (.fin vbarItem.YPosition) (.fin pdfSettings.PdfSettings.PageTopMargin)

/-- The x position of the y axis, `yAxisXPosition` (source line 277). -/
def yAxisX64 (vbarItem : PdfContentItem) (pdfSettings : PdfFields) : F64 :=
  F64.add (chartBoxX64 vbarItem pdfSettings)
    (.fin vbarItem.ChartSettings.DistanceFromSidesOfChartArea)

/-- The top of the y axis, `yAxisMaxYPosition` (source line 278). -/
def axisTop64 (vbarItem : PdfContentItem) (pdfSettings : PdfFields) : F64 :=
  F64.add (chartBoxY64 vbarItem pdfSettings)
    (.fin vbarItem.ChartSettings.DistanceFromTopOfChartArea)

/-- The zero line of the chart, `axisZeroPosition` (source line 279). -/
def axisZero64 (vbarItem : PdfContentItem) (pdfSettings : PdfFields) : F64 :=
  F64.sub (F64.add (chartBoxY64 vbarItem pdfSettings) (.fin vbarItem.Height))
    (.fin vbarItem.ChartSettings.DistanceFromBottomOfChartArea)

/-- The value of a `float64` counter started at `start` after `n` additions
of 1: from 0 it is the record count `numberCategories` after `n` records. -/
def recordCount64 (start : F64) : ℕ → F64
  | 0 => start
  | n + 1 => recordCount64 (F64.add start (.fin 1)) n

/-- The x-axis cell width `tickXInterval` for `n` records (source line 330). -/
def cellWidth64 (vbarItem : PdfContentItem) (n : ℕ) : F64 :=
  F64.div
    (F64.sub
      (F64.sub (.fin vbarItem.Width) (.fin vbarItem.ChartSettings.DistanceFromSidesOfChartArea))
      (.fin vbarItem.ChartSettings.DistanceFromSidesOfChartArea))
    (recordCount64 (.fin 0) n)

/-- The y-axis maximum in `float64`: `GetMaxValueForAxisOnChart64` of the
series maximum. -/
def axisMax64 (vbarItem : PdfContentItem) (points : List DataPoint) : Option F64 :=
  GetMaxValueForAxisOnChart64 (.fin (seriesMax vbarItem points))

/-- The background rectangle of a chart. -/
def backgroundRect64 (vbarItem : PdfContentItem) (pdfSettings : PdfFields) : DrawCall64 :=
  .Rect (chartBoxX64 vbarItem pdfSettings) (chartBoxY64 vbarItem pdfSettings)
    (.fin vbarItem.Width) (.fin vbarItem.Height) vbarItem.ChartSettings.WatermarkFormat.Style

/-- The bars of the series values `values`, in order, the first of them at the
tick position `x`, for x-axis cells of width `w` and the y-axis maximum `top`:
each bar stands on the zero line, inset by the gap between bars, and its
height is `-((v / top) * (axisZero - axisTop))`, every operation in
`float64`. -/
def specBarRects64 (vbarItem : PdfContentItem) (pdfSettings : PdfFields) (w top : F64) :
    F64 → List ℚ → List DrawCall64
  | _, [] => []
  | x, v :: rest =>
    .Rect (F64.add x (.fin vbarItem.ChartSettings.GapBetweenBars))
        (axisZero64 vbarItem pdfSettings)
        (F64.sub w (F64.mul (.fin 2) (.fin vbarItem.ChartSettings.GapBetweenBars)))
        (F64.neg
          (F64.mul (F64.div (.fin v) top)
            (F64.sub (axisZero64 vbarItem pdfSettings) (axisTop64 vbarItem pdfSettings))))
        vbarItem.ChartSettings.SeriesFormat.Style ::
      specBarRects64 vbarItem pdfSettings w top (F64.add x w) rest

/-- The `Rect` calls among `calls`, in order. -/
def rectCalls64 (calls : List DrawCall64) : List DrawCall64 :=
  calls.filter fun c =>
    match c with
    | .Rect _ _ _ _ _ => true
    | _ => false

/-- The heights `h` of the `Rect` calls among `calls`, in order. -/
def rectHeights64 : List DrawCall64 → List F64
  | [] => []
  | .Rect _ _ _ h _ :: rest => h :: rectHeights64 rest
  | _ :: rest => rectHeights64 rest

/-- A stand-in for `fmt.Sprintf("%.f", ·)` on a `float64` that prints every
value as `"#"`. -/
def exampleSprintf64 : F64 → String := fun _ => "#"

/-- The y-axis tick number `i` of `N` (counted from 0 at the top of the axis)
in exact arithmetic, for the axis maximum `top`: the axis line format, the
tick line, `TickMarkLength` long to the left of the y axis, at the height
`axisTop + i * (chartPixelHeight / (N - 1))`, and the right-aligned label
showing `top - i * (top / (N - 1))`, centred on that height. -/
def specTick (Sprintf : Option Value → String) (vbarItem : PdfContentItem)
    (pdfSettings : PdfFields) (top : ℚ) (N i : ℕ) : List DrawCall :=
  [ .SetLineWidth vbarItem.ChartSettings.AxisFormat.LineWidth,
    .SetDrawColor vbarItem.ChartSettings.AxisFormat.LineColour.R
      vbarItem.ChartSettings.AxisFormat.LineColour.G
      vbarItem.ChartSettings.AxisFormat.LineColour.B,
    .Line (yAxisX vbarItem pdfSettings)
      (axisTop vbarItem pdfSettings + (i : ℚ) * (chartPixelHeight vbarItem / ((N : ℚ) - 1)))
      (yAxisX vbarItem pdfSettings - vbarItem.ChartSettings.TickMarkLength)
      (axisTop vbarItem pdfSettings + (i : ℚ) * (chartPixelHeight vbarItem / ((N : ℚ) - 1))),
    .SetXY (chartBoxX vbarItem pdfSettings)
      (axisTop vbarItem pdfSettings + (i : ℚ) * (chartPixelHeight vbarItem / ((N : ℚ) - 1)) -
        0.5 * (chartFont vbarItem).Size),
    .CellFormat
      (vbarItem.ChartSettings.DistanceFromSidesOfChartArea -
        vbarItem.ChartSettings.TickMarkLength)
      (chartFont vbarItem).Size
      (Sprintf (some (.num (top - (i : ℚ) * (top / ((N : ℚ) - 1)))))) "" 0 "RM" false 0 "" ]

/-! ## Facts about `FetchTextFormattingFromRecipe` -/

/-- Closed form of `FetchTextFormattingFromRecipe`, field by field. -/
theorem fetch_eq (r : Font) :
    FetchTextFormattingFromRecipe r =
      { Size := if r.Size > 0 then r.Size else 9
        Style := if styleAccepted r.Style then r.Style else ""
        Family := if len r.Family > 0 then r.Family else "Helvetica"
        Alignment := "CM"
        LineSpacing := if r.LineSpacing ≥ 0 then r.LineSpacing else 3
        Colour :=
          { R := resolveChannel r.Colour.R 0
            G := resolveChannel r.Colour.G 0
            B := resolveChannel r.Colour.B 0 }
        CellFill :=
          { Filled := if r.CellFill.Filled = true then r.CellFill.Filled else false
            Colour :=
              { R := resolveChannel r.CellFill.Colour.R 255
                G := resolveChannel r.CellFill.Colour.G 255
                B := resolveChannel r.CellFill.Colour.B 255 } }
        CellBorders :=
          { Style := if len r.CellBorders.Style > 0 then r.CellBorders.Style else "1"
            Colour :=
              { R := resolveChannel r.CellBorders.Colour.R 0
                G := resolveChannel r.CellBorders.Colour.G 0
                B := resolveChannel r.CellBorders.Colour.B 0 } }
        HeaderFont :=
          { Size := if r.HeaderFont.Size > 0 then r.HeaderFont.Size else 10
            Style := if styleAccepted r.HeaderFont.Style then r.HeaderFont.Style else "B"
            Family := if len r.HeaderFont.Family > 0 then r.HeaderFont.Family else "Helvetica"
            Alignment := "CM"
            LineSpacing := 3
            Colour :=
              { R := resolveChannel r.HeaderFont.Colour.R 0
                G := resolveChannel r.HeaderFont.Colour.G 0
                B := resolveChannel r.HeaderFont.Colour.B 0 }
            CellFill :=
              { Filled :=
                  if r.HeaderFont.CellFill.Filled = true then r.HeaderFont.CellFill.Filled
                  else false
                Colour :=
                  { R := resolveChannel r.HeaderFont.CellFill.Colour.R 213
                    G := resolveChannel r.HeaderFont.CellFill.Colour.G 213
                    B := resolveChannel r.HeaderFont.CellFill.Colour.B 213 } }
            CellBorders :=
              { Style :=
                  if len r.HeaderFont.CellBorders.Style > 0 then r.HeaderFont.CellBorders.Style
                  else "0"
                Colour :=
                  { R := resolveChannel r.HeaderFont.CellBorders.Colour.R 0
                    G := resolveChannel r.HeaderFont.CellBorders.Colour.G 0
                    B := resolveChannel r.HeaderFont.CellBorders.Colour.B 0 } } } } := by
  have hL : (FetchTextFormattingFromRecipe r).LineSpacing =
      if r.LineSpacing ≥ 0 then r.LineSpacing else 3 := by
    show (if r.LineSpacing ≥ 0 then r.LineSpacing
      else (if r.LineSpacing ≥ 0 then r.LineSpacing else 3)) = _
    split_ifs <;> rfl
  rw [← hL]
  rfl

theorem resolveChannel_idem (v d : Int) (hd : 0 ≤ d) :
    resolveChannel (resolveChannel v d) d = resolveChannel v d := by
  unfold resolveChannel; split_ifs <;> rfl

theorem size_idem (v d : ℚ) (hd : 0 < d) :
    (if (if v > 0 then v else d) > 0 then (if v > 0 then v else d) else d) =
      if v > 0 then v else d := by
  split_ifs <;> rfl

theorem spacing_idem (v d : ℚ) (hd : 0 ≤ d) :
    (if (if v ≥ 0 then v else d) ≥ 0 then (if v ≥ 0 then v else d) else d) =
      if v ≥ 0 then v else d := by
  split_ifs <;> rfl

theorem style_idem (s d : String) (hd : styleAccepted d) :
    (if styleAccepted (if styleAccepted s then s else d) then
        (if styleAccepted s then s else d) else d) =
      if styleAccepted s then s else d := by
  split_ifs <;> rfl

theorem len_idem (s d : String) (hd : len d > 0) :
    (if len (if len s > 0 then s else d) > 0 then (if len s > 0 then s else d) else d) =
      if len s > 0 then s else d := by
  split_ifs <;> rfl

theorem filled_idem (b : Bool) :
    (if (if b = true then b else false) = true then (if b = true then b else false) else false) =
      if b = true then b else false := by
  cases b <;> rfl

/-- C8: `FetchTextFormattingFromRecipe` is idempotent. -/
theorem FetchTextFormattingFromRecipe_idempotent (x : Font) :
    FetchTextFormattingFromRecipe (FetchTextFormattingFromRecipe x) =
      FetchTextFormattingFromRecipe x := by
  rw [fetch_eq (FetchTextFormattingFromRecipe x), fetch_eq x]
  simp only [resolveChannel_idem _ _ (by decide : (0 : Int) ≤ 0),
    resolveChannel_idem _ _ (by decide : (0 : Int) ≤ 255),
    resolveChannel_idem _ _ (by decide : (0 : Int) ≤ 213),
    size_idem _ _ (by norm_num : (0 : ℚ) < 9), size_idem _ _ (by norm_num : (0 : ℚ) < 10),
    spacing_idem _ _ (by norm_num : (0 : ℚ) ≤ 3),
    style_idem _ _ (by decide : styleAccepted ""), style_idem _ _ (by decide : styleAccepted "B"),
    len_idem _ _ (by decide : len "Helvetica" > 0), len_idem _ _ (by decide : len "1" > 0),
    len_idem _ _ (by decide : len "0" > 0), filled_idem]

/-- C9: every colour channel resolved by `FetchTextFormattingFromRecipe` (text,
cell-border and cell-fill colour, of the body font and of the header font) is
the recipe's value of that channel when it is not negative, and otherwise
the default of that channel: 0 for text and border colours, 255 for the body
fill, 213 for the header fill.  No other recipe field enters the result. -/
theorem FetchTextFormattingFromRecipe_channels (r : Font) :
    ((FetchTextFormattingFromRecipe r).Colour.R = if r.Colour.R ≥ 0 then r.Colour.R else 0) ∧
    ((FetchTextFormattingFromRecipe r).Colour.G = if r.Colour.G ≥ 0 then r.Colour.G else 0) ∧
    ((FetchTextFormattingFromRecipe r).Colour.B = if r.Colour.B ≥ 0 then r.Colour.B else 0) ∧
    ((FetchTextFormattingFromRecipe r).CellBorders.Colour.R =
      if r.CellBorders.Colour.R ≥ 0 then r.CellBorders.Colour.R else 0) ∧
    ((FetchTextFormattingFromRecipe r).CellBorders.Colour.G =
      if r.CellBorders.Colour.G ≥ 0 then r.CellBorders.Colour.G else 0) ∧
    ((FetchTextFormattingFromRecipe r).CellBorders.Colour.B =
      if r.CellBorders.Colour.B ≥ 0 then r.CellBorders.Colour.B else 0) ∧
    ((FetchTextFormattingFromRecipe r).CellFill.Colour.R =
      if r.CellFill.Colour.R ≥ 0 then r.CellFill.Colour.R else 255) ∧
    ((FetchTextFormattingFromRecipe r).CellFill.Colour.G =
      if r.CellFill.Colour.G ≥ 0 then r.CellFill.Colour.G else 255) ∧
    ((FetchTextFormattingFromRecipe r).CellFill.Colour.B =
      if r.CellFill.Colour.B ≥ 0 then r.CellFill.Colour.B else 255) ∧
    ((FetchTextFormattingFromRecipe r).HeaderFont.Colour.R =
      if r.HeaderFont.Colour.R ≥ 0 then r.HeaderFont.Colour.R else 0) ∧
    ((FetchTextFormattingFromRecipe r).HeaderFont.Colour.G =
      if r.HeaderFont.Colour.G ≥ 0 then r.HeaderFont.Colour.G else 0) ∧
    ((FetchTextFormattingFromRecipe r).HeaderFont.Colour.B =
      if r.HeaderFont.Colour.B ≥ 0 then r.HeaderFont.Colour.B else 0) ∧
    ((FetchTextFormattingFromRecipe r).HeaderFont.CellBorders.Colour.R =
      if r.HeaderFont.CellBorders.Colour.R ≥ 0 then r.HeaderFont.CellBorders.Colour.R else 0) ∧
    ((FetchTextFormattingFromRecipe r).HeaderFont.CellBorders.Colour.G =
      if r.HeaderFont.CellBorders.Colour.G ≥ 0 then r.HeaderFont.CellBorders.Colour.G else 0) ∧
    ((FetchTextFormattingFromRecipe r).HeaderFont.CellBorders.Colour.B =
      if r.HeaderFont.CellBorders.Colour.B ≥ 0 then r.HeaderFont.CellBorders.Colour.B else 0) ∧
    ((FetchTextFormattingFromRecipe r).HeaderFont.CellFill.Colour.R =
      if r.HeaderFont.CellFill.Colour.R ≥ 0 then r.HeaderFont.CellFill.Colour.R else 213) ∧
    ((FetchTextFormattingFromRecipe r).HeaderFont.CellFill.Colour.G =
      if r.HeaderFont.CellFill.Colour.G ≥ 0 then r.HeaderFont.CellFill.Colour.G else 213) ∧
    ((FetchTextFormattingFromRecipe r).HeaderFont.CellFill.Colour.B =
      if r.HeaderFont.CellFill.Colour.B ≥ 0 then r.HeaderFont.CellFill.Colour.B else 213) :=
  ⟨rfl, rfl, rfl, rfl, rfl, rfl, rfl, rfl, rfl, rfl, rfl, rfl, rfl, rfl, rfl, rfl, rfl, rfl⟩

/-- C10, on the code: for the font with nothing set, the result carries the values
assigned by default at the top of the function except for the header style,
which is `""` and not the default `"B"`: the empty recipe style passes the
test of source line 505 and overwrites the default. -/
theorem FetchTextFormattingFromRecipe_unset :
    FetchTextFormattingFromRecipe unsetFont =
        { defaultFont with HeaderFont := { defaultFont.HeaderFont with Style := "" } } ∧
      (FetchTextFormattingFromRecipe unsetFont).HeaderFont.Style = "" ∧
      defaultFont.HeaderFont.Style = "B" ∧
      FetchTextFormattingFromRecipe unsetFont ≠ defaultFont := by
  decide!

/-! ## Facts about `GetMaxValueForAxisOnChart` -/

/-- When `fuel` iterations are enough to pass `maxValueFromData`, the loop
stops by its own test: the final `place` is `place * 10 ^ k` for the number `k`
of iterations made, the loop condition is false for it, and every iteration
that was made had its condition true. -/
theorem placeLoop_spec (fuel : Nat) (x : ℚ) :
    ∀ place : ℚ, 0 < place → x < place * 10 ^ (fuel + 1) →
      ∃ k : ℕ, placeLoop fuel x place = place * 10 ^ k ∧ x < place * 10 ^ k * 10 ∧
        (k = 0 ∨ place * 10 ^ k ≤ x) := by
  induction fuel with
  | zero =>
    intro place _ hx
    exact ⟨0, by simp [placeLoop], by simpa using hx, Or.inl rfl⟩
  | succ n ih =>
    intro place hp hx
    by_cases hc : x ≥ place * 10
    · have hx' : x < place * 10 * 10 ^ (n + 1) := by
        have : place * 10 * 10 ^ (n + 1) = place * 10 ^ (n + 1 + 1) := by ring
        rw [this]; exact hx
      obtain ⟨k, hk, hlt, hle⟩ := ih (place * 10) (by positivity) hx'
      refine ⟨k + 1, ?_, ?_, Or.inr ?_⟩
      · rw [placeLoop, if_pos hc, hk]; ring
      · have : place * 10 ^ (k + 1) * 10 = place * 10 * 10 ^ k * 10 := by ring
        rw [this]; exact hlt
      · have e : place * 10 ^ (k + 1) = place * 10 * 10 ^ k := by ring
        rw [e]
        rcases hle with h0 | h
        · subst h0; simpa using hc
        · exact h
    · refine ⟨0, ?_, ?_, Or.inl rfl⟩
      · rw [placeLoop, if_neg hc]; simp
      · simpa using not_le.mp hc

/-- The fuel given to the loop by `GetMaxValueForAxisOnChart` passes the input. -/
theorem lt_pow_fuel (x : ℚ) : x < 1 * 10 ^ (⌈x⌉.toNat + 1) := by
  have h1 : x ≤ (⌈x⌉ : ℚ) := Int.le_ceil x
  have h2 : (⌈x⌉ : ℤ) ≤ (⌈x⌉.toNat : ℤ) := Int.self_le_toNat _
  have h3 : (⌈x⌉.toNat : ℚ) < 10 ^ (⌈x⌉.toNat + 1) := by
    have : ⌈x⌉.toNat < 10 ^ (⌈x⌉.toNat + 1) :=
      lt_of_lt_of_le (Nat.lt_pow_self (by norm_num) _) (Nat.pow_le_pow_right (by norm_num) (Nat.le_succ _))
    exact_mod_cast this
  have h4 : (⌈x⌉ : ℚ) ≤ (⌈x⌉.toNat : ℚ) := by exact_mod_cast h2
  linarith

/-- The value of `place` when the loop of `GetMaxValueForAxisOnChart` stops. -/
theorem place_spec (x : ℚ) :
    ∃ k : ℕ, placeLoop ⌈x⌉.toNat x 1 = 10 ^ k ∧ x < 10 ^ (k + 1) ∧ (k = 0 ∨ (10 : ℚ) ^ k ≤ x) := by
  obtain ⟨k, hk, hlt, hle⟩ := placeLoop_spec ⌈x⌉.toNat x 1 one_pos (lt_pow_fuel x)
  refine ⟨k, by simpa using hk, ?_, ?_⟩
  · rw [pow_succ]; simpa using hlt
  · simpa using hle

/-- The result of `GetMaxValueForAxisOnChart` in terms of the exponent `k`. -/
theorem getMax_eq (x : ℚ) :
    ∃ k : ℕ, GetMaxValueForAxisOnChart x = (⌈x / 10 ^ k⌉ : ℚ) * 10 ^ k ∧ x < 10 ^ (k + 1) ∧
      (k = 0 ∨ (10 : ℚ) ^ k ≤ x) := by
  obtain ⟨k, hk, h⟩ := place_spec x
  exact ⟨k, by simp only [GetMaxValueForAxisOnChart, hk], h⟩

/-- The exponent is determined by the input. -/
theorem exponent_mono {x y : ℚ} {j k : ℕ} (hxy : x ≤ y)
    (hx : j = 0 ∨ (10 : ℚ) ^ j ≤ x) (hy : y < 10 ^ (k + 1)) : j ≤ k := by
  rcases hx with h | h
  · omega
  · by_contra hlt
    have hkj : k + 1 ≤ j := by omega
    have : (10 : ℚ) ^ (k + 1) ≤ 10 ^ j := pow_le_pow_right₀ (by norm_num) hkj
    linarith

theorem getMax_le_next {x : ℚ} {k : ℕ} (hlt : x < 10 ^ (k + 1)) :
    (⌈x / 10 ^ k⌉ : ℚ) * 10 ^ k ≤ 10 ^ (k + 1) := by
  have hp : (0 : ℚ) < 10 ^ k := by positivity
  have h1 : x / 10 ^ k ≤ ((10 : ℤ) : ℚ) := by
    rw [div_le_iff₀ hp]; push_cast; rw [pow_succ] at hlt; linarith
  have h2 : ⌈x / 10 ^ k⌉ ≤ 10 := Int.ceil_le.mpr h1
  have h3 : (⌈x / 10 ^ k⌉ : ℚ) ≤ 10 := by exact_mod_cast h2
  calc (⌈x / 10 ^ k⌉ : ℚ) * 10 ^ k ≤ 10 * 10 ^ k := by
        exact mul_le_mul_of_nonneg_right h3 hp.le
    _ = 10 ^ (k + 1) := by ring

theorem getMax_ge_place {x : ℚ} {k : ℕ} (hle : (10 : ℚ) ^ k ≤ x) :
    (10 : ℚ) ^ k ≤ (⌈x / 10 ^ k⌉ : ℚ) * 10 ^ k := by
  have hp : (0 : ℚ) < 10 ^ k := by positivity
  have h1 : (1 : ℚ) ≤ x / 10 ^ k := by rw [le_div_iff₀ hp]; linarith
  have h2 : (1 : ℚ) ≤ (⌈x / 10 ^ k⌉ : ℚ) := le_trans h1 (Int.le_ceil _)
  calc (10 : ℚ) ^ k = 1 * 10 ^ k := by ring
    _ ≤ (⌈x / 10 ^ k⌉ : ℚ) * 10 ^ k := mul_le_mul_of_nonneg_right h2 hp.le

theorem getMax_ge_self (x : ℚ) (k : ℕ) : x ≤ (⌈x / 10 ^ k⌉ : ℚ) * 10 ^ k := by
  have hp : (0 : ℚ) < 10 ^ k := by positivity
  have h1 : x / 10 ^ k ≤ (⌈x / 10 ^ k⌉ : ℚ) := Int.le_ceil _
  calc x = x / 10 ^ k * 10 ^ k := by field_simp
    _ ≤ (⌈x / 10 ^ k⌉ : ℚ) * 10 ^ k := mul_le_mul_of_nonneg_right h1 hp.le

/-- C4: `GetMaxValueForAxisOnChart` is monotonic non-decreasing (exact
arithmetic), also across the powers of ten at which `place` changes. -/
theorem GetMaxValueForAxisOnChart_monotone (x y : ℚ) (hxy : x ≤ y) :
    GetMaxValueForAxisOnChart x ≤ GetMaxValueForAxisOnChart y := by
  obtain ⟨j, hj, hjlt, hjle⟩ := getMax_eq x
  obtain ⟨k, hk, hklt, hkle⟩ := getMax_eq y
  rw [hj, hk]
  have hjk : j ≤ k := exponent_mono hxy hjle hklt
  rcases Nat.eq_or_lt_of_le hjk with h | h
  · subst h
    have hp : (0 : ℚ) < 10 ^ j := by positivity
    have h1 : x / 10 ^ j ≤ y / 10 ^ j := div_le_div_of_nonneg_right hxy hp.le
    have h2 : (⌈x / 10 ^ j⌉ : ℚ) ≤ (⌈y / 10 ^ j⌉ : ℚ) := by exact_mod_cast Int.ceil_mono h1
    exact mul_le_mul_of_nonneg_right h2 hp.le
  · have hky : (10 : ℚ) ^ k ≤ y := by
      rcases hkle with h0 | h'
      · omega
      · exact h'
    have h1 : (10 : ℚ) ^ (j + 1) ≤ 10 ^ k := pow_le_pow_right₀ (by norm_num) h
    exact le_trans (getMax_le_next hjlt) (le_trans h1 (getMax_ge_place hky))

/-- Witness of C4 at 9.5 and 10, on either side of a change of `place`. -/
theorem GetMaxValueForAxisOnChart_monotone_witness :
    (19 / 2 : ℚ) ≤ 10 ∧ GetMaxValueForAxisOnChart (19 / 2) ≤ GetMaxValueForAxisOnChart 10 :=
  ⟨by norm_num, GetMaxValueForAxisOnChart_monotone (19 / 2) 10 (by norm_num)⟩

/-- C7, as stated, fails: the result for 4 is 4 (the input is below 10, so
`place` stays 1 and `ceil(4 / 1) * 1 = 4`), not 10. -/
theorem GetMaxValueForAxisOnChart_examples_counterexample :
    ¬ (GetMaxValueForAxisOnChart 0 = 0 ∧ GetMaxValueForAxisOnChart 4 = 10 ∧
      GetMaxValueForAxisOnChart 55 = 60 ∧ GetMaxValueForAxisOnChart 342 = 400 ∧
      GetMaxValueForAxisOnChart 1000 = 1000) := by
  decide!

/-- C7, amended: the results for 0, 4, 55, 342 and 1000 are 0, 4, 60, 400 and
1000. -/
theorem GetMaxValueForAxisOnChart_examples :
    GetMaxValueForAxisOnChart 0 = 0 ∧ GetMaxValueForAxisOnChart 4 = 4 ∧
      GetMaxValueForAxisOnChart 55 = 60 ∧ GetMaxValueForAxisOnChart 342 = 400 ∧
      GetMaxValueForAxisOnChart 1000 = 1000 := by
  decide!

/-! ## Facts about the table loop -/

section TableLoop

variable (Sprintf : Option Value → String) (tableItem : PdfContentItem) (font : Font)
  (tableWidth columnWidth getXPosition y0 : ℚ)

theorem tableRows_nil (y cum : ℚ) :
    tableRows Sprintf tableItem font tableWidth columnWidth getXPosition [] y cum = .ok ([], y) :=
  rfl

theorem tableRows_cons_stop (point : DataPoint) (rest : List DataPoint) (y cum : ℚ)
    (h : cum + 0.5 * (font.Size + font.LineSpacing) > tableItem.Height) :
    tableRows Sprintf tableItem font tableWidth columnWidth getXPosition (point :: rest) y cum =
      .ok (ellipsisCalls font tableWidth getXPosition y, y) := by
  rw [tableRows, if_pos h]

theorem tableRows_cons_panic (point : DataPoint) (rest : List DataPoint) (y cum : ℚ)
    (h : ¬ cum + 0.5 * (font.Size + font.LineSpacing) > tableItem.Height)
    (hc : categoryOf tableItem.DataSeriesCategory point = none) :
    tableRows Sprintf tableItem font tableWidth columnWidth getXPosition (point :: rest) y cum =
      .error .interfaceConversion := by
  rw [tableRows, if_neg h]
  cases point with
  | notObject => rfl
  | object fields =>
    simp only [assertMap]
    simp only [categoryOf] at hc
    cases hl : fields.lookup tableItem.DataSeriesCategory with
    | none => rfl
    | some v =>
      cases v with
      | str s => rw [hl] at hc; simp at hc
      | num q => rfl
      | other => rfl

theorem tableRows_cons_row (point : DataPoint) (rest : List DataPoint) (y cum : ℚ) (s : String)
    (h : ¬ cum + 0.5 * (font.Size + font.LineSpacing) > tableItem.Height)
    (hc : categoryOf tableItem.DataSeriesCategory point = some s) :
    tableRows Sprintf tableItem font tableWidth columnWidth getXPosition (point :: rest) y cum =
      match tableRows Sprintf tableItem font tableWidth columnWidth getXPosition rest
          (y + font.Size + font.LineSpacing) (cum + font.Size + font.LineSpacing) with
      | .error e => .error e
      | .ok (calls, y') =>
        .ok (dataRowCalls Sprintf font columnWidth getXPosition y s
          (seriesValueOf tableItem.DataSeries point) ++ calls, y') := by
  rw [tableRows, if_neg h]
  cases point with
  | notObject => simp [categoryOf] at hc
  | object fields =>
    simp only [assertMap, seriesValueOf]
    simp only [categoryOf] at hc
    cases hl : fields.lookup tableItem.DataSeriesCategory with
    | none => rw [hl] at hc; simp at hc
    | some v =>
      cases v with
      | str t =>
        rw [hl] at hc
        simp only [Option.some.injEq] at hc
        subst hc
        rfl
      | num q => rw [hl] at hc; simp at hc
      | other => rw [hl] at hc; simp at hc

/-- Shape of what the loop emits when it returns: the data rows of the first
`k` records and then, unless all records were shown, the ellipsis row; the
height test failed before each of the `k` rows and succeeded before the
ellipsis row. -/
theorem tableRows_shape (points : List DataPoint) :
    ∀ (i : ℕ) (cum : ℚ) (calls : List DrawCall) (yEnd : ℚ),
      tableRows Sprintf tableItem font tableWidth columnWidth getXPosition points
          (y0 + (i : ℚ) * (font.Size + font.LineSpacing)) cum = .ok (calls, yEnd) →
      ∃ (k : ℕ) (ell : Bool), k ≤ points.length ∧
        calls = expectedRows Sprintf tableItem font columnWidth getXPosition y0 i
            (points.take k) ++
          (if ell then ellipsisCalls font tableWidth getXPosition
            (y0 + ((i + k : ℕ) : ℚ) * (font.Size + font.LineSpacing)) else []) ∧
        (∀ j : ℕ, j < k →
          cum + (j : ℚ) * (font.Size + font.LineSpacing) +
            0.5 * (font.Size + font.LineSpacing) ≤ tableItem.Height) ∧
        (ell = true →
          cum + (k : ℚ) * (font.Size + font.LineSpacing) +
            0.5 * (font.Size + font.LineSpacing) > tableItem.Height) ∧
        (ell = false → k = points.length) := by
  induction points with
  | nil =>
    intro i cum calls yEnd h
    rw [tableRows_nil] at h
    simp only [Except.ok.injEq, Prod.mk.injEq] at h
    refine ⟨0, false, le_refl _, ?_, ?_, ?_, ?_⟩
    · simp [expectedRows, h.1.symm]
    · intro j hj; omega
    · intro hf; cases hf
    · intro _; rfl
  | cons point rest ih =>
    intro i cum calls yEnd h
    by_cases hfire : cum + 0.5 * (font.Size + font.LineSpacing) > tableItem.Height
    · rw [tableRows_cons_stop _ _ _ _ _ _ _ _ _ _ hfire] at h
      simp only [Except.ok.injEq, Prod.mk.injEq] at h
      refine ⟨0, true, Nat.zero_le _, ?_, ?_, ?_, ?_⟩
      · simp [expectedRows, h.1.symm]
      · intro j hj; omega
      · intro _; simpa using hfire
      · intro hf; cases hf
    · cases hc : categoryOf tableItem.DataSeriesCategory point with
      | none =>
        rw [tableRows_cons_panic _ _ _ _ _ _ _ _ _ _ hfire hc] at h
        cases h
      | some s =>
        rw [tableRows_cons_row _ _ _ _ _ _ _ _ _ _ s hfire hc] at h
        have hy : y0 + (i : ℚ) * (font.Size + font.LineSpacing) + font.Size + font.LineSpacing =
            y0 + ((i + 1 : ℕ) : ℚ) * (font.Size + font.LineSpacing) := by
          push_cast; ring
        rw [hy] at h
        cases hrec : tableRows Sprintf tableItem font tableWidth columnWidth getXPosition rest
            (y0 + ((i + 1 : ℕ) : ℚ) * (font.Size + font.LineSpacing))
            (cum + font.Size + font.LineSpacing) with
        | error e => rw [hrec] at h; cases h
        | ok res =>
          obtain ⟨calls', yEnd'⟩ := res
          rw [hrec] at h
          simp only [Except.ok.injEq, Prod.mk.injEq] at h
          obtain ⟨k, ell, hk, hcalls, hrows, hell, hall⟩ := ih (i + 1) _ calls' yEnd' hrec
          refine ⟨k + 1, ell, by simpa using hk, ?_, ?_, ?_, ?_⟩
          · rw [← h.1, hcalls]
            have hidx : i + 1 + k = i + (k + 1) := by omega
            simp only [List.take_succ_cons, expectedRows, hc, Option.getD_some, hidx,
              List.append_assoc]
          · intro j hj
            cases j with
            | zero => simpa using not_lt.mp hfire
            | succ j' =>
              have := hrows j' (by omega)
              push_cast
              linarith
          · intro he
            have := hell he
            push_cast
            linarith
          · intro he
            simp [hall he]

/-- When every record carries a category string the loop returns normally. -/
theorem tableRows_returns (points : List DataPoint) :
    ∀ (y cum : ℚ),
      (∀ p ∈ points, (categoryOf tableItem.DataSeriesCategory p).isSome = true) →
      ∃ res : List DrawCall × ℚ,
        tableRows Sprintf tableItem font tableWidth columnWidth getXPosition points y cum =
          .ok res := by
  induction points with
  | nil => intro y cum _; exact ⟨([], y), rfl⟩
  | cons point rest ih =>
    intro y cum htyped
    by_cases hfire : cum + 0.5 * (font.Size + font.LineSpacing) > tableItem.Height
    · exact ⟨_, tableRows_cons_stop _ _ _ _ _ _ _ _ _ _ hfire⟩
    · obtain ⟨s, hs⟩ := Option.isSome_iff_exists.mp (htyped point (by simp))
      obtain ⟨res, hres⟩ := ih (y + font.Size + font.LineSpacing)
        (cum + font.Size + font.LineSpacing) (fun p hp => htyped p (by simp [hp]))
      rw [tableRows_cons_row _ _ _ _ _ _ _ _ _ _ s hfire hs, hres]
      exact ⟨_, rfl⟩

/-- Datasets whose name differs from the item's `DataSource` are skipped. -/
theorem tableDatasets_filter (data : Data) :
    ∀ y : ℚ,
      tableDatasets Sprintf tableItem font tableWidth columnWidth getXPosition data y =
        tableDatasets Sprintf tableItem font tableWidth columnWidth getXPosition
          (data.filter (fun d => decide (tableItem.DataSource = d.DataSource))) y := by
  induction data with
  | nil => intro y; rfl
  | cons d rest ih =>
    intro y
    by_cases hd : tableItem.DataSource = d.DataSource
    · rw [List.filter_cons_of_pos (by simpa using hd)]
      rw [tableDatasets, tableDatasets, if_pos hd, if_pos hd]
      cases tableSeries Sprintf tableItem font tableWidth columnWidth getXPosition d y with
      | error e => rfl
      | ok res =>
        obtain ⟨calls, y1⟩ := res
        simp only [ih y1]
    · rw [List.filter_cons_of_neg (by simpa using hd)]
      rw [tableDatasets, if_neg hd]
      exact ih y

/-- With exactly one matching dataset, the table is that dataset's header row
and data rows. -/
theorem tableDatasets_single (data : Data) (ds : DataSet) (y : ℚ)
    (h : data.filter (fun d => decide (tableItem.DataSource = d.DataSource)) = [ds]) :
    tableDatasets Sprintf tableItem font tableWidth columnWidth getXPosition data y =
      match tableRows Sprintf tableItem font tableWidth columnWidth getXPosition ds.DataPoints
          (y + font.HeaderFont.Size + font.HeaderFont.LineSpacing)
          (font.HeaderFont.Size + font.HeaderFont.LineSpacing) with
      | .error e => .error e
      | .ok (rows, _) =>
        .ok (headerCalls tableItem font columnWidth getXPosition y ++ rowFormatCalls font ++
          rows) := by
  have hmem : ds ∈ data.filter (fun d => decide (tableItem.DataSource = d.DataSource)) := by
    rw [h]; simp
  have hd : tableItem.DataSource = ds.DataSource := by
    simpa using (List.mem_filter.mp hmem).2
  rw [tableDatasets_filter, h, tableDatasets, if_pos hd, tableSeries]
  cases tableRows Sprintf tableItem font tableWidth columnWidth getXPosition ds.DataPoints
      (y + font.HeaderFont.Size + font.HeaderFont.LineSpacing)
      (font.HeaderFont.Size + font.HeaderFont.LineSpacing) with
  | error e => rfl
  | ok res =>
    obtain ⟨rows, y1⟩ := res
    simp [tableDatasets]

end TableLoop

/-! ## Facts about `ProcessTablePDFItem` -/

theorem fetch_size_pos (r : Font) : 0 < (FetchTextFormattingFromRecipe r).Size := by
  show (0 : ℚ) < if r.Size > 0 then r.Size else 9
  split_ifs with h
  · exact h
  · norm_num

theorem fetch_lineSpacing_nonneg (r : Font) : 0 ≤ (FetchTextFormattingFromRecipe r).LineSpacing := by
  show (0 : ℚ) ≤ if r.LineSpacing ≥ 0 then r.LineSpacing
    else (if r.LineSpacing ≥ 0 then r.LineSpacing else 3)
  split_ifs with h
  · exact h
  · norm_num

theorem rowHeight_pos (tableItem : PdfContentItem) : 0 < rowHeight tableItem := by
  have h1 := fetch_size_pos tableItem.Font
  have h2 := fetch_lineSpacing_nonneg tableItem.Font
  unfold rowHeight tableFont
  linarith

theorem expectedRows_length (Sprintf : Option Value → String) (tableItem : PdfContentItem)
    (font : Font) (columnWidth getXPosition y0 : ℚ) (points : List DataPoint) :
    ∀ i : ℕ, (expectedRows Sprintf tableItem font columnWidth getXPosition y0 i points).length =
      4 * points.length := by
  induction points with
  | nil => intro i; rfl
  | cons p rest ih =>
    intro i
    simp only [expectedRows, List.length_append, ih (i + 1), dataRowCalls, List.length_cons,
      List.length_nil]
    omega

theorem tableOutput_length (Sprintf : Option Value → String) (tableItem : PdfContentItem)
    (pdfFields : PdfFields) (points : List DataPoint) (k : ℕ) (ell : Bool)
    (hk : k ≤ points.length) :
    (tableOutput Sprintf tableItem pdfFields points k ell).length =
      12 + 4 * k + (if ell then 2 else 0) := by
  unfold tableOutput
  simp only [List.length_append, expectedRows_length, List.length_take, headerCalls,
    rowFormatCalls, List.length_cons, List.length_nil, Nat.min_eq_left hk]
  cases ell <;> simp [ellipsisCalls]

/-- With exactly one matching dataset, `ProcessTablePDFItem` is the header row
followed by what the row loop emits for that dataset. -/
theorem ProcessTablePDFItem_single (Sprintf : Option Value → String)
    (tableItem : PdfContentItem) (pdfFields : PdfFields) (data : Data) (ds : DataSet)
    (hmatch : data.filter (fun d => decide (tableItem.DataSource = d.DataSource)) = [ds]) :
    ProcessTablePDFItem Sprintf tableItem pdfFields data =
      match tableRows Sprintf tableItem (tableFont tableItem) (tableWidthOf tableItem)
          (tableWidthOf tableItem / 2) (tableLeft tableItem pdfFields) ds.DataPoints
          (tableTop tableItem pdfFields + headerHeight tableItem +
            ((0 : ℕ) : ℚ) * ((tableFont tableItem).Size + (tableFont tableItem).LineSpacing))
          (headerHeight tableItem) with
      | .error e => .error e
      | .ok (rows, _) =>
        .ok (headerCalls tableItem (tableFont tableItem) (tableWidthOf tableItem / 2)
            (tableLeft tableItem pdfFields) (tableTop tableItem pdfFields) ++
          rowFormatCalls (tableFont tableItem) ++ rows) := by
  have h := tableDatasets_single Sprintf tableItem (tableFont tableItem) (tableWidthOf tableItem)
    (tableWidthOf tableItem / 2) (tableLeft tableItem pdfFields) data ds
    (tableTop tableItem pdfFields) hmatch
  have hy : tableTop tableItem pdfFields + (tableFont tableItem).HeaderFont.Size +
      (tableFont tableItem).HeaderFont.LineSpacing =
      tableTop tableItem pdfFields + headerHeight tableItem +
        ((0 : ℕ) : ℚ) * ((tableFont tableItem).Size + (tableFont tableItem).LineSpacing) := by
    unfold headerHeight; push_cast; ring
  rw [hy] at h
  exact h

/-- With exactly one matching dataset whose records all carry a category
string, `ProcessTablePDFItem` returns normally. -/
theorem ProcessTablePDFItem_returns (Sprintf : Option Value → String)
    (tableItem : PdfContentItem) (pdfFields : PdfFields) (data : Data) (ds : DataSet)
    (hmatch : data.filter (fun d => decide (tableItem.DataSource = d.DataSource)) = [ds])
    (htyped : ∀ p ∈ ds.DataPoints,
      (categoryOf tableItem.DataSeriesCategory p).isSome = true) :
    ∃ calls : List DrawCall,
      ProcessTablePDFItem Sprintf tableItem pdfFields data = .ok calls := by
  obtain ⟨res, hres⟩ := tableRows_returns Sprintf tableItem (tableFont tableItem)
    (tableWidthOf tableItem) (tableWidthOf tableItem / 2) (tableLeft tableItem pdfFields)
    ds.DataPoints
    (tableTop tableItem pdfFields + headerHeight tableItem +
      ((0 : ℕ) : ℚ) * ((tableFont tableItem).Size + (tableFont tableItem).LineSpacing))
    (headerHeight tableItem) htyped
  rw [ProcessTablePDFItem_single Sprintf tableItem pdfFields data ds hmatch, hres]
  exact ⟨_, rfl⟩

/-- With exactly one matching dataset, a normal return of `ProcessTablePDFItem`
has emitted the header row, the data rows of the first `k` records and, unless
all records were shown, the ellipsis row; the height test failed before each
data row and succeeded before the ellipsis row. -/
theorem ProcessTablePDFItem_shape (Sprintf : Option Value → String)
    (tableItem : PdfContentItem) (pdfFields : PdfFields) (data : Data) (ds : DataSet)
    (calls : List DrawCall)
    (hmatch : data.filter (fun d => decide (tableItem.DataSource = d.DataSource)) = [ds])
    (hok : ProcessTablePDFItem Sprintf tableItem pdfFields data = .ok calls) :
    ∃ (k : ℕ) (ell : Bool), k ≤ ds.DataPoints.length ∧
      calls = tableOutput Sprintf tableItem pdfFields ds.DataPoints k ell ∧
      (∀ j : ℕ, j < k →
        emittedHeight tableItem j false + 0.5 * rowHeight tableItem ≤ tableItem.Height) ∧
      (ell = true →
        emittedHeight tableItem k false + 0.5 * rowHeight tableItem > tableItem.Height) ∧
      (ell = false → k = ds.DataPoints.length) := by
  rw [ProcessTablePDFItem_single Sprintf tableItem pdfFields data ds hmatch] at hok
  cases hrows : tableRows Sprintf tableItem (tableFont tableItem) (tableWidthOf tableItem)
      (tableWidthOf tableItem / 2) (tableLeft tableItem pdfFields) ds.DataPoints
      (tableTop tableItem pdfFields + headerHeight tableItem +
        ((0 : ℕ) : ℚ) * ((tableFont tableItem).Size + (tableFont tableItem).LineSpacing))
      (headerHeight tableItem) with
  | error e => rw [hrows] at hok; cases hok
  | ok res =>
    obtain ⟨rows, yEnd⟩ := res
    rw [hrows] at hok
    simp only [Except.ok.injEq] at hok
    obtain ⟨k, ell, hk, hcalls, hfit, hell, hall⟩ :=
      tableRows_shape Sprintf tableItem (tableFont tableItem) (tableWidthOf tableItem)
        (tableWidthOf tableItem / 2) (tableLeft tableItem pdfFields)
        (tableTop tableItem pdfFields + headerHeight tableItem) ds.DataPoints 0
        (headerHeight tableItem) rows yEnd hrows
    refine ⟨k, ell, hk, ?_, ?_, ?_, hall⟩
    · rw [← hok, hcalls]
      simp only [tableOutput, rowHeight, Nat.zero_add, List.append_assoc]
    · intro j hj
      have := hfit j hj
      simpa [emittedHeight, rowHeight] using this
    · intro he
      have := hell he
      simpa [emittedHeight, rowHeight] using this

/-! ## Claims about `ProcessTablePDFItem` -/

/-- C1, as stated, fails: for a table of declared height 20 with no font set
(header row 13 high, data rows 12 high) and a series of two records, the code
emits the header row, one data row and the ellipsis row, of cumulative height
`13 + 12 + 6 = 31`, which exceeds 20. -/
theorem ProcessTablePDFItem_height_counterexample :
    ProcessTablePDFItem exampleSprintf (exampleTable 20) exampleFields exampleData =
        .ok (tableOutput exampleSprintf (exampleTable 20) exampleFields
          [examplePoint "Jan" 10, examplePoint "Feb" 40] 1 true) ∧
      emittedHeight (exampleTable 20) 1 true = 31 ∧
      ¬ emittedHeight (exampleTable 20) 1 true ≤ (exampleTable 20).Height := by
  decide!

/-- C3, as stated, fails: for the table of declared height 20 (header row 13
high, data rows 12 high), before data row 0 the cumulative height plus the
full row height is `13 + 12 = 25 > 20`, yet the code does not emit the
ellipsis row in place of row 0 (its test is `13 + 6 > 20`, false). -/
theorem ProcessTablePDFItem_ellipsis_counterexample :
    ¬ (ProcessTablePDFItem exampleSprintf (exampleTable 20) exampleFields exampleData =
          .ok (tableOutput exampleSprintf (exampleTable 20) exampleFields
            [examplePoint "Jan" 10, examplePoint "Feb" 40] 0 true) ↔
        emittedHeight (exampleTable 20) 0 false + rowHeight (exampleTable 20) >
          (exampleTable 20).Height) := by
  decide!

/-! ## Header font numerics and the fonts submitted to the canvas -/

/-- C11, on the code: the resolved header line spacing is 3 whatever the
recipe says (source lines 551-553 test and assign the body `LineSpacing` a
second time and `HeaderFont.LineSpacing` is never read), so a recipe header
line spacing of 5 is not kept; the header size does follow the rule: the
recipe's header size when strictly positive, else 10. -/
theorem FetchTextFormattingFromRecipe_headerNumeric :
    (∀ r : Font, (FetchTextFormattingFromRecipe r).HeaderFont.LineSpacing = 3) ∧
      headerSpacingFont.HeaderFont.LineSpacing = 5 ∧
      (FetchTextFormattingFromRecipe headerSpacingFont).HeaderFont.LineSpacing ≠ 5 ∧
      (∀ r : Font, (FetchTextFormattingFromRecipe r).HeaderFont.Size =
        if r.HeaderFont.Size > 0 then r.HeaderFont.Size else 10) := by
  refine ⟨fun _ => rfl, rfl, ?_, fun _ => rfl⟩
  show (3 : ℚ) ≠ 5
  norm_num

/-- C12, on the code: for the example chart, whose title font is not set, the
`SetFont` calls are the resolved label font and then, for the title, the raw
recipe fields: empty family and size 0. -/
theorem ProcessVerticalBarChartPDFItem_setFont :
    (ProcessVerticalBarChartPDFItem exampleSprintf exampleStringWidth exampleChart
        exampleFields exampleChartData).map setFontCalls =
      .ok [.SetFont "Helvetica" "" 9, .SetFont "" "" 0] := by
  decide!

/-! ## Items without a matching series, text blocks, dispatch -/

theorem tableDatasets_no_match (Sprintf : Option Value → String) (tableItem : PdfContentItem)
    (font : Font) (tableWidth columnWidth getXPosition : ℚ) (data : Data)
    (h : ∀ d ∈ data, tableItem.DataSource ≠ d.DataSource) :
    ∀ y : ℚ,
      tableDatasets Sprintf tableItem font tableWidth columnWidth getXPosition data y =
        .ok [] := by
  induction data with
  | nil => intro y; rfl
  | cons d rest ih =>
    intro y
    rw [tableDatasets, if_neg (h d (by simp))]
    exact ih (fun d' hd' => h d' (by simp [hd'])) y

theorem chartDatasets_no_match (Sprintf : Option Value → String)
    (GetStringWidth : String → String → ℚ → String → ℚ) (vbarItem : PdfContentItem)
    (pdfSettings : PdfFields) (yAxisTicks : ℚ) (data : Data)
    (h : ∀ d ∈ data, vbarItem.DataSource ≠ d.DataSource) :
    chartDatasets Sprintf GetStringWidth vbarItem pdfSettings yAxisTicks data = .ok [] := by
  induction data with
  | nil => rfl
  | cons d rest ih =>
    rw [chartDatasets, if_neg (h d (by simp))]
    exact ih (fun d' hd' => h d' (by simp [hd']))

/-- C17: when no series of the dataset is named as the item's `DataSource`,
the table renderer and the vertical bar chart renderer return normally
(`err` is `nil`) without having made any call on the document. -/
theorem no_matching_series_draws_nothing (Sprintf : Option Value → String)
    (GetStringWidth : String → String → ℚ → String → ℚ) (item : PdfContentItem)
    (pdfFields : PdfFields) (data : Data)
    (h : ∀ d ∈ data, item.DataSource ≠ d.DataSource) :
    ProcessTablePDFItem Sprintf item pdfFields data = .ok [] ∧
      ProcessVerticalBarChartPDFItem Sprintf GetStringWidth item pdfFields data = .ok [] :=
  ⟨tableDatasets_no_match Sprintf item _ _ _ _ data h _,
    chartDatasets_no_match Sprintf GetStringWidth item pdfFields _ data h⟩

/-- Witness of C17: the example table and the example chart, bound to
`"sales"`, on a dataset whose only series is named `"costs"`. -/
theorem no_matching_series_draws_nothing_witness :
    (∀ d ∈ [({ DataSource := "costs", DataPoints := [examplePoint "Jan" 10] } : DataSet)],
        exampleChart.DataSource ≠ d.DataSource) ∧
      ProcessTablePDFItem exampleSprintf exampleChart exampleFields
          [{ DataSource := "costs", DataPoints := [examplePoint "Jan" 10] }] = .ok [] ∧
      ProcessVerticalBarChartPDFItem exampleSprintf exampleStringWidth exampleChart
          exampleFields [{ DataSource := "costs", DataPoints := [examplePoint "Jan" 10] }] =
        .ok [] :=
  ⟨by decide,
    no_matching_series_draws_nothing exampleSprintf exampleStringWidth exampleChart
      exampleFields [{ DataSource := "costs", DataPoints := [examplePoint "Jan" 10] }]
      (by decide)⟩

/-- C18: `ProcessTextBlockPDFItem` selects the resolved font and colours, moves
to (`XPosition` + left margin, `YPosition` + top margin) and draws exactly
one multi-line text box, of the declared `Width` and of line height resolved
size + resolved line spacing; with size 9 and line spacing 3 in the recipe
that line height is 12. -/
theorem ProcessTextBlockPDFItem_box (textBlockItem : PdfContentItem) (pdfSettings : PdfFields) :
    ProcessTextBlockPDFItem textBlockItem pdfSettings =
        .ok
          [ .SetFont (FetchTextFormattingFromRecipe textBlockItem.Font).Family
              (FetchTextFormattingFromRecipe textBlockItem.Font).Style
              (FetchTextFormattingFromRecipe textBlockItem.Font).Size,
            .SetTextColor (FetchTextFormattingFromRecipe textBlockItem.Font).Colour.R
              (FetchTextFormattingFromRecipe textBlockItem.Font).Colour.G
              (FetchTextFormattingFromRecipe textBlockItem.Font).Colour.B,
            .SetFillColor (FetchTextFormattingFromRecipe textBlockItem.Font).CellFill.Colour.R
              (FetchTextFormattingFromRecipe textBlockItem.Font).CellFill.Colour.G
              (FetchTextFormattingFromRecipe textBlockItem.Font).CellFill.Colour.B,
            .SetDrawColor (FetchTextFormattingFromRecipe textBlockItem.Font).CellBorders.Colour.R
              (FetchTextFormattingFromRecipe textBlockItem.Font).CellBorders.Colour.G
              (FetchTextFormattingFromRecipe textBlockItem.Font).CellBorders.Colour.B,
            .SetXY (textBlockItem.XPosition + pdfSettings.PdfSettings.PageLeftAndRightMargins)
              (textBlockItem.YPosition + pdfSettings.PdfSettings.PageTopMargin),
            .MultiCell textBlockItem.Width
              ((FetchTextFormattingFromRecipe textBlockItem.Font).Size +
                (FetchTextFormattingFromRecipe textBlockItem.Font).LineSpacing)
              textBlockItem.Text
              (FetchTextFormattingFromRecipe textBlockItem.Font).CellBorders.Style
              (FetchTextFormattingFromRecipe textBlockItem.Font).Alignment
              (FetchTextFormattingFromRecipe textBlockItem.Font).CellFill.Filled ] ∧
      (∀ calls : List DrawCall, ProcessTextBlockPDFItem textBlockItem pdfSettings = .ok calls →
        calls.countP isTextBox = 1) ∧
      (textBlockItem.Font.Size = 9 → textBlockItem.Font.LineSpacing = 3 →
        (FetchTextFormattingFromRecipe textBlockItem.Font).Size +
          (FetchTextFormattingFromRecipe textBlockItem.Font).LineSpacing = 12) := by
  refine ⟨rfl, ?_, ?_⟩
  · intro calls h
    simp only [ProcessTextBlockPDFItem, Except.ok.injEq] at h
    subst h
    rfl
  · intro hs hl
    have h1 : (FetchTextFormattingFromRecipe textBlockItem.Font).Size = 9 := by
      show (if textBlockItem.Font.Size > 0 then textBlockItem.Font.Size else 9) = 9
      rw [hs]; norm_num
    have h2 : (FetchTextFormattingFromRecipe textBlockItem.Font).LineSpacing = 3 := by
      show (if textBlockItem.Font.LineSpacing ≥ 0 then textBlockItem.Font.LineSpacing
        else (if textBlockItem.Font.LineSpacing ≥ 0 then textBlockItem.Font.LineSpacing
          else 3)) = 3
      rw [hl]; norm_num
    rw [h1, h2]; norm_num

section Dispatch

variable (Sprintf : Option Value → String)
  (GetStringWidth : String → String → ℚ → String → ℚ)

/-- One iteration of the loop of `ProcessPDFContentsItems` appends the draw
calls of the item to the document. -/
theorem processItemsLoop_cons (recipe : PdfFields) (dataset : Data) (item : PdfContentItem)
    (rest : List PdfContentItem) (pdf : List DrawCall) :
    processItemsLoop Sprintf GetStringWidth recipe dataset (item :: rest) pdf =
      match itemDrawCalls Sprintf GetStringWidth recipe dataset item with
      | .error e => .error e
      | .ok calls => processItemsLoop Sprintf GetStringWidth recipe dataset rest (pdf ++ calls) := by
  rw [processItemsLoop]
  unfold itemDrawCalls
  by_cases h1 : item.ItemType = "textBlock"
  · simp only [if_pos h1]
  · by_cases h2 : item.ItemType = "table"
    · simp only [if_neg h1, if_pos h2]
    · by_cases h3 : item.ItemType = "verticalBar"
      · simp only [if_neg h1, if_neg h2, if_pos h3]
      · simp only [if_neg h1, if_neg h2, if_neg h3, List.append_nil]

theorem processItemsLoop_of_outs (recipe : PdfFields) (dataset : Data)
    (items : List PdfContentItem) :
    ∀ (outs : List (List DrawCall)) (pdf : List DrawCall),
      List.Forall₂
        (fun item out => itemDrawCalls Sprintf GetStringWidth recipe dataset item = .ok out)
        items outs →
      processItemsLoop Sprintf GetStringWidth recipe dataset items pdf =
        .ok (pdf ++ outs.flatten) := by
  induction items with
  | nil =>
    intro outs pdf h
    cases h
    simp [processItemsLoop]
  | cons item rest ih =>
    intro outs pdf h
    cases h with
    | cons hhead htail =>
      rw [processItemsLoop_cons, hhead]
      simp only [ih _ _ htail, List.flatten_cons, List.append_assoc]

theorem processItemsLoop_outs (recipe : PdfFields) (dataset : Data)
    (items : List PdfContentItem) :
    ∀ (pdf calls : List DrawCall),
      processItemsLoop Sprintf GetStringWidth recipe dataset items pdf = .ok calls →
      ∃ outs : List (List DrawCall),
        List.Forall₂
          (fun item out => itemDrawCalls Sprintf GetStringWidth recipe dataset item = .ok out)
          items outs ∧
        calls = pdf ++ outs.flatten := by
  induction items with
  | nil =>
    intro pdf calls h
    simp only [processItemsLoop, Except.ok.injEq] at h
    exact ⟨[], List.Forall₂.nil, by simp [h]⟩
  | cons item rest ih =>
    intro pdf calls h
    rw [processItemsLoop_cons] at h
    cases hitem : itemDrawCalls Sprintf GetStringWidth recipe dataset item with
    | error e => rw [hitem] at h; cases h
    | ok out =>
      rw [hitem] at h
      obtain ⟨outs, houts, hcalls⟩ := ih _ _ h
      exact ⟨out :: outs, List.Forall₂.cons hitem houts, by
        simp [hcalls, List.append_assoc]⟩

/-- C19: started on a document holding the calls `pdf`,
`ProcessPDFContentsItems` returns normally exactly when every item's renderer
does, and then the document holds `pdf` followed by the draw calls of the
items, concatenated in the order of the recipe, each item's calls being those
of the renderer matching its `ItemType` (`"textBlock"`, `"table"`,
`"verticalBar"`) and none for any other type. -/
theorem ProcessPDFContentsItems_concat (pdf : List DrawCall) (recipe : PdfFields)
    (dataset : Data) :
    (∀ outs : List (List DrawCall),
      List.Forall₂
        (fun item out => itemDrawCalls Sprintf GetStringWidth recipe dataset item = .ok out)
        recipe.PdfContents outs →
      ProcessPDFContentsItems Sprintf GetStringWidth pdf recipe dataset =
        .ok (pdf ++ outs.flatten)) ∧
    (∀ calls : List DrawCall,
      ProcessPDFContentsItems Sprintf GetStringWidth pdf recipe dataset = .ok calls →
      ∃ outs : List (List DrawCall),
        List.Forall₂
          (fun item out => itemDrawCalls Sprintf GetStringWidth recipe dataset item = .ok out)
          recipe.PdfContents outs ∧
        calls = pdf ++ outs.flatten) :=
  ⟨fun outs h => processItemsLoop_of_outs Sprintf GetStringWidth recipe dataset _ outs pdf h,
    fun calls h => processItemsLoop_outs Sprintf GetStringWidth recipe dataset _ pdf calls h⟩

end Dispatch

/-! ## Facts about the loops of `ProcessVerticalBarChartPDFItem` -/

theorem scanSeries_cons (vbarItem : PdfContentItem) (point : DataPoint)
    (rest : List DataPoint) (m n : ℚ) :
    scanSeries vbarItem (point :: rest) m n =
      match seriesNumber vbarItem.DataSeries point with
      | none => .error .interfaceConversion
      | some v => scanSeries vbarItem rest (if v > m then v else m) (n + 1) := by
  rw [scanSeries]
  cases point with
  | notObject => rfl
  | object fields =>
    simp only [assertMap, seriesNumber]
    cases fields.lookup vbarItem.DataSeries with
    | none => rfl
    | some v =>
      cases v with
      | str s => rfl
      | num x => rfl
      | other => rfl

theorem ite_gt_eq_max (v m : ℚ) : (if v > m then v else m) = max m v := by
  split_ifs with h
  · exact (max_eq_right h.le).symm
  · exact (max_eq_left (not_lt.mp h)).symm

/-- The scan returns normally exactly on records that all hold a number under
`DataSeries`; it then returns the largest of the starting maximum and their
values, and the starting count plus their number. -/
theorem scanSeries_ok_iff (vbarItem : PdfContentItem) (points : List DataPoint) :
    ∀ (m n mx k : ℚ),
      scanSeries vbarItem points m n = .ok (mx, k) ↔
        (∀ p ∈ points, (seriesNumber vbarItem.DataSeries p).isSome = true) ∧
          mx = (seriesValues vbarItem.DataSeries points).foldl max m ∧
          k = n + (points.length : ℚ) := by
  induction points with
  | nil =>
    intro m n mx k
    simp only [scanSeries, Except.ok.injEq, Prod.mk.injEq, seriesValues, List.filterMap_nil,
      List.foldl_nil, List.length_nil, Nat.cast_zero, add_zero, List.not_mem_nil,
      false_implies, implies_true, true_and]
    constructor
    · rintro ⟨h1, h2⟩; exact ⟨h1.symm, h2.symm⟩
    · rintro ⟨h1, h2⟩; exact ⟨h1.symm, h2.symm⟩
  | cons point rest ih =>
    intro m n mx k
    rw [scanSeries_cons]
    cases hv : seriesNumber vbarItem.DataSeries point with
    | none =>
      simp only [List.mem_cons, forall_eq_or_imp, hv, Option.isSome_none, Bool.false_eq_true,
        false_and, iff_false]
      intro h; cases h
    | some v =>
      simp only [ih, List.mem_cons, forall_eq_or_imp, hv, Option.isSome_some, true_and,
        seriesValues, List.filterMap_cons, List.foldl_cons, List.length_cons, ite_gt_eq_max]
      constructor
      · rintro ⟨h1, h2, h3⟩
        exact ⟨h1, h2, by rw [h3]; push_cast; ring⟩
      · rintro ⟨h1, h2, h3⟩
        exact ⟨h1, h2, by rw [h3]; push_cast; ring⟩

theorem foldl_max_ge_init (l : List ℚ) : ∀ m : ℚ, m ≤ l.foldl max m := by
  induction l with
  | nil => intro m; exact le_refl _
  | cons a rest ih => intro m; exact le_trans (le_max_left m a) (ih (max m a))

theorem foldl_max_ge_mem (l : List ℚ) : ∀ (m v : ℚ), v ∈ l → v ≤ l.foldl max m := by
  induction l with
  | nil => intro m v h; simp at h
  | cons a rest ih =>
    intro m v h
    rcases List.mem_cons.mp h with h | h
    · subst h
      exact le_trans (le_max_right m v) (foldl_max_ge_init rest (max m v))
    · exact ih (max m a) v h

section ChartLoops

variable (Sprintf : Option Value → String)
  (GetStringWidth : String → String → ℚ → String → ℚ)
  (vbarItem : PdfContentItem) (pdfSettings : PdfFields)

/-- The bars loop on records that hold a category string and a number: one
block of calls per record, in order, the tick marks one cell width apart. -/
theorem barsLoop_typed (w top : ℚ) (points : List DataPoint) :
    ∀ j : ℕ,
      (∀ p ∈ points, (categoryOf vbarItem.DataSeriesCategory p).isSome = true ∧
        (seriesNumber vbarItem.DataSeries p).isSome = true) →
      barsLoop vbarItem (chartFont vbarItem) w top (axisZero vbarItem pdfSettings)
          (axisTop vbarItem pdfSettings) vbarItem.ChartSettings.TickMarkLength points
          (yAxisX vbarItem pdfSettings + (j : ℚ) * w) =
        .ok (expectedBars vbarItem pdfSettings w top j points,
          yAxisX vbarItem pdfSettings + ((j + points.length : ℕ) : ℚ) * w) := by
  induction points with
  | nil => intro j _; simp [barsLoop, expectedBars]
  | cons point rest ih =>
    intro j h
    obtain ⟨hc, hn⟩ := h point (by simp)
    obtain ⟨s, hs⟩ := Option.isSome_iff_exists.mp hc
    obtain ⟨v, hv⟩ := Option.isSome_iff_exists.mp hn
    have hx : yAxisX vbarItem pdfSettings + (j : ℚ) * w + w =
        yAxisX vbarItem pdfSettings + ((j + 1 : ℕ) : ℚ) * w := by push_cast; ring
    have hlen : j + 1 + rest.length = j + (point :: rest).length := by
      simp only [List.length_cons]; omega
    rw [barsLoop]
    cases point with
    | notObject => simp [categoryOf] at hs
    | object fields =>
      simp only [categoryOf, seriesNumber] at hs hv
      simp only [assertMap]
      cases hl : fields.lookup vbarItem.DataSeriesCategory with
      | none => rw [hl] at hs; simp at hs
      | some cv =>
        rw [hl] at hs
        cases cv with
        | num q => simp at hs
        | other => simp at hs
        | str t =>
          simp only [Option.some.injEq] at hs
          subst hs
          cases hl2 : fields.lookup vbarItem.DataSeries with
          | none => rw [hl2] at hv; simp at hv
          | some nv =>
            rw [hl2] at hv
            cases nv with
            | str q => simp at hv
            | other => simp at hv
            | num x =>
              simp only [Option.some.injEq] at hv
              subst hv
              simp only [assertString, assertFloat64]
              rw [hx, ih (j + 1) (fun p hp => h p (by simp [hp])), hlen]
              simp only [expectedBars, categoryOf, seriesNumber, hl, hl2, Option.getD_some]

/-- The y-axis tick loop, started at the natural number `i0` with at most as
many iterations left as the loop test allows, draws one tick per iteration. -/
theorem yAxisTickLoop_range (font : Font)
    (boxX axisX tickLength interval top t y0 : ℚ) :
    ∀ (fuel i0 : ℕ), i0 + fuel ≤ (⌊t⌋ + 1).toNat →
      yAxisTickLoop Sprintf vbarItem font boxX axisX tickLength interval top t fuel (i0 : ℚ)
          (y0 + (i0 : ℚ) * interval) (top - (i0 : ℚ) * (top / t)) =
        (List.range' i0 fuel).flatMap fun i =>
          yTickCalls Sprintf vbarItem font boxX axisX tickLength (y0 + (i : ℚ) * interval)
            (top - (i : ℚ) * (top / t)) := by
  intro fuel
  induction fuel with
  | zero => intro i0 _; simp [yAxisTickLoop]
  | succ fuel ih =>
    intro i0 h
    have hi : (i0 : ℚ) ≤ t := by
      have h1 : i0 < (⌊t⌋ + 1).toNat := by omega
      have h2 : (i0 : ℤ) < ⌊t⌋ + 1 := by
        have := Int.lt_toNat.mp h1
        exact this
      have h3 : (i0 : ℤ) ≤ ⌊t⌋ := by omega
      have h4 : ((i0 : ℤ) : ℚ) ≤ t := Int.le_floor.mp h3
      exact_mod_cast h4
    have e1 : ((i0 : ℚ) + 1) = ((i0 + 1 : ℕ) : ℚ) := by push_cast; ring
    have e2 : y0 + (i0 : ℚ) * interval + interval = y0 + ((i0 + 1 : ℕ) : ℚ) * interval := by
      push_cast; ring
    have e3 : top - (i0 : ℚ) * (top / t) - top / t = top - ((i0 + 1 : ℕ) : ℚ) * (top / t) := by
      push_cast; ring
    rw [yAxisTickLoop, if_pos hi, e1, e2, e3, ih (i0 + 1) (by omega)]
    simp [List.range'_succ]

/-- The iterations given to the y-axis tick loop are enough: with more of
them the loop makes the same calls, because it stops by its own test. -/
theorem yAxisTickLoop_fuel (font : Font)
    (boxX axisX tickLength interval top t : ℚ) :
    ∀ (fuel extra : ℕ) (i0 : ℕ) (y l : ℚ), i0 + fuel = (⌊t⌋ + 1).toNat →
      yAxisTickLoop Sprintf vbarItem font boxX axisX tickLength interval top t (fuel + extra)
          (i0 : ℚ) y l =
        yAxisTickLoop Sprintf vbarItem font boxX axisX tickLength interval top t fuel
          (i0 : ℚ) y l := by
  intro fuel
  induction fuel with
  | zero =>
    intro extra i0 y l h
    cases extra with
    | zero => rfl
    | succ e =>
      have hi : ¬ (i0 : ℚ) ≤ t := by
        intro hle
        have h1 : (i0 : ℤ) ≤ ⌊t⌋ := Int.le_floor.mpr (by exact_mod_cast hle)
        have h2 : ((⌊t⌋ + 1).toNat : ℤ) ≤ ⌊t⌋ := by
          have : ((⌊t⌋ + 1).toNat : ℤ) = (i0 : ℤ) := by
            have := h.symm; simp at this; exact_mod_cast this
          omega
        have h3 : ⌊t⌋ + 1 ≤ ((⌊t⌋ + 1).toNat : ℤ) := Int.self_le_toNat _
        omega
      simp only [Nat.zero_add, yAxisTickLoop, if_neg hi]
  | succ fuel ih =>
    intro extra i0 y l h
    have e : fuel + 1 + extra = (fuel + extra) + 1 := by omega
    have e1 : ((i0 : ℚ) + 1) = ((i0 + 1 : ℕ) : ℚ) := by push_cast; ring
    rw [e, yAxisTickLoop, yAxisTickLoop, e1, ih extra (i0 + 1) _ _ (by omega)]

end ChartLoops

section ChartOutput

variable (Sprintf : Option Value → String)
  (GetStringWidth : String → String → ℚ → String → ℚ)
  (vbarItem : PdfContentItem) (pdfSettings : PdfFields)

/-- On records that hold a category string and a number, the body of the
dataset loop makes the head calls, one tick per iteration of the tick loop,
one block per record and the end calls. -/
theorem chartSeries_typed (ds : DataSet)
    (htyped : ∀ p ∈ ds.DataPoints,
      (categoryOf vbarItem.DataSeriesCategory p).isSome = true ∧
        (seriesNumber vbarItem.DataSeries p).isSome = true) :
    chartSeries Sprintf GetStringWidth vbarItem pdfSettings (tickCount vbarItem - 1) ds =
      .ok (chartHead vbarItem pdfSettings ++
        ((List.range (⌊tickCount vbarItem - 1⌋ + 1).toNat).flatMap
          (specYTick Sprintf vbarItem pdfSettings (axisMax vbarItem ds.DataPoints))) ++
        expectedBars vbarItem pdfSettings (cellWidth vbarItem ds.DataPoints.length)
          (axisMax vbarItem ds.DataPoints) 0 ds.DataPoints ++
        chartEnd GetStringWidth vbarItem pdfSettings
          (yAxisX vbarItem pdfSettings +
            (ds.DataPoints.length : ℚ) * cellWidth vbarItem ds.DataPoints.length)) := by
  have hscan := (scanSeries_ok_iff vbarItem ds.DataPoints 0 0 (seriesMax vbarItem ds.DataPoints)
    (0 + (ds.DataPoints.length : ℚ))).mpr ⟨fun p hp => (htyped p hp).2, rfl, rfl⟩
  have hw : (vbarItem.Width - vbarItem.ChartSettings.DistanceFromSidesOfChartArea -
      vbarItem.ChartSettings.DistanceFromSidesOfChartArea) / (0 + (ds.DataPoints.length : ℚ)) =
      cellWidth vbarItem ds.DataPoints.length := by
    unfold cellWidth
    congr 1 <;> ring
  have hb := barsLoop_typed vbarItem pdfSettings (cellWidth vbarItem ds.DataPoints.length)
    (axisMax vbarItem ds.DataPoints) ds.DataPoints 0 htyped
  simp only [Nat.cast_zero, zero_mul, add_zero, Nat.zero_add] at hb
  have hh : axisZero vbarItem pdfSettings - axisTop vbarItem pdfSettings =
      chartPixelHeight vbarItem := by
    unfold axisZero axisTop chartPixelHeight; ring
  have ht := yAxisTickLoop_range Sprintf vbarItem (chartFont vbarItem)
    (chartBoxX vbarItem pdfSettings) (yAxisX vbarItem pdfSettings)
    vbarItem.ChartSettings.TickMarkLength
    (chartPixelHeight vbarItem / (tickCount vbarItem - 1)) (axisMax vbarItem ds.DataPoints)
    (tickCount vbarItem - 1) (axisTop vbarItem pdfSettings)
    (⌊tickCount vbarItem - 1⌋ + 1).toNat 0 (by omega)
  simp only [Nat.cast_zero, zero_mul, add_zero, sub_zero] at ht
  unfold chartSeries
  simp only [hscan, hw]
  simp only [chartFont, axisZero, axisTop, yAxisX, chartBoxX, chartBoxY, axisMax] at hb ht hh
  simp only [chartHead, chartEnd, specYTick, chartFont, axisZero, axisTop, yAxisX, chartBoxX,
    chartBoxY, axisMax, hb, hh, ht, List.range_eq_range', List.append_assoc]
  rfl

/-- Datasets whose name differs from the item's `DataSource` are skipped. -/
theorem chartDatasets_filter (yAxisTicks : ℚ) (data : Data) :
    chartDatasets Sprintf GetStringWidth vbarItem pdfSettings yAxisTicks data =
      chartDatasets Sprintf GetStringWidth vbarItem pdfSettings yAxisTicks
        (data.filter (fun d => decide (vbarItem.DataSource = d.DataSource))) := by
  induction data with
  | nil => rfl
  | cons d rest ih =>
    by_cases hd : vbarItem.DataSource = d.DataSource
    · rw [List.filter_cons_of_pos (by simpa using hd)]
      rw [chartDatasets, chartDatasets, if_pos hd, if_pos hd, ih]
    · rw [List.filter_cons_of_neg (by simpa using hd)]
      rw [chartDatasets, if_neg hd]
      exact ih

/-- With exactly one matching dataset, `ProcessVerticalBarChartPDFItem` is the
body of the dataset loop for that dataset. -/
theorem ProcessVerticalBarChartPDFItem_single (data : Data) (ds : DataSet)
    (hmatch : data.filter (fun d => decide (vbarItem.DataSource = d.DataSource)) = [ds]) :
    ProcessVerticalBarChartPDFItem Sprintf GetStringWidth vbarItem pdfSettings data =
      chartSeries Sprintf GetStringWidth vbarItem pdfSettings (tickCount vbarItem - 1) ds := by
  have hmem : ds ∈ data.filter (fun d => decide (vbarItem.DataSource = d.DataSource)) := by
    rw [hmatch]; simp
  have hd : vbarItem.DataSource = ds.DataSource := by
    simpa using (List.mem_filter.mp hmem).2
  show chartDatasets Sprintf GetStringWidth vbarItem pdfSettings (tickCount vbarItem - 1) data = _
  rw [chartDatasets_filter, hmatch, chartDatasets, if_pos hd]
  cases chartSeries Sprintf GetStringWidth vbarItem pdfSettings (tickCount vbarItem - 1) ds with
  | error e => rfl
  | ok calls => simp [chartDatasets]

/-- With exactly one matching dataset, whose records all hold a category
string and a number, `ProcessVerticalBarChartPDFItem` returns normally having
made the head calls, the y-axis ticks, one block per record and the end
calls. -/
theorem ProcessVerticalBarChartPDFItem_output (data : Data) (ds : DataSet)
    (hmatch : data.filter (fun d => decide (vbarItem.DataSource = d.DataSource)) = [ds])
    (htyped : ∀ p ∈ ds.DataPoints,
      (categoryOf vbarItem.DataSeriesCategory p).isSome = true ∧
        (seriesNumber vbarItem.DataSeries p).isSome = true) :
    ProcessVerticalBarChartPDFItem Sprintf GetStringWidth vbarItem pdfSettings data =
      .ok (chartHead vbarItem pdfSettings ++
        ((List.range (⌊tickCount vbarItem - 1⌋ + 1).toNat).flatMap
          (specYTick Sprintf vbarItem pdfSettings (axisMax vbarItem ds.DataPoints))) ++
        expectedBars vbarItem pdfSettings (cellWidth vbarItem ds.DataPoints.length)
          (axisMax vbarItem ds.DataPoints) 0 ds.DataPoints ++
        chartEnd GetStringWidth vbarItem pdfSettings
          (yAxisX vbarItem pdfSettings +
            (ds.DataPoints.length : ℚ) * cellWidth vbarItem ds.DataPoints.length)) := by
  rw [ProcessVerticalBarChartPDFItem_single Sprintf GetStringWidth vbarItem pdfSettings data ds
    hmatch]
  exact chartSeries_typed Sprintf GetStringWidth vbarItem pdfSettings ds htyped

end ChartOutput

/-! ## Claims about `ProcessVerticalBarChartPDFItem` -/

theorem chart_height_eq (vbarItem : PdfContentItem) (pdfSettings : PdfFields) :
    axisZero vbarItem pdfSettings - axisTop vbarItem pdfSettings =
      chartPixelHeight vbarItem := by
  unfold axisZero axisTop chartPixelHeight; ring

theorem tick_iterations (N : ℕ) (hN : 1 ≤ N) : (⌊(N : ℚ) - 1⌋ + 1).toNat = N := by
  have h : (N : ℚ) - 1 = (((N : ℤ) - 1 : ℤ) : ℚ) := by push_cast; ring
  rw [h, Int.floor_intCast]
  omega

theorem tableDatasets_head (Sprintf : Option Value → String) (tableItem : PdfContentItem)
    (font : Font) (tableWidth columnWidth getXPosition : ℚ) (data : Data) :
    ∀ (y : ℚ) (calls : List DrawCall),
      tableDatasets Sprintf tableItem font tableWidth columnWidth getXPosition data y =
        .ok calls →
      calls = [] ∨ ∃ (y1 : ℚ) (rest : List DrawCall),
        calls = headerCalls tableItem font columnWidth getXPosition y1 ++ rest := by
  induction data with
  | nil =>
    intro y calls h
    simp only [tableDatasets, Except.ok.injEq] at h
    exact Or.inl h.symm
  | cons d more ih =>
    intro y calls h
    rw [tableDatasets] at h
    by_cases hd : tableItem.DataSource = d.DataSource
    · rw [if_pos hd, tableSeries] at h
      cases hrows : tableRows Sprintf tableItem font tableWidth columnWidth getXPosition
          d.DataPoints (y + font.HeaderFont.Size + font.HeaderFont.LineSpacing)
          (font.HeaderFont.Size + font.HeaderFont.LineSpacing) with
      | error e => simp only [hrows] at h; cases h
      | ok res =>
        obtain ⟨rows, y1⟩ := res
        simp only [hrows] at h
        cases hmore : tableDatasets Sprintf tableItem font tableWidth columnWidth getXPosition
            more y1 with
        | error e => simp only [hmore] at h; cases h
        | ok moreCalls =>
          simp only [hmore, Except.ok.injEq] at h
          exact Or.inr ⟨y, rowFormatCalls font ++ rows ++ moreCalls, by
            rw [← h]; simp only [List.append_assoc]⟩
    · rw [if_neg hd] at h
      exact ih y calls h

theorem chartDatasets_head (Sprintf : Option Value → String)
    (GetStringWidth : String → String → ℚ → String → ℚ) (vbarItem : PdfContentItem)
    (pdfSettings : PdfFields) (yAxisTicks : ℚ) (data : Data) :
    ∀ calls : List DrawCall,
      chartDatasets Sprintf GetStringWidth vbarItem pdfSettings yAxisTicks data = .ok calls →
      calls = [] ∨ ∃ rest : List DrawCall, calls = chartHead vbarItem pdfSettings ++ rest := by
  induction data with
  | nil =>
    intro calls h
    simp only [chartDatasets, Except.ok.injEq] at h
    exact Or.inl h.symm
  | cons d more ih =>
    intro calls h
    rw [chartDatasets] at h
    by_cases hd : vbarItem.DataSource = d.DataSource
    · rw [if_pos hd] at h
      cases hser : chartSeries Sprintf GetStringWidth vbarItem pdfSettings yAxisTicks d with
      | error e => simp only [hser] at h; cases h
      | ok first =>
        simp only [hser] at h
        cases hmore : chartDatasets Sprintf GetStringWidth vbarItem pdfSettings yAxisTicks
            more with
        | error e => simp only [hmore] at h; cases h
        | ok moreCalls =>
          simp only [hmore, Except.ok.injEq] at h
          unfold chartSeries at hser
          cases hscan : scanSeries vbarItem d.DataPoints 0 0 with
          | error e => simp only [hscan] at hser; cases hser
          | ok res =>
            obtain ⟨mx, n⟩ := res
            simp only [hscan] at hser
            split at hser
            · cases hser
            · simp only [Except.ok.injEq] at hser
              refine Or.inr ?_
              rw [← h, ← hser]
              simp only [chartHead, chartBoxX, chartBoxY, yAxisX, axisTop, axisZero, chartFont,
                List.append_assoc]
              exact ⟨_, rfl⟩
    · rw [if_neg hd] at h
      exact ih calls h

theorem drawn_headerCalls (tableItem : PdfContentItem) (font : Font)
    (columnWidth getXPosition y : ℚ) (rest : List DrawCall) (s1 s2 : CanvasState)
    (h : s1.lineWidth = s2.lineWidth) :
    drawn s1 (headerCalls tableItem font columnWidth getXPosition y ++ rest) =
      drawn s2 (headerCalls tableItem font columnWidth getXPosition y ++ rest) := by
  simp only [headerCalls, List.cons_append, List.nil_append, drawn, CanvasState.after, h]

theorem drawn_chartHead (vbarItem : PdfContentItem) (pdfSettings : PdfFields)
    (rest : List DrawCall) (s1 s2 : CanvasState) (h : s1.lineWidth = s2.lineWidth) :
    drawn s1 (chartHead vbarItem pdfSettings ++ rest) =
      drawn s2 (chartHead vbarItem pdfSettings ++ rest) := by
  simp only [chartHead, backgroundCalls, axisFormatCalls, List.cons_append, List.nil_append,
    List.append_assoc, drawn, CanvasState.after, h]

/-- C20, as stated, fails: the text block renderer never sets the line width,
so started from two Canvas states that differ only in line width (1 and 2)
the example text block draws its bordered text box with different effective
styling. -/
theorem item_styling_counterexample :
    (itemDrawCalls exampleSprintf exampleStringWidth exampleFields exampleData
        exampleTextBlock).map (drawn (exampleCanvas 1)) ≠
      (itemDrawCalls exampleSprintf exampleStringWidth exampleFields exampleData
        exampleTextBlock).map (drawn (exampleCanvas 2)) := by
  decide!

/-- C20, amended: for every item and any two Canvas states that have the same
line width (and may differ in current font, text colour, fill colour and draw
colour), the item's renderer draws the same primitives with the same
effective styling: each renderer sets the font and the text, fill and draw
colours its primitives depend on before its first drawing primitive. -/
theorem item_styling_independent (Sprintf : Option Value → String)
    (GetStringWidth : String → String → ℚ → String → ℚ) (recipe : PdfFields) (dataset : Data)
    (item : PdfContentItem) (s1 s2 : CanvasState) (calls : List DrawCall)
    (hlw : s1.lineWidth = s2.lineWidth)
    (hcalls : itemDrawCalls Sprintf GetStringWidth recipe dataset item = .ok calls) :
    drawn s1 calls = drawn s2 calls := by
  unfold itemDrawCalls at hcalls
  by_cases h1 : item.ItemType = "textBlock"
  · rw [if_pos h1] at hcalls
    simp only [ProcessTextBlockPDFItem, Except.ok.injEq] at hcalls
    subst hcalls
    simp only [drawn, CanvasState.after, hlw]
  · rw [if_neg h1] at hcalls
    by_cases h2 : item.ItemType = "table"
    · rw [if_pos h2] at hcalls
      rcases tableDatasets_head Sprintf item _ _ _ _ dataset _ calls hcalls with h | ⟨y1, rest, h⟩
      · subst h; rfl
      · subst h; exact drawn_headerCalls item _ _ _ y1 rest s1 s2 hlw
    · rw [if_neg h2] at hcalls
      by_cases h3 : item.ItemType = "verticalBar"
      · rw [if_pos h3] at hcalls
        rcases chartDatasets_head Sprintf GetStringWidth item recipe _ dataset calls hcalls with
          h | ⟨rest, h⟩
        · subst h; rfl
        · subst h; exact drawn_chartHead item recipe rest s1 s2 hlw
      · rw [if_neg h3] at hcalls
        simp only [Except.ok.injEq] at hcalls
        subst hcalls
        rfl

/-- Witness of C20 (amended): the example text block drawn from two Canvas
states of line width 1 that differ in font and in every colour. -/
theorem item_styling_independent_witness :
    ((exampleCanvas 1).lineWidth = (otherCanvas 1).lineWidth ∧
      exampleCanvas 1 ≠ otherCanvas 1 ∧
      itemDrawCalls exampleSprintf exampleStringWidth exampleFields exampleData
          exampleTextBlock =
        .ok
          [ .SetFont "Helvetica" "" 9, .SetTextColor 0 0 0, .SetFillColor 255 255 255,
            .SetDrawColor 0 0 0, .SetXY 5 7, .MultiCell 200 12 "Hello" "1" "CM" false ]) ∧
      drawn (exampleCanvas 1)
          [ .SetFont "Helvetica" "" 9, .SetTextColor 0 0 0, .SetFillColor 255 255 255,
            .SetDrawColor 0 0 0, .SetXY 5 7, .MultiCell 200 12 "Hello" "1" "CM" false ] =
        drawn (otherCanvas 1)
          [ .SetFont "Helvetica" "" 9, .SetTextColor 0 0 0, .SetFillColor 255 255 255,
            .SetDrawColor 0 0 0, .SetXY 5 7, .MultiCell 200 12 "Hello" "1" "CM" false ] :=
  ⟨⟨by decide!, by decide!, by decide!⟩,
    item_styling_independent exampleSprintf exampleStringWidth exampleFields exampleData
      exampleTextBlock (exampleCanvas 1) (otherCanvas 1) _ (by decide!) (by decide!)⟩

/-! ## Alignment, page dimensions -/

/-- C25: the alignment of the resolved font and of its header font is `"CM"`
for every recipe font, and replacing the alignments given in the recipe by
any others leaves the resolved font unchanged. -/
theorem FetchTextFormattingFromRecipe_alignment (r : Font) :
    (FetchTextFormattingFromRecipe r).Alignment = "CM" ∧
      (FetchTextFormattingFromRecipe r).HeaderFont.Alignment = "CM" ∧
      ∀ a h : String,
        FetchTextFormattingFromRecipe
            { r with Alignment := a, HeaderFont := { r.HeaderFont with Alignment := h } } =
          FetchTextFormattingFromRecipe r := by
  refine ⟨rfl, rfl, ?_⟩
  intro a h
  rw [fetch_eq, fetch_eq]

/-- On a landscape page with a watermark, the watermark rectangle is as wide
and as high as the effective page height. -/
theorem InitialisePDF_landscape_rect (recipeFile : PdfFields)
    (hL : recipeFile.PdfSettings.PageOrientation = "L")
    (hW : recipeFile.PdfSettings.Watermark.R ≥ 0) :
    rectCalls (InitialisePDF recipeFile).calls =
      [ .Rect 0 0 (effectivePageHeight recipeFile) (effectivePageHeight recipeFile) "F" ] := by
  simp [InitialisePDF, rectCalls, effectivePageHeight, hL, hW]

/-- C22, on the code: for a landscape page configured 100 wide and 200 high
with a watermark, the watermark rectangle is 200 wide and 200 high: the width
is the configured page height, but the height is the page height too, not the
configured page width 100 (source line 597 assigns `pageWidth` after line 596
has overwritten it). -/
theorem InitialisePDF_landscape :
    landscapeFields.PdfSettings.PageOrientation = "L" ∧
      effectivePageWidth landscapeFields = 100 ∧
      effectivePageHeight landscapeFields = 200 ∧
      (InitialisePDF landscapeFields).calls =
        [ .AddPage, .SetMargins 0 0 0, .SetAutoPageBreak true 2,
          .SetFillColor 200 200 200, .Rect 0 0 200 200 "F" ] ∧
      rectCalls (InitialisePDF landscapeFields).calls ≠
        [ .Rect 0 0 (effectivePageHeight landscapeFields)
            (effectivePageWidth landscapeFields) "F" ] := by
  decide!

/-! ## Zero axis maximum -/

theorem foldl_max_eq_init (l : List ℚ) : ∀ m : ℚ, (∀ v ∈ l, v ≤ m) → l.foldl max m = m := by
  induction l with
  | nil => intro m _; rfl
  | cons a rest ih =>
    intro m h
    have ha : a ≤ m := h a (by simp)
    rw [List.foldl_cons, max_eq_left ha]
    exact ih m (fun v hv => h v (by simp [hv]))

theorem seriesMax_nonneg (vbarItem : PdfContentItem) (points : List DataPoint) :
    0 ≤ seriesMax vbarItem points :=
  foldl_max_ge_init _ 0

theorem seriesMax_eq_zero_iff (vbarItem : PdfContentItem) (points : List DataPoint) :
    seriesMax vbarItem points = 0 ↔
      ∀ v ∈ seriesValues vbarItem.DataSeries points, ¬ 0 < v := by
  constructor
  · intro h v hv hpos
    have := foldl_max_ge_mem (seriesValues vbarItem.DataSeries points) 0 v hv
    unfold seriesMax at h
    linarith
  · intro h
    exact foldl_max_eq_init _ 0 (fun v hv => not_lt.mp (h v hv))

theorem axisMax_eq_zero_iff (vbarItem : PdfContentItem) (points : List DataPoint) :
    axisMax vbarItem points = 0 ↔ seriesMax vbarItem points = 0 := by
  constructor
  · intro h
    have h0 := seriesMax_nonneg vbarItem points
    have h1 : seriesMax vbarItem points ≤ axisMax vbarItem points := by
      obtain ⟨k, hk, -, -⟩ := getMax_eq (seriesMax vbarItem points)
      unfold axisMax
      rw [hk]
      exact getMax_ge_self _ k
    linarith
  · intro h
    unfold axisMax
    rw [h]
    decide!

/-! ## X-axis tick marks -/

theorem lineCalls_append (a b : List DrawCall) :
    lineCalls (a ++ b) = lineCalls a ++ lineCalls b := by
  simp [lineCalls]

theorem lineCalls_expectedBars (vbarItem : PdfContentItem) (pdfSettings : PdfFields) (n : ℕ)
    (top : ℚ) (points : List DataPoint) :
    ∀ j : ℕ,
      lineCalls (expectedBars vbarItem pdfSettings (cellWidth vbarItem n) top j points) =
        (List.range' j points.length).map (xTickLine vbarItem pdfSettings n) := by
  induction points with
  | nil => intro j; rfl
  | cons p rest ih =>
    intro j
    rw [expectedBars, lineCalls_append, ih (j + 1)]
    simp [lineCalls, barCalls, xTickCalls, axisFormatCalls, xTickLine, List.range'_succ]

theorem xAxisEnd_eq (vbarItem : PdfContentItem) (pdfSettings : PdfFields) (n : ℕ)
    (hn : 1 ≤ n) :
    yAxisX vbarItem pdfSettings + (n : ℚ) * cellWidth vbarItem n =
      xAxisEnd vbarItem pdfSettings := by
  have hne : (n : ℚ) ≠ 0 := by
    have : (1 : ℚ) ≤ (n : ℚ) := by exact_mod_cast hn
    intro h; linarith
  unfold cellWidth xAxisEnd yAxisX
  rw [mul_div_cancel₀ _ hne]
  ring

/-- C23: with exactly one matching series of `n ≥ 1` records, which all hold
a category string and a number, the lines drawn by the loop over the records
and by the final tick mark are the x-axis tick marks number `0` to `n`, tick
mark `j` standing at `yAxisX + j * cellWidth` with
`cellWidth = (Width - 2 * DistanceFromSidesOfChartArea) / n`, and the final
tick mark (`j = n`) stands at the right endpoint of the x-axis baseline,
`chartBoxX + Width - DistanceFromSidesOfChartArea`. -/
theorem ProcessVerticalBarChartPDFItem_xTicks (Sprintf : Option Value → String)
    (GetStringWidth : String → String → ℚ → String → ℚ) (vbarItem : PdfContentItem)
    (pdfSettings : PdfFields) (data : Data) (ds : DataSet)
    (hmatch : data.filter (fun d => decide (vbarItem.DataSource = d.DataSource)) = [ds])
    (htyped : ∀ p ∈ ds.DataPoints,
      (categoryOf vbarItem.DataSeriesCategory p).isSome = true ∧
        (seriesNumber vbarItem.DataSeries p).isSome = true)
    (hn : 1 ≤ ds.DataPoints.length) :
    ProcessVerticalBarChartPDFItem Sprintf GetStringWidth vbarItem pdfSettings data =
        .ok (chartHead vbarItem pdfSettings ++
          ((List.range (⌊tickCount vbarItem - 1⌋ + 1).toNat).flatMap
            (specYTick Sprintf vbarItem pdfSettings (axisMax vbarItem ds.DataPoints))) ++
          (expectedBars vbarItem pdfSettings (cellWidth vbarItem ds.DataPoints.length)
              (axisMax vbarItem ds.DataPoints) 0 ds.DataPoints ++
            xTickCalls vbarItem (axisZero vbarItem pdfSettings)
              vbarItem.ChartSettings.TickMarkLength (xAxisEnd vbarItem pdfSettings)) ++
          baselineAndTitle GetStringWidth vbarItem pdfSettings) ∧
      lineCalls
          (expectedBars vbarItem pdfSettings (cellWidth vbarItem ds.DataPoints.length)
              (axisMax vbarItem ds.DataPoints) 0 ds.DataPoints ++
            xTickCalls vbarItem (axisZero vbarItem pdfSettings)
              vbarItem.ChartSettings.TickMarkLength (xAxisEnd vbarItem pdfSettings)) =
        (List.range (ds.DataPoints.length + 1)).map
          (xTickLine vbarItem pdfSettings ds.DataPoints.length) ∧
      xTickLine vbarItem pdfSettings ds.DataPoints.length ds.DataPoints.length =
        .Line (xAxisEnd vbarItem pdfSettings) (axisZero vbarItem pdfSettings)
          (xAxisEnd vbarItem pdfSettings)
          (axisZero vbarItem pdfSettings + vbarItem.ChartSettings.TickMarkLength) ∧
      xAxisEnd vbarItem pdfSettings =
        chartBoxX vbarItem pdfSettings + vbarItem.Width -
          vbarItem.ChartSettings.DistanceFromSidesOfChartArea := by
  have hend := xAxisEnd_eq vbarItem pdfSettings ds.DataPoints.length hn
  have hline : xTickLine vbarItem pdfSettings ds.DataPoints.length ds.DataPoints.length =
      .Line (xAxisEnd vbarItem pdfSettings) (axisZero vbarItem pdfSettings)
        (xAxisEnd vbarItem pdfSettings)
        (axisZero vbarItem pdfSettings + vbarItem.ChartSettings.TickMarkLength) := by
    simp only [xTickLine, hend]
  refine ⟨?_, ?_, hline, rfl⟩
  · rw [ProcessVerticalBarChartPDFItem_output Sprintf GetStringWidth vbarItem pdfSettings data ds
      hmatch htyped, hend]
    have hx : chartBoxX vbarItem pdfSettings +
        (vbarItem.Width - vbarItem.ChartSettings.DistanceFromSidesOfChartArea) =
        xAxisEnd vbarItem pdfSettings := by
      unfold xAxisEnd; ring
    simp only [chartEnd, baselineAndTitle, hx, List.append_assoc]
  · rw [lineCalls_append, lineCalls_expectedBars, List.range_succ, List.map_append,
      List.range_eq_range', List.map_singleton, hline]
    simp [lineCalls, xTickCalls, axisFormatCalls]

/-- Witness of C23 on the example chart (width 220, 10 free on each side)
and the series 10, 40, 25: the cell width is 200 / 3 and the final tick mark
stands at 210. -/
theorem ProcessVerticalBarChartPDFItem_xTicks_witness :
    (1 ≤ 3 ∧ cellWidth exampleChart 3 = 200 / 3 ∧ xAxisEnd exampleChart exampleFields = 210) ∧
      lineCalls
          (expectedBars exampleChart exampleFields (cellWidth exampleChart 3)
              (axisMax exampleChart
                [examplePoint "Jan" 10, examplePoint "Feb" 40, examplePoint "Mar" 25])
              0 [examplePoint "Jan" 10, examplePoint "Feb" 40, examplePoint "Mar" 25] ++
            xTickCalls exampleChart (axisZero exampleChart exampleFields)
              exampleChart.ChartSettings.TickMarkLength (xAxisEnd exampleChart exampleFields)) =
        (List.range (3 + 1)).map (xTickLine exampleChart exampleFields 3) :=
  ⟨⟨by decide, by decide!, by decide!⟩,
    (ProcessVerticalBarChartPDFItem_xTicks exampleSprintf exampleStringWidth exampleChart
      exampleFields exampleChartData
      { DataSource := "sales",
        DataPoints := [examplePoint "Jan" 10, examplePoint "Feb" 40, examplePoint "Mar" 25] }
      (by decide!) (by decide!) (by decide)).2.1⟩

/-! ## Facts about `float64` rounding -/

theorem log2Loop_spec :
    ∀ (fuel n : ℕ), n ≤ fuel → 0 < n →
      2 ^ log2Loop fuel n ≤ n ∧ n < 2 ^ (log2Loop fuel n + 1) := by
  intro fuel
  induction fuel with
  | zero => intro n h1 h2; omega
  | succ fuel ih =>
    intro n h1 h2
    rw [log2Loop]
    split_ifs with h
    · have : n = 1 := by omega
      subst this
      simp
    · obtain ⟨ha, hb⟩ := ih (n / 2) (by omega) (by omega)
      rw [pow_succ] at hb ⊢
      constructor
      · omega
      · rw [pow_succ]; omega

/-- The binary exponent of a positive rational brackets it between two
successive powers of two. -/
theorem binade_spec (a : ℚ) (ha : 0 < a) :
    (2 : ℚ) ^ binade a ≤ a ∧ a < (2 : ℚ) ^ (binade a + 1) := by
  have hnum : 0 < a.num := Rat.num_pos.mpr ha
  have hn : 0 < a.num.natAbs := Int.natAbs_pos.mpr hnum.ne'
  have hd : 0 < a.den := a.den_pos
  obtain ⟨n1, n2⟩ := log2Loop_spec _ _ (le_refl a.num.natAbs) hn
  obtain ⟨d1, d2⟩ := log2Loop_spec _ _ (le_refl a.den) hd
  have hval : a = (a.num.natAbs : ℚ) / (a.den : ℚ) := by
    have h1 : (a.num.natAbs : ℚ) = (a.num : ℚ) := by
      rw [Nat.cast_natAbs, abs_of_pos hnum]
    rw [h1]
    exact (Rat.num_div_den a).symm
  have hdq : (0 : ℚ) < (a.den : ℚ) := by exact_mod_cast hd
  have e1 : (2 : ℚ) ^ log2Loop a.num.natAbs a.num.natAbs ≤ (a.num.natAbs : ℚ) := by
    exact_mod_cast n1
  have e2 : (a.num.natAbs : ℚ) < (2 : ℚ) ^ (log2Loop a.num.natAbs a.num.natAbs + 1) := by
    exact_mod_cast n2
  have e3 : (2 : ℚ) ^ log2Loop a.den a.den ≤ (a.den : ℚ) := by exact_mod_cast d1
  have e4 : (a.den : ℚ) < (2 : ℚ) ^ (log2Loop a.den a.den + 1) := by exact_mod_cast d2
  have p1 : (0 : ℚ) < (2 : ℚ) ^ log2Loop a.den a.den := by positivity
  have hup : a < (2 : ℚ) ^
      (((log2Loop a.num.natAbs a.num.natAbs : ℤ) - (log2Loop a.den a.den : ℤ)) + 1) := by
    have : ((log2Loop a.num.natAbs a.num.natAbs : ℤ) - (log2Loop a.den a.den : ℤ)) + 1 =
        ((log2Loop a.num.natAbs a.num.natAbs + 1 : ℕ) : ℤ) - (log2Loop a.den a.den : ℤ) := by
      push_cast; ring
    rw [this, zpow_sub₀ (by norm_num : (2 : ℚ) ≠ 0), zpow_natCast, zpow_natCast]
    refine lt_of_eq_of_lt hval ?_
    rw [div_lt_div_iff₀ hdq p1]
    calc (a.num.natAbs : ℚ) * 2 ^ log2Loop a.den a.den
        ≤ (a.num.natAbs : ℚ) * (a.den : ℚ) :=
          mul_le_mul_of_nonneg_left e3 (by positivity)
      _ < 2 ^ (log2Loop a.num.natAbs a.num.natAbs + 1) * (a.den : ℚ) :=
          mul_lt_mul_of_pos_right e2 hdq
  have hlow : (2 : ℚ) ^
      (((log2Loop a.num.natAbs a.num.natAbs : ℤ) - (log2Loop a.den a.den : ℤ)) - 1) < a := by
    have : ((log2Loop a.num.natAbs a.num.natAbs : ℤ) - (log2Loop a.den a.den : ℤ)) - 1 =
        (log2Loop a.num.natAbs a.num.natAbs : ℤ) - ((log2Loop a.den a.den + 1 : ℕ) : ℤ) := by
      push_cast; ring
    have p2 : (0 : ℚ) < (2 : ℚ) ^ (log2Loop a.den a.den + 1) := by positivity
    rw [this, zpow_sub₀ (by norm_num : (2 : ℚ) ≠ 0), zpow_natCast, zpow_natCast]
    refine lt_of_lt_of_eq ?_ hval.symm
    rw [div_lt_div_iff₀ p2 hdq]
    calc (2 : ℚ) ^ log2Loop a.num.natAbs a.num.natAbs * (a.den : ℚ)
        < 2 ^ log2Loop a.num.natAbs a.num.natAbs * 2 ^ (log2Loop a.den a.den + 1) :=
          mul_lt_mul_of_pos_left e4 (by positivity)
      _ ≤ (a.num.natAbs : ℚ) * 2 ^ (log2Loop a.den a.den + 1) :=
          mul_le_mul_of_nonneg_right e1 (by positivity)
  unfold binade
  simp only
  split_ifs with h
  · exact ⟨h, hup⟩
  · refine ⟨hlow.le, ?_⟩
    rw [sub_add_cancel]
    exact not_le.mp h

theorem roundHalfEven_intCast (z : ℤ) : roundHalfEven (z : ℚ) = z := by
  unfold roundHalfEven
  simp

theorem floor_le_roundHalfEven (x : ℚ) : ⌊x⌋ ≤ roundHalfEven x := by
  unfold roundHalfEven
  split_ifs <;> omega

/-- A finite result of rounding is below `2 ^ 1024` in absolute value. -/
theorem round64_fin_lt (q r : ℚ) (h : round64 q = .fin r) : |r| < (2 : ℚ) ^ (1024 : ℤ) := by
  unfold round64 at h
  by_cases h0 : q = 0
  · rw [if_pos h0] at h
    simp only [F64.fin.injEq] at h
    rw [← h, abs_zero]
    positivity
  · rw [if_neg h0] at h
    simp only at h
    have hq : (0 : ℚ) < |q| := abs_pos.mpr h0
    have hnn : (0 : ℚ) ≤ (roundHalfEven (|q| / (2 : ℚ) ^ (max (binade |q|) (-1022) - 52)) : ℚ) *
        (2 : ℚ) ^ (max (binade |q|) (-1022) - 52) := by
      apply mul_nonneg
      · have h3 := floor_le_roundHalfEven (|q| / (2 : ℚ) ^ (max (binade |q|) (-1022) - 52))
        have h4 : (0 : ℤ) ≤ ⌊|q| / (2 : ℚ) ^ (max (binade |q|) (-1022) - 52)⌋ :=
          Int.floor_nonneg.mpr (by positivity)
        exact_mod_cast le_trans h4 h3
      · positivity
    by_cases hbig : (roundHalfEven (|q| / (2 : ℚ) ^ (max (binade |q|) (-1022) - 52)) : ℚ) *
        (2 : ℚ) ^ (max (binade |q|) (-1022) - 52) ≥ (2 : ℚ) ^ (1024 : ℤ)
    · rw [if_pos hbig] at h
      cases h
    · rw [if_neg hbig] at h
      simp only [F64.fin.injEq] at h
      rw [← h]
      split_ifs
      · rw [abs_neg, abs_of_nonneg hnn]; exact not_le.mp hbig
      · rw [abs_of_nonneg hnn]; exact not_le.mp hbig

/-- Rounding does not go below a power of two that the exact result reaches:
the result is `+Inf` or a finite value that is at least that power. -/
theorem round64_ge_pow (a : ℚ) (k : ℕ) (h : (2 : ℚ) ^ k ≤ a) :
    round64 a = .inf false ∨ ∃ r : ℚ, round64 a = .fin r ∧ (2 : ℚ) ^ k ≤ r := by
  have hk : (0 : ℚ) < (2 : ℚ) ^ k := by positivity
  have ha : 0 < a := lt_of_lt_of_le hk h
  have habs : |a| = a := abs_of_pos ha
  obtain ⟨b1, b2⟩ := binade_spec a ha
  have hke : (k : ℤ) ≤ binade a := by
    have h1 : (2 : ℚ) ^ (k : ℤ) < (2 : ℚ) ^ (binade a + 1) := by
      rw [zpow_natCast]; exact lt_of_le_of_lt h b2
    have h2 := (zpow_lt_zpow_iff_right₀ (by norm_num : (1 : ℚ) < 2)).mp h1
    omega
  have hmax : max (binade a) (-1022) = binade a := max_eq_left (by omega)
  have hx : (2 : ℚ) ^ (52 : ℤ) ≤ a / (2 : ℚ) ^ (binade a - 52) := by
    rw [le_div_iff₀ (by positivity), ← zpow_add₀ (by norm_num : (2 : ℚ) ≠ 0)]
    have : (52 : ℤ) + (binade a - 52) = binade a := by ring
    rw [this]; exact b1
  have hm : (2 : ℚ) ^ (52 : ℤ) ≤ (roundHalfEven (a / (2 : ℚ) ^ (binade a - 52)) : ℚ) := by
    have h1 : ((2 ^ 52 : ℤ) : ℚ) ≤ a / (2 : ℚ) ^ (binade a - 52) := by
      have : ((2 ^ 52 : ℤ) : ℚ) = (2 : ℚ) ^ (52 : ℤ) := by norm_num
      rw [this]; exact hx
    have h2 : (2 ^ 52 : ℤ) ≤ ⌊a / (2 : ℚ) ^ (binade a - 52)⌋ := Int.le_floor.mpr h1
    have h3 := floor_le_roundHalfEven (a / (2 : ℚ) ^ (binade a - 52))
    have h4 : ((2 ^ 52 : ℤ) : ℚ) ≤ (roundHalfEven (a / (2 : ℚ) ^ (binade a - 52)) : ℚ) := by
      exact_mod_cast le_trans h2 h3
    have : ((2 ^ 52 : ℤ) : ℚ) = (2 : ℚ) ^ (52 : ℤ) := by norm_num
    rw [← this]; exact h4
  have hr : (2 : ℚ) ^ k ≤ (roundHalfEven (a / (2 : ℚ) ^ (binade a - 52)) : ℚ) *
      (2 : ℚ) ^ (binade a - 52) := by
    have h1 : (2 : ℚ) ^ (binade a) ≤ (roundHalfEven (a / (2 : ℚ) ^ (binade a - 52)) : ℚ) *
        (2 : ℚ) ^ (binade a - 52) := by
      have : (2 : ℚ) ^ (binade a) = (2 : ℚ) ^ (52 : ℤ) * (2 : ℚ) ^ (binade a - 52) := by
        rw [← zpow_add₀ (by norm_num : (2 : ℚ) ≠ 0)]; congr 1; ring
      rw [this]
      exact mul_le_mul_of_nonneg_right hm (by positivity)
    have h2 : (2 : ℚ) ^ k ≤ (2 : ℚ) ^ (binade a) := by
      rw [← zpow_natCast]
      exact zpow_le_zpow_right₀ (by norm_num) hke
    exact le_trans h2 h1
  unfold round64
  rw [if_neg ha.ne']
  simp only [habs, hmax, not_lt.mpr ha.le, decide_False, if_false]
  split_ifs with hbig
  · exact Or.inl rfl
  · exact Or.inr ⟨_, rfl, hr⟩

/-- A natural number up to `2 ^ 53` is a `float64` value. -/
theorem round64_natCast (n : ℕ) (h : n ≤ 2 ^ 53) : round64 (n : ℚ) = .fin (n : ℚ) := by
  rcases Nat.eq_zero_or_pos n with h0 | hpos
  · subst h0; simp [round64]
  have ha : (0 : ℚ) < (n : ℚ) := by exact_mod_cast hpos
  have habs : |(n : ℚ)| = (n : ℚ) := abs_of_pos ha
  have hn53 : (n : ℚ) ≤ (2 : ℚ) ^ (53 : ℤ) := by
    have e : (2 : ℚ) ^ (53 : ℤ) = ((2 ^ 53 : ℕ) : ℚ) := by norm_num
    rw [e]
    exact_mod_cast h
  obtain ⟨b1, b2⟩ := binade_spec (n : ℚ) ha
  have hlo : (0 : ℤ) ≤ binade (n : ℚ) := by
    have h1 : (2 : ℚ) ^ (0 : ℤ) < (2 : ℚ) ^ (binade (n : ℚ) + 1) := by
      have : (1 : ℚ) ≤ (n : ℚ) := by exact_mod_cast hpos
      simp only [zpow_zero]
      exact lt_of_le_of_lt this b2
    have h2 := (zpow_lt_zpow_iff_right₀ (by norm_num : (1 : ℚ) < 2)).mp h1
    omega
  have hhi : binade (n : ℚ) ≤ 53 := by
    have h1 : (2 : ℚ) ^ (binade (n : ℚ)) ≤ (2 : ℚ) ^ (53 : ℤ) := by
      exact le_trans b1 hn53
    exact (zpow_le_zpow_iff_right₀ (by norm_num : (1 : ℚ) < 2)).mp h1
  have hmax : max (binade (n : ℚ)) (-1022) = binade (n : ℚ) := max_eq_left (by omega)
  -- the scaled value is an integer
  have hint : ∃ z : ℤ, (n : ℚ) / (2 : ℚ) ^ (binade (n : ℚ) - 52) = (z : ℚ) := by
    rcases lt_or_eq_of_le hhi with hlt | heq
    · have h52 : binade (n : ℚ) ≤ 52 := by omega
      obtain ⟨j, hj⟩ := Int.eq_ofNat_of_zero_le (by omega : (0 : ℤ) ≤ 52 - binade (n : ℚ))
      refine ⟨(n : ℤ) * 2 ^ j, ?_⟩
      have : binade (n : ℚ) - 52 = -(j : ℤ) := by omega
      rw [this, zpow_neg, zpow_natCast, div_inv_eq_mul]
      push_cast; ring
    · have hn : (n : ℚ) = (2 : ℚ) ^ (53 : ℤ) := by
        apply le_antisymm
        · exact hn53
        · rw [heq] at b1; exact b1
      refine ⟨2 ^ 52, ?_⟩
      rw [heq, hn]
      norm_num
  obtain ⟨z, hz⟩ := hint
  have hr : (roundHalfEven ((n : ℚ) / (2 : ℚ) ^ (binade (n : ℚ) - 52)) : ℚ) *
      (2 : ℚ) ^ (binade (n : ℚ) - 52) = (n : ℚ) := by
    rw [hz, roundHalfEven_intCast, ← hz]
    field_simp
  have hsmall : ¬ (n : ℚ) ≥ (2 : ℚ) ^ (1024 : ℤ) := by
    have h1 : (n : ℚ) ≤ (2 : ℚ) ^ (53 : ℤ) := hn53
    have h2 : (2 : ℚ) ^ (53 : ℤ) < (2 : ℚ) ^ (1024 : ℤ) :=
      zpow_lt_zpow_right₀ (by norm_num) (by norm_num)
    intro h3
    exact absurd (lt_of_le_of_lt h1 h2) (not_lt.mpr h3)
  unfold round64
  rw [if_neg ha.ne']
  simp only [habs, hmax, hr, not_lt.mpr ha.le, decide_False, if_false, if_neg hsmall]

/-! ## Facts about the table loop in `float64` -/

section TableLoop64

variable (Sprintf : Option Value → String) (tableItem : PdfContentItem)
  (pdfFields : PdfFields)

theorem heightCheck64_eq (j : ℕ) :
    F64.gt
        (F64.add (runningHeight64 tableItem j)
          (F64.mul (.fin 0.5)
            (F64.add (.fin (tableFont tableItem).Size) (.fin (tableFont tableItem).LineSpacing))))
        (.fin tableItem.Height) =
      heightCheck64 tableItem j :=
  rfl

theorem tableRows64_cons_stop (point : DataPoint) (rest : List DataPoint) (j : ℕ)
    (h : heightCheck64 tableItem j = true) :
    tableRows64 Sprintf tableItem (tableFont tableItem) (.fin (tableWidthOf tableItem))
        (columnWidth64 tableItem) (tableLeft64 tableItem pdfFields) (point :: rest)
        (rowTop64 tableItem pdfFields j) (runningHeight64 tableItem j) =
      .ok (specEllipsisRow64 tableItem pdfFields j, rowTop64 tableItem pdfFields j) := by
  rw [tableRows64, heightCheck64_eq, if_pos h]
  rfl

theorem tableRows64_cons_panic (point : DataPoint) (rest : List DataPoint) (j : ℕ)
    (h : heightCheck64 tableItem j = false)
    (hc : categoryOf tableItem.DataSeriesCategory point = none) :
    tableRows64 Sprintf tableItem (tableFont tableItem) (.fin (tableWidthOf tableItem))
        (columnWidth64 tableItem) (tableLeft64 tableItem pdfFields) (point :: rest)
        (rowTop64 tableItem pdfFields j) (runningHeight64 tableItem j) =
      .error .interfaceConversion := by
  have h' : ¬ heightCheck64 tableItem j = true := by rw [h]; simp
  rw [tableRows64, heightCheck64_eq, if_neg h']
  cases point with
  | notObject => rfl
  | object fields =>
    simp only [assertMap]
    simp only [categoryOf] at hc
    cases hl : fields.lookup tableItem.DataSeriesCategory with
    | none => rfl
    | some v =>
      cases v with
      | str s => rw [hl] at hc; simp at hc
      | num q => rfl
      | other => rfl

theorem tableRows64_cons_row (point : DataPoint) (rest : List DataPoint) (j : ℕ) (s : String)
    (h : heightCheck64 tableItem j = false)
    (hc : categoryOf tableItem.DataSeriesCategory point = some s) :
    tableRows64 Sprintf tableItem (tableFont tableItem) (.fin (tableWidthOf tableItem))
        (columnWidth64 tableItem) (tableLeft64 tableItem pdfFields) (point :: rest)
        (rowTop64 tableItem pdfFields j) (runningHeight64 tableItem j) =
      match tableRows64 Sprintf tableItem (tableFont tableItem) (.fin (tableWidthOf tableItem))
          (columnWidth64 tableItem) (tableLeft64 tableItem pdfFields) rest
          (rowTop64 tableItem pdfFields (j + 1)) (runningHeight64 tableItem (j + 1)) with
      | .error e => .error e
      | .ok (calls, y) =>
        .ok (specDataRows64 Sprintf tableItem pdfFields j [point] ++ calls, y) := by
  have h' : ¬ heightCheck64 tableItem j = true := by rw [h]; simp
  rw [tableRows64, heightCheck64_eq, if_neg h']
  cases point with
  | notObject => simp [categoryOf] at hc
  | object fields =>
    simp only [assertMap]
    simp only [categoryOf] at hc
    cases hl : fields.lookup tableItem.DataSeriesCategory with
    | none => rw [hl] at hc; simp at hc
    | some v =>
      cases v with
      | str t =>
        rw [hl] at hc
        simp only [Option.some.injEq] at hc
        subst hc
        simp only [assertString]
        have e : categoryOf tableItem.DataSeriesCategory (.object fields) = some t := by
          simp [categoryOf, hl]
        simp only [specDataRows64, e, Option.getD_some, seriesValueOf, List.append_nil]
        rfl
      | num q => rw [hl] at hc; simp at hc
      | other => rw [hl] at hc; simp at hc

/-- Shape of what the loop emits when it returns: the data rows of the first
`k` records and then, unless all records were shown, the ellipsis row; the
height test failed before each of the `k` rows and succeeded, with records
left, before the ellipsis row. -/
theorem tableRows64_shape (points : List DataPoint) :
    ∀ (j : ℕ) (calls : List DrawCall64) (yEnd : F64),
      tableRows64 Sprintf tableItem (tableFont tableItem) (.fin (tableWidthOf tableItem))
          (columnWidth64 tableItem) (tableLeft64 tableItem pdfFields) points
          (rowTop64 tableItem pdfFields j) (runningHeight64 tableItem j) = .ok (calls, yEnd) →
      ∃ (k : ℕ) (ell : Bool), k ≤ points.length ∧
        calls = specDataRows64 Sprintf tableItem pdfFields j (points.take k) ++
          (if ell then specEllipsisRow64 tableItem pdfFields (j + k) else []) ∧
        (∀ i : ℕ, i < k → heightCheck64 tableItem (j + i) = false) ∧
        (ell = true → heightCheck64 tableItem (j + k) = true ∧ k < points.length) ∧
        (ell = false → k = points.length) := by
  induction points with
  | nil =>
    intro j calls yEnd h
    simp only [tableRows64, Except.ok.injEq, Prod.mk.injEq] at h
    refine ⟨0, false, le_refl _, ?_, ?_, ?_, ?_⟩
    · simp [specDataRows64, h.1.symm]
    · intro i hi; omega
    · intro hf; cases hf
    · intro _; rfl
  | cons point rest ih =>
    intro j calls yEnd h
    cases hfire : heightCheck64 tableItem j with
    | true =>
      rw [tableRows64_cons_stop Sprintf tableItem pdfFields point rest j hfire] at h
      simp only [Except.ok.injEq, Prod.mk.injEq] at h
      refine ⟨0, true, Nat.zero_le _, ?_, ?_, ?_, ?_⟩
      · simp [specDataRows64, h.1.symm]
      · intro i hi; omega
      · intro _; exact ⟨by simpa using hfire, by simp⟩
      · intro hf; cases hf
    | false =>
      cases hc : categoryOf tableItem.DataSeriesCategory point with
      | none =>
        rw [tableRows64_cons_panic Sprintf tableItem pdfFields point rest j hfire hc] at h
        cases h
      | some s =>
        rw [tableRows64_cons_row Sprintf tableItem pdfFields point rest j s hfire hc] at h
        cases hrec : tableRows64 Sprintf tableItem (tableFont tableItem)
            (.fin (tableWidthOf tableItem)) (columnWidth64 tableItem)
            (tableLeft64 tableItem pdfFields) rest (rowTop64 tableItem pdfFields (j + 1))
            (runningHeight64 tableItem (j + 1)) with
        | error e => rw [hrec] at h; cases h
        | ok res =>
          obtain ⟨calls', yEnd'⟩ := res
          rw [hrec] at h
          simp only [Except.ok.injEq, Prod.mk.injEq] at h
          obtain ⟨k, ell, hk, hcalls, hrows, hell, hall⟩ := ih (j + 1) calls' yEnd' hrec
          have hidx : j + 1 + k = j + (k + 1) := by omega
          refine ⟨k + 1, ell, by simpa using hk, ?_, ?_, ?_, ?_⟩
          · rw [← h.1, hcalls, hidx]
            simp only [List.take_succ_cons, specDataRows64, List.append_nil,
              List.append_assoc, List.cons_append, List.nil_append]
          · intro i hi
            cases i with
            | zero => simpa using hfire
            | succ i' =>
              have := hrows i' (by omega)
              have e : j + 1 + i' = j + (i' + 1) := by omega
              rw [e] at this
              exact this
          · intro he
            obtain ⟨h1, h2⟩ := hell he
            rw [hidx] at h1
            exact ⟨h1, by simp only [List.length_cons]; omega⟩
          · intro he
            simp [hall he]

/-- While the height test fails and the records carry a category string, the
loop draws one data row per record and goes on with the remaining records. -/
theorem tableRows64_take :
    ∀ (k : ℕ) (points : List DataPoint) (j : ℕ), k ≤ points.length →
      (∀ p ∈ points.take k, (categoryOf tableItem.DataSeriesCategory p).isSome = true) →
      (∀ i : ℕ, i < k → heightCheck64 tableItem (j + i) = false) →
      tableRows64 Sprintf tableItem (tableFont tableItem) (.fin (tableWidthOf tableItem))
          (columnWidth64 tableItem) (tableLeft64 tableItem pdfFields) points
          (rowTop64 tableItem pdfFields j) (runningHeight64 tableItem j) =
        match tableRows64 Sprintf tableItem (tableFont tableItem)
            (.fin (tableWidthOf tableItem)) (columnWidth64 tableItem)
            (tableLeft64 tableItem pdfFields) (points.drop k)
            (rowTop64 tableItem pdfFields (j + k)) (runningHeight64 tableItem (j + k)) with
        | .error e => .error e
        | .ok (calls, y) =>
          .ok (specDataRows64 Sprintf tableItem pdfFields j (points.take k) ++ calls, y) := by
  intro k
  induction k with
  | zero =>
    intro points j _ _ _
    simp only [List.drop_zero, List.take_zero, specDataRows64, List.nil_append, Nat.add_zero]
    cases tableRows64 Sprintf tableItem (tableFont tableItem) (.fin (tableWidthOf tableItem))
        (columnWidth64 tableItem) (tableLeft64 tableItem pdfFields) points
        (rowTop64 tableItem pdfFields j) (runningHeight64 tableItem j) with
    | error e => rfl
    | ok res => rfl
  | succ k ih =>
    intro points j hlen htyped hfit
    cases points with
    | nil => simp at hlen
    | cons point rest =>
      have hfire : heightCheck64 tableItem j = false := by
        have := hfit 0 (Nat.succ_pos k)
        simpa using this
      obtain ⟨s, hs⟩ := Option.isSome_iff_exists.mp (htyped point (by simp))
      have hidx : j + 1 + k = j + (k + 1) := by omega
      rw [tableRows64_cons_row Sprintf tableItem pdfFields point rest j s hfire hs,
        ih rest (j + 1) (by simpa using hlen)
          (fun p hp => htyped p (by simp [List.take_succ_cons, hp]))
          (fun i hi => by
            have := hfit (i + 1) (by omega)
            have e : j + 1 + i = j + (i + 1) := by omega
            rw [e]; exact this), hidx]
      simp only [List.drop_succ_cons, List.take_succ_cons]
      cases tableRows64 Sprintf tableItem (tableFont tableItem) (.fin (tableWidthOf tableItem))
          (columnWidth64 tableItem) (tableLeft64 tableItem pdfFields) (rest.drop k)
          (rowTop64 tableItem pdfFields (j + (k + 1)))
          (runningHeight64 tableItem (j + (k + 1))) with
      | error e => rfl
      | ok res =>
        simp only [specDataRows64, List.append_nil, List.append_assoc, List.cons_append,
          List.nil_append]

/-- When every record carries a category string the loop returns normally. -/
theorem tableRows64_returns (points : List DataPoint) :
    ∀ (j : ℕ),
      (∀ p ∈ points, (categoryOf tableItem.DataSeriesCategory p).isSome = true) →
      ∃ res : List DrawCall64 × F64,
        tableRows64 Sprintf tableItem (tableFont tableItem) (.fin (tableWidthOf tableItem))
          (columnWidth64 tableItem) (tableLeft64 tableItem pdfFields) points
          (rowTop64 tableItem pdfFields j) (runningHeight64 tableItem j) = .ok res := by
  induction points with
  | nil => intro j _; exact ⟨([], _), rfl⟩
  | cons point rest ih =>
    intro j htyped
    cases hfire : heightCheck64 tableItem j with
    | true => exact ⟨_, tableRows64_cons_stop Sprintf tableItem pdfFields point rest j hfire⟩
    | false =>
      obtain ⟨s, hs⟩ := Option.isSome_iff_exists.mp (htyped point (by simp))
      obtain ⟨res, hres⟩ := ih (j + 1) (fun p hp => htyped p (by simp [hp]))
      rw [tableRows64_cons_row Sprintf tableItem pdfFields point rest j s hfire hs, hres]
      exact ⟨_, rfl⟩

/-- Datasets whose name differs from the item's `DataSource` are skipped. -/
theorem tableDatasets64_filter (font : Font) (tableWidth columnWidth getXPosition : F64)
    (data : Data) :
    ∀ y : F64,
      tableDatasets64 Sprintf tableItem font tableWidth columnWidth getXPosition data y =
        tableDatasets64 Sprintf tableItem font tableWidth columnWidth getXPosition
          (data.filter (fun d => decide (tableItem.DataSource = d.DataSource))) y := by
  induction data with
  | nil => intro y; rfl
  | cons d rest ih =>
    intro y
    by_cases hd : tableItem.DataSource = d.DataSource
    · rw [List.filter_cons_of_pos (by simpa using hd)]
      rw [tableDatasets64, tableDatasets64, if_pos hd, if_pos hd]
      cases tableSeries64 Sprintf tableItem font tableWidth columnWidth getXPosition d y with
      | error e => rfl
      | ok res =>
        obtain ⟨calls, y1⟩ := res
        simp only [ih y1]
    · rw [List.filter_cons_of_neg (by simpa using hd)]
      rw [tableDatasets64, if_neg hd]
      exact ih y

/-- With exactly one matching dataset, `ProcessTablePDFItem64` is the header
row and the row format followed by what the row loop emits for that
dataset. -/
theorem ProcessTablePDFItem64_single (data : Data) (ds : DataSet)
    (hmatch : data.filter (fun d => decide (tableItem.DataSource = d.DataSource)) = [ds]) :
    ProcessTablePDFItem64 Sprintf tableItem pdfFields data =
      match tableRows64 Sprintf tableItem (tableFont tableItem) (.fin (tableWidthOf tableItem))
          (columnWidth64 tableItem) (tableLeft64 tableItem pdfFields) ds.DataPoints
          (rowTop64 tableItem pdfFields 0) (runningHeight64 tableItem 0) with
      | .error e => .error e
      | .ok (rows, _) =>
        .ok (specHeaderRow64 tableItem pdfFields ++ specRowFormat64 tableItem ++ rows) := by
  have hmem : ds ∈ data.filter (fun d => decide (tableItem.DataSource = d.DataSource)) := by
    rw [hmatch]; simp
  have hd : tableItem.DataSource = ds.DataSource := by
    simpa using (List.mem_filter.mp hmem).2
  show tableDatasets64 Sprintf tableItem (tableFont tableItem) (.fin (tableWidthOf tableItem))
    (columnWidth64 tableItem) (tableLeft64 tableItem pdfFields) data
    (tableTop64 tableItem pdfFields) = _
  rw [tableDatasets64_filter, hmatch, tableDatasets64, if_pos hd, tableSeries64]
  have e1 : rowTop64 tableItem pdfFields 0 =
      F64.add
        (F64.add (tableTop64 tableItem pdfFields) (.fin (tableFont tableItem).HeaderFont.Size))
        (.fin (tableFont tableItem).HeaderFont.LineSpacing) := rfl
  have e2 : runningHeight64 tableItem 0 =
      F64.add (.fin (tableFont tableItem).HeaderFont.Size)
        (.fin (tableFont tableItem).HeaderFont.LineSpacing) := rfl
  rw [e1, e2]
  generalize tableRows64 Sprintf tableItem (tableFont tableItem) _ _ _ ds.DataPoints _ _ = r
  cases r with
  | error e => rfl
  | ok res =>
    obtain ⟨rows, y1⟩ := res
    simp only [tableDatasets64, List.append_nil]
    rfl

/-- With exactly one matching dataset whose records all carry a category
string, `ProcessTablePDFItem64` returns normally. -/
theorem ProcessTablePDFItem64_returns (data : Data) (ds : DataSet)
    (hmatch : data.filter (fun d => decide (tableItem.DataSource = d.DataSource)) = [ds])
    (htyped : ∀ p ∈ ds.DataPoints,
      (categoryOf tableItem.DataSeriesCategory p).isSome = true) :
    ∃ calls : List DrawCall64,
      ProcessTablePDFItem64 Sprintf tableItem pdfFields data = .ok calls := by
  obtain ⟨res, hres⟩ := tableRows64_returns Sprintf tableItem pdfFields ds.DataPoints 0 htyped
  rw [ProcessTablePDFItem64_single Sprintf tableItem pdfFields data ds hmatch, hres]
  exact ⟨_, rfl⟩

/-- With exactly one matching dataset, a normal return of
`ProcessTablePDFItem64` has emitted the header row, the data rows of the first
`k` records and, unless all records were shown, the ellipsis row; the height
test failed before each data row and succeeded, with records left, before the
ellipsis row. -/
theorem ProcessTablePDFItem64_shape (data : Data) (ds : DataSet) (calls : List DrawCall64)
    (hmatch : data.filter (fun d => decide (tableItem.DataSource = d.DataSource)) = [ds])
    (hok : ProcessTablePDFItem64 Sprintf tableItem pdfFields data = .ok calls) :
    ∃ (k : ℕ) (ell : Bool), k ≤ ds.DataPoints.length ∧
      calls = specTable64 Sprintf tableItem pdfFields ds.DataPoints k ell ∧
      (∀ i : ℕ, i < k → heightCheck64 tableItem i = false) ∧
      (ell = true → heightCheck64 tableItem k = true ∧ k < ds.DataPoints.length) ∧
      (ell = false → k = ds.DataPoints.length) := by
  rw [ProcessTablePDFItem64_single Sprintf tableItem pdfFields data ds hmatch] at hok
  cases hrows : tableRows64 Sprintf tableItem (tableFont tableItem)
      (.fin (tableWidthOf tableItem)) (columnWidth64 tableItem)
      (tableLeft64 tableItem pdfFields) ds.DataPoints
      (rowTop64 tableItem pdfFields 0) (runningHeight64 tableItem 0) with
  | error e => rw [hrows] at hok; cases hok
  | ok res =>
    obtain ⟨rows, yEnd⟩ := res
    rw [hrows] at hok
    simp only [Except.ok.injEq] at hok
    obtain ⟨k, ell, hk, hcalls, hfit, hell, hall⟩ :=
      tableRows64_shape Sprintf tableItem pdfFields ds.DataPoints 0 rows yEnd hrows
    simp only [Nat.zero_add] at hcalls hfit hell
    refine ⟨k, ell, hk, ?_, hfit, hell, hall⟩
    rw [← hok, hcalls]
    simp only [specTable64, List.append_assoc]

theorem specDataRows64_length (points : List DataPoint) :
    ∀ j : ℕ, (specDataRows64 Sprintf tableItem pdfFields j points).length =
      4 * points.length := by
  induction points with
  | nil => intro j; rfl
  | cons p rest ih =>
    intro j
    simp only [specDataRows64, List.length_append, ih (j + 1), List.length_cons,
      List.length_nil]
    omega

theorem specTable64_length (points : List DataPoint) (k : ℕ) (ell : Bool)
    (hk : k ≤ points.length) :
    (specTable64 Sprintf tableItem pdfFields points k ell).length =
      12 + 4 * k + (if ell then 2 else 0) := by
  unfold specTable64
  simp only [List.length_append, specDataRows64_length, List.length_take, specHeaderRow64,
    specRowFormat64, List.length_cons, List.length_nil, Nat.min_eq_left hk]
  cases ell <;> simp [specEllipsisRow64]

/-- The data rows hold no ellipsis cell and two text cells per record. -/
theorem specDataRows64_count (points : List DataPoint) :
    ∀ j : ℕ,
      (specDataRows64 Sprintf tableItem pdfFields j points).countP isEllipsisCell64 = 0 ∧
      (specDataRows64 Sprintf tableItem pdfFields j points).countP isTextBox64 =
        2 * points.length := by
  induction points with
  | nil => intro j; exact ⟨rfl, rfl⟩
  | cons p rest ih =>
    intro j
    obtain ⟨h1, h2⟩ := ih (j + 1)
    constructor
    · rw [specDataRows64, List.countP_append, h1]
      simp [isEllipsisCell64, List.countP_cons]
    · rw [specDataRows64, List.countP_append, h2]
      simp only [isTextBox64, List.countP_cons, List.countP_nil, List.length_cons]
      simp
      omega

/-- A table holds the two header cells, two cells per data row and, when the
ellipsis row is drawn, its one cell, which is the only ellipsis cell. -/
theorem specTable64_count (points : List DataPoint) (k : ℕ) (ell : Bool)
    (hk : k ≤ points.length) :
    (specTable64 Sprintf tableItem pdfFields points k ell).countP isEllipsisCell64 =
        (if ell then 1 else 0) ∧
      (specTable64 Sprintf tableItem pdfFields points k ell).countP isTextBox64 =
        2 + 2 * k + (if ell then 1 else 0) := by
  obtain ⟨h1, h2⟩ := specDataRows64_count Sprintf tableItem pdfFields (points.take k) 0
  rw [List.length_take, Nat.min_eq_left hk] at h2
  unfold specTable64
  constructor
  · rw [List.countP_append, List.countP_append, List.countP_append, h1]
    cases ell <;>
      simp [specHeaderRow64, specRowFormat64, specEllipsisRow64, isEllipsisCell64,
        List.countP_cons]
  · rw [List.countP_append, List.countP_append, List.countP_append, h2]
    cases ell <;>
      simp [specHeaderRow64, specRowFormat64, specEllipsisRow64, isTextBox64,
        List.countP_cons]

end TableLoop64

/-! ## The table in exact arithmetic, call by call -/

theorem cellExtents_setXY (y0 x y : ℚ) (rest : List DrawCall) :
    cellExtents y0 (.SetXY x y :: rest) = cellExtents y rest := rfl

theorem cellExtents_multiCell (y0 w h : ℚ) (t b a : String) (f : Bool) (rest : List DrawCall) :
    cellExtents y0 (.MultiCell w h t b a f :: rest) = (y0, h) :: cellExtents y0 rest := rfl

theorem cellExtents_setFont (y0 : ℚ) (a b : String) (c : ℚ) (rest : List DrawCall) :
    cellExtents y0 (.SetFont a b c :: rest) = cellExtents y0 rest := rfl

theorem cellExtents_setTextColor (y0 : ℚ) (r g b : Int) (rest : List DrawCall) :
    cellExtents y0 (.SetTextColor r g b :: rest) = cellExtents y0 rest := rfl

theorem cellExtents_setFillColor (y0 : ℚ) (r g b : Int) (rest : List DrawCall) :
    cellExtents y0 (.SetFillColor r g b :: rest) = cellExtents y0 rest := rfl

theorem cellExtents_setDrawColor (y0 : ℚ) (r g b : Int) (rest : List DrawCall) :
    cellExtents y0 (.SetDrawColor r g b :: rest) = cellExtents y0 rest := rfl

theorem cellExtents_dataRows (Sprintf : Option Value → String) (tableItem : PdfContentItem)
    (pdfFields : PdfFields) (tail : List DrawCall)
    (htail : ∀ y y' : ℚ, cellExtents y tail = cellExtents y' tail) (points : List DataPoint) :
    ∀ (j : ℕ) (y : ℚ),
      cellExtents y (specDataRows Sprintf tableItem pdfFields j points ++ tail) =
        ((List.range' j points.length).flatMap fun i =>
          [(rowTop tableItem pdfFields i, rowHeight tableItem),
            (rowTop tableItem pdfFields i, rowHeight tableItem)]) ++
        cellExtents 0 tail := by
  induction points with
  | nil => intro j y; simpa [specDataRows] using htail y 0
  | cons p rest ih =>
    intro j y
    rw [specDataRows]
    simp only [List.cons_append, List.nil_append, List.append_assoc]
    rw [cellExtents_setXY, cellExtents_multiCell, cellExtents_setXY, cellExtents_multiCell,
      ih (j + 1)]
    simp only [List.length_cons, List.range'_succ, List.flatMap_cons, List.cons_append,
      List.nil_append]

/-- The tops and heights of the text cells of a table in exact arithmetic: the
two header cells at the table top, two cells per data row and the ellipsis
cell. -/
theorem cellExtents_specTable (Sprintf : Option Value → String) (tableItem : PdfContentItem)
    (pdfFields : PdfFields) (points : List DataPoint) (k : ℕ) (ell : Bool)
    (hk : k ≤ points.length) (y : ℚ) :
    cellExtents y (specTable Sprintf tableItem pdfFields points k ell) =
      [(tableTop tableItem pdfFields, headerHeight tableItem),
        (tableTop tableItem pdfFields, headerHeight tableItem)] ++
      ((List.range k).flatMap fun i =>
        [(rowTop tableItem pdfFields i, rowHeight tableItem),
          (rowTop tableItem pdfFields i, rowHeight tableItem)]) ++
      (if ell then [(rowTop tableItem pdfFields k, 0.5 * rowHeight tableItem)] else []) := by
  cases ell with
  | false =>
    have hrows := cellExtents_dataRows Sprintf tableItem pdfFields [] (fun _ _ => rfl)
      (points.take k) 0 (tableTop tableItem pdfFields)
    rw [List.length_take, Nat.min_eq_left hk, List.append_nil] at hrows
    have hnil : cellExtents 0 ([] : List DrawCall) = [] := rfl
    rw [hnil, List.append_nil] at hrows
    unfold specTable
    simp only [specHeaderRow, specRowFormat, List.cons_append, List.nil_append,
      List.append_assoc, Bool.false_eq_true, if_false, List.append_nil,
      cellExtents_setXY, cellExtents_multiCell, cellExtents_setFont, cellExtents_setTextColor,
      cellExtents_setFillColor, cellExtents_setDrawColor, hrows, List.range_eq_range']
  | true =>
    have hrows := cellExtents_dataRows Sprintf tableItem pdfFields
      (specEllipsisRow tableItem pdfFields k) (fun _ _ => rfl)
      (points.take k) 0 (tableTop tableItem pdfFields)
    rw [List.length_take, Nat.min_eq_left hk] at hrows
    have hell : cellExtents 0 (specEllipsisRow tableItem pdfFields k) =
        [(rowTop tableItem pdfFields k, 0.5 * rowHeight tableItem)] := rfl
    rw [hell] at hrows
    unfold specTable
    simp only [specHeaderRow, specRowFormat, List.cons_append, List.nil_append,
      List.append_assoc, if_true,
      cellExtents_setXY, cellExtents_multiCell, cellExtents_setFont, cellExtents_setTextColor,
      cellExtents_setFillColor, cellExtents_setDrawColor, hrows, List.range_eq_range']

/-! ## Claims about `ProcessTablePDFItem` -/

/-- C1, amended.  With exactly one matching series:
in `float64`, `ProcessTablePDFItem` returns normally when every record carries
a category string, and what it has then emitted is the header row, the data
rows of the first `k` records and possibly the ellipsis row, each data row
drawn only after the height test of line 239 (running total plus half a
data-row height greater than `Height`) has failed;
in exact arithmetic the same calls are made, with the header cells at the
table top and `headerHeight` high, the cells of data row `i` at `rowTop i` and
`rowHeight` high and the ellipsis cell at `rowTop k` and half a data row high,
and the bottom edge of every cell drawn is at most the larger of
(header height + half a data-row height) and (`Height` + one data-row height)
below the table top. -/
theorem ProcessTablePDFItem_height_bound (Sprintf : Option Value → String)
    (tableItem : PdfContentItem) (pdfFields : PdfFields) (data : Data) (ds : DataSet)
    (hmatch : data.filter (fun d => decide (tableItem.DataSource = d.DataSource)) = [ds]) :
    ((∀ p ∈ ds.DataPoints, (categoryOf tableItem.DataSeriesCategory p).isSome = true) →
      ∃ calls : List DrawCall64,
        ProcessTablePDFItem64 Sprintf tableItem pdfFields data = .ok calls) ∧
    (∀ calls : List DrawCall64,
      ProcessTablePDFItem64 Sprintf tableItem pdfFields data = .ok calls →
      ∃ (k : ℕ) (ell : Bool), k ≤ ds.DataPoints.length ∧
        calls = specTable64 Sprintf tableItem pdfFields ds.DataPoints k ell ∧
        ∀ j : ℕ, j < k → heightCheck64 tableItem j = false) ∧
    (∀ calls : List DrawCall,
      ProcessTablePDFItem Sprintf tableItem pdfFields data = .ok calls →
      ∃ (k : ℕ) (ell : Bool), k ≤ ds.DataPoints.length ∧
        calls = specTable Sprintf tableItem pdfFields ds.DataPoints k ell ∧
        cellExtents 0 calls =
          [(tableTop tableItem pdfFields, headerHeight tableItem),
            (tableTop tableItem pdfFields, headerHeight tableItem)] ++
          ((List.range k).flatMap fun i =>
            [(rowTop tableItem pdfFields i, rowHeight tableItem),
              (rowTop tableItem pdfFields i, rowHeight tableItem)]) ++
          (if ell then [(rowTop tableItem pdfFields k, 0.5 * rowHeight tableItem)] else []) ∧
        ∀ cell ∈ cellExtents 0 calls,
          cell.1 + cell.2 ≤ tableTop tableItem pdfFields +
            max (headerHeight tableItem + 0.5 * rowHeight tableItem)
              (tableItem.Height + rowHeight tableItem)) := by
  refine ⟨ProcessTablePDFItem64_returns Sprintf tableItem pdfFields data ds hmatch, ?_, ?_⟩
  · intro calls hok
    obtain ⟨k, ell, hk, hcalls, hfit, -, -⟩ :=
      ProcessTablePDFItem64_shape Sprintf tableItem pdfFields data ds calls hmatch hok
    exact ⟨k, ell, hk, hcalls, hfit⟩
  · intro calls hok
    obtain ⟨k, ell, hk, hcalls, hfit, -, -⟩ :=
      ProcessTablePDFItem_shape Sprintf tableItem pdfFields data ds calls hmatch hok
    have hrows : ∀ (points : List DataPoint) (j : ℕ),
        expectedRows Sprintf tableItem (tableFont tableItem) (tableWidthOf tableItem / 2)
            (tableLeft tableItem pdfFields)
            (tableTop tableItem pdfFields + headerHeight tableItem) j points =
          specDataRows Sprintf tableItem pdfFields j points := by
      intro points
      induction points with
      | nil => intro j; rfl
      | cons p rest ih =>
        intro j
        rw [expectedRows, specDataRows, ih (j + 1)]
        rfl
    have hspec : tableOutput Sprintf tableItem pdfFields ds.DataPoints k ell =
        specTable Sprintf tableItem pdfFields ds.DataPoints k ell := by
      unfold tableOutput specTable
      rw [hrows]
      cases ell <;> rfl
    rw [hspec] at hcalls
    have hext := cellExtents_specTable Sprintf tableItem pdfFields ds.DataPoints k ell hk 0
    rw [← hcalls] at hext
    refine ⟨k, ell, hk, hcalls, hext, ?_⟩
    have hr := rowHeight_pos tableItem
    have hrow : ∀ i : ℕ, i < k →
        headerHeight tableItem + (i : ℚ) * rowHeight tableItem + 0.5 * rowHeight tableItem ≤
          tableItem.Height := by
      intro i hi
      have := hfit i hi
      simpa [emittedHeight] using this
    intro cell hcell
    rw [hext] at hcell
    simp only [List.mem_append, List.mem_cons, List.mem_singleton, List.mem_nil_iff, or_false,
      List.mem_flatMap, List.mem_range] at hcell
    rcases hcell with ((h | h) | ⟨i, hi, h⟩) | h
    · subst h
      apply add_le_add_left
      apply le_trans _ (le_max_left _ _)
      norm_num; linarith
    · subst h
      apply add_le_add_left
      apply le_trans _ (le_max_left _ _)
      norm_num; linarith
    · have hcase : cell = (rowTop tableItem pdfFields i, rowHeight tableItem) := by
        rcases h with h | h <;> exact h
      subst hcase
      have := hrow i hi
      simp only [rowTop]
      have hb : headerHeight tableItem + (i : ℚ) * rowHeight tableItem + rowHeight tableItem ≤
          max (headerHeight tableItem + 0.5 * rowHeight tableItem)
            (tableItem.Height + rowHeight tableItem) := by
        apply le_trans _ (le_max_right _ _)
        norm_num at this ⊢
        linarith
      linarith
    · cases ell with
      | false => simp at h
      | true =>
        simp only [if_true, List.mem_singleton] at h
        subst h
        simp only [rowTop]
        have hb : headerHeight tableItem + (k : ℚ) * rowHeight tableItem +
            0.5 * rowHeight tableItem ≤
            max (headerHeight tableItem + 0.5 * rowHeight tableItem)
              (tableItem.Height + rowHeight tableItem) := by
          cases k with
          | zero =>
            apply le_trans _ (le_max_left _ _)
            simp
          | succ k' =>
            apply le_trans _ (le_max_right _ _)
            have := hrow k' (Nat.lt_succ_self k')
            push_cast
            norm_num at this ⊢
            linarith
        linarith

/-- Witness of C1 (amended) on the table of height 20 and two records: in
`float64` and in exact arithmetic the code returns the header row, one data
row and the ellipsis row. -/
theorem ProcessTablePDFItem_height_bound_witness :
    exampleData.filter (fun d => decide ((exampleTable 20).DataSource = d.DataSource)) =
        [{ DataSource := "sales",
           DataPoints := [examplePoint "Jan" 10, examplePoint "Feb" 40] }] ∧
      ProcessTablePDFItem64 exampleSprintf (exampleTable 20) exampleFields exampleData =
        .ok (specTable64 exampleSprintf (exampleTable 20) exampleFields
          [examplePoint "Jan" 10, examplePoint "Feb" 40] 1 true) ∧
      ProcessTablePDFItem exampleSprintf (exampleTable 20) exampleFields exampleData =
        .ok (specTable exampleSprintf (exampleTable 20) exampleFields
          [examplePoint "Jan" 10, examplePoint "Feb" 40] 1 true) ∧
      ∃ (k : ℕ) (ell : Bool), k ≤ 2 ∧
        specTable exampleSprintf (exampleTable 20) exampleFields
            [examplePoint "Jan" 10, examplePoint "Feb" 40] 1 true =
          specTable exampleSprintf (exampleTable 20) exampleFields
            [examplePoint "Jan" 10, examplePoint "Feb" 40] k ell ∧
        cellExtents 0 (specTable exampleSprintf (exampleTable 20) exampleFields
            [examplePoint "Jan" 10, examplePoint "Feb" 40] 1 true) =
          [(tableTop (exampleTable 20) exampleFields, headerHeight (exampleTable 20)),
            (tableTop (exampleTable 20) exampleFields, headerHeight (exampleTable 20))] ++
          ((List.range k).flatMap fun i =>
            [(rowTop (exampleTable 20) exampleFields i, rowHeight (exampleTable 20)),
              (rowTop (exampleTable 20) exampleFields i, rowHeight (exampleTable 20))]) ++
          (if ell then
            [(rowTop (exampleTable 20) exampleFields k, 0.5 * rowHeight (exampleTable 20))]
          else []) ∧
        ∀ cell ∈ cellExtents 0 (specTable exampleSprintf (exampleTable 20) exampleFields
            [examplePoint "Jan" 10, examplePoint "Feb" 40] 1 true),
          cell.1 + cell.2 ≤ tableTop (exampleTable 20) exampleFields +
            max (headerHeight (exampleTable 20) + 0.5 * rowHeight (exampleTable 20))
              ((exampleTable 20).Height + rowHeight (exampleTable 20)) :=
  ⟨by decide!, by decide!, by decide!,
    (ProcessTablePDFItem_height_bound exampleSprintf (exampleTable 20) exampleFields exampleData
      { DataSource := "sales", DataPoints := [examplePoint "Jan" 10, examplePoint "Feb" 40] }
      (by decide!)).2.2
      (specTable exampleSprintf (exampleTable 20) exampleFields
        [examplePoint "Jan" 10, examplePoint "Feb" 40] 1 true)
      (by decide!)⟩

/-- C3, amended.  With exactly one matching series, when the first `i` records
were drawn as data rows, the ellipsis row is emitted in place of data row `i`
exactly when the height test of line 239 succeeds there: the running
cumulative height (the `float64` sum of the header size and line spacing, to
which the size and the line spacing of each data row drawn were added in
turn) plus half the next row's height, `0.5 * (size + line spacing)`, is
greater than the declared `Height`, every operation being rounded as Go
rounds it. -/
theorem ProcessTablePDFItem_ellipsis_iff (Sprintf : Option Value → String)
    (tableItem : PdfContentItem) (pdfFields : PdfFields) (data : Data) (ds : DataSet) (i : ℕ)
    (hmatch : data.filter (fun d => decide (tableItem.DataSource = d.DataSource)) = [ds])
    (hi : i < ds.DataPoints.length)
    (htyped : ∀ p ∈ ds.DataPoints.take i,
      (categoryOf tableItem.DataSeriesCategory p).isSome = true)
    (hprev : ∀ j : ℕ, j < i → heightCheck64 tableItem j = false) :
    (ProcessTablePDFItem64 Sprintf tableItem pdfFields data =
        .ok (specTable64 Sprintf tableItem pdfFields ds.DataPoints i true) ↔
      heightCheck64 tableItem i = true) ∧
    heightCheck64 tableItem i =
      F64.gt
        (F64.add (runningHeight64 tableItem i)
          (F64.mul (.fin 0.5)
            (F64.add (.fin (tableFont tableItem).Size)
              (.fin (tableFont tableItem).LineSpacing))))
        (.fin tableItem.Height) ∧
    runningHeight64 tableItem 0 =
      F64.add (.fin (tableFont tableItem).HeaderFont.Size)
        (.fin (tableFont tableItem).HeaderFont.LineSpacing) ∧
    ∀ j : ℕ, runningHeight64 tableItem (j + 1) =
      F64.add (F64.add (runningHeight64 tableItem j) (.fin (tableFont tableItem).Size))
        (.fin (tableFont tableItem).LineSpacing) := by
  refine ⟨⟨?_, ?_⟩, rfl, rfl, fun _ => rfl⟩
  · intro hok
    obtain ⟨k, ell, hk, hcalls, -, hell, -⟩ :=
      ProcessTablePDFItem64_shape Sprintf tableItem pdfFields data ds _ hmatch hok
    have hlen := congrArg List.length hcalls
    rw [specTable64_length _ _ _ _ _ _ hi.le, specTable64_length _ _ _ _ _ _ hk] at hlen
    cases ell with
    | false => simp at hlen; omega
    | true =>
      simp at hlen
      have hki : k = i := by omega
      subst hki
      exact (hell rfl).1
  · intro hfire
    rw [ProcessTablePDFItem64_single Sprintf tableItem pdfFields data ds hmatch,
      tableRows64_take Sprintf tableItem pdfFields i ds.DataPoints 0 hi.le htyped
        (fun j hj => by rw [Nat.zero_add]; exact hprev j hj),
      List.drop_eq_getElem_cons hi, Nat.zero_add,
      tableRows64_cons_stop Sprintf tableItem pdfFields _ _ i hfire]
    simp only [specTable64, List.append_assoc, if_true]

/-- Witness of C3 (amended) on the table of height 52.2 with data rows 11.2
high and four records, at row 3: the rows 0, 1 and 2 were drawn and the
ellipsis row replaces row 3, because the `float64` running total `13 + 8 +
3.2 + 8 + 3.2 + 8 + 3.2` plus `5.6` is greater than the `float64` 52.2,
although the exact sum of the same `float64` values is not.  The test is
strict: on the table of height 31 with rows 12 high, the running total 25
plus 6 equals the height before the second record, and that record is drawn
as a data row. -/
theorem ProcessTablePDFItem_ellipsis_iff_witness :
    (3 < 4 ∧ (∀ j : ℕ, j < 3 → heightCheck64 roundingTable j = false) ∧
      heightCheck64 roundingTable 3 = true ∧
      ¬ (headerHeight roundingTable + 3 * rowHeight roundingTable +
          0.5 * rowHeight roundingTable > roundingTable.Height) ∧
      ProcessTablePDFItem64 exampleSprintf roundingTable exampleFields fourRecords =
        .ok (specTable64 exampleSprintf roundingTable exampleFields
          [examplePoint "Jan" 10, examplePoint "Feb" 40, examplePoint "Mar" 25,
            examplePoint "Apr" 30] 3 true) ∧
      F64.add (runningHeight64 (exampleTable 31) 1) (halfRowHeight64 (exampleTable 31)) =
        .fin (exampleTable 31).Height ∧
      ProcessTablePDFItem64 exampleSprintf (exampleTable 31) exampleFields exampleData =
        .ok (specTable64 exampleSprintf (exampleTable 31) exampleFields
          [examplePoint "Jan" 10, examplePoint "Feb" 40] 2 false)) ∧
      (ProcessTablePDFItem64 exampleSprintf roundingTable exampleFields fourRecords =
          .ok (specTable64 exampleSprintf roundingTable exampleFields
            [examplePoint "Jan" 10, examplePoint "Feb" 40, examplePoint "Mar" 25,
              examplePoint "Apr" 30] 3 true) ↔
        heightCheck64 roundingTable 3 = true) :=
  ⟨⟨by decide, by decide!, by decide!, by decide!, by decide!, by decide!, by decide!⟩,
    (ProcessTablePDFItem_ellipsis_iff exampleSprintf roundingTable exampleFields fourRecords
      { DataSource := "sales",
        DataPoints := [examplePoint "Jan" 10, examplePoint "Feb" 40, examplePoint "Mar" 25,
          examplePoint "Apr" 30] } 3
      (by decide!) (by decide) (by decide!) (by decide!)).1⟩

/-- C21.  With exactly one matching series, in `float64`,
`ProcessTablePDFItem` returns normally when every record carries a category
string, and on a normal return it has emitted the header row, the data rows
of the first `k` records in dataset order (one category cell and one value
cell each) and at most one ellipsis cell.  When the ellipsis row is emitted,
`k` is the position of the first record at which the height test of line 239
fired (it failed before each of the `k` data rows), records remain (`k < n`)
and none of them is drawn, and the ellipsis cell is the last call, as wide as
the table.  When no ellipsis row is emitted all records are drawn. -/
theorem ProcessTablePDFItem_one_ellipsis (Sprintf : Option Value → String)
    (tableItem : PdfContentItem) (pdfFields : PdfFields) (data : Data) (ds : DataSet)
    (hmatch : data.filter (fun d => decide (tableItem.DataSource = d.DataSource)) = [ds]) :
    ((∀ p ∈ ds.DataPoints, (categoryOf tableItem.DataSeriesCategory p).isSome = true) →
      ∃ calls : List DrawCall64,
        ProcessTablePDFItem64 Sprintf tableItem pdfFields data = .ok calls) ∧
    ∀ calls : List DrawCall64,
      ProcessTablePDFItem64 Sprintf tableItem pdfFields data = .ok calls →
      ∃ (k : ℕ) (ell : Bool), k ≤ ds.DataPoints.length ∧
        calls = specHeaderRow64 tableItem pdfFields ++ specRowFormat64 tableItem ++
          specDataRows64 Sprintf tableItem pdfFields 0 (ds.DataPoints.take k) ++
          (if ell then specEllipsisRow64 tableItem pdfFields k else []) ∧
        calls.countP isEllipsisCell64 = (if ell then 1 else 0) ∧
        calls.countP isTextBox64 = 2 + 2 * k + (if ell then 1 else 0) ∧
        (∀ j : ℕ, j < k → heightCheck64 tableItem j = false) ∧
        (ell = true →
          k < ds.DataPoints.length ∧ heightCheck64 tableItem k = true ∧
          calls.getLast? = some (.MultiCell (.fin (tableWidthOf tableItem))
            (halfRowHeight64 tableItem) "..." (tableFont tableItem).CellBorders.Style "CB"
            (tableFont tableItem).CellFill.Filled)) ∧
        (ell = false → k = ds.DataPoints.length) := by
  refine ⟨ProcessTablePDFItem64_returns Sprintf tableItem pdfFields data ds hmatch, ?_⟩
  intro calls hok
  obtain ⟨k, ell, hk, hcalls, hfit, hell, hall⟩ :=
    ProcessTablePDFItem64_shape Sprintf tableItem pdfFields data ds calls hmatch hok
  obtain ⟨hc1, hc2⟩ := specTable64_count Sprintf tableItem pdfFields ds.DataPoints k ell hk
  refine ⟨k, ell, hk, hcalls, by rw [hcalls]; exact hc1, by rw [hcalls]; exact hc2, hfit, ?_,
    hall⟩
  intro he
  refine ⟨(hell he).2, (hell he).1, ?_⟩
  rw [hcalls, he]
  simp [specTable64, specEllipsisRow64, List.getLast?_append]

/-- Witness of C21 on the table of height 52.2 and four records: the height
test fires at the fourth record, so three data rows and the ellipsis row are
drawn. -/
theorem ProcessTablePDFItem_one_ellipsis_witness :
    fourRecords.filter (fun d => decide (roundingTable.DataSource = d.DataSource)) =
        [{ DataSource := "sales",
           DataPoints := [examplePoint "Jan" 10, examplePoint "Feb" 40, examplePoint "Mar" 25,
             examplePoint "Apr" 30] }] ∧
      ProcessTablePDFItem64 exampleSprintf roundingTable exampleFields fourRecords =
        .ok (specTable64 exampleSprintf roundingTable exampleFields
          [examplePoint "Jan" 10, examplePoint "Feb" 40, examplePoint "Mar" 25,
            examplePoint "Apr" 30] 3 true) ∧
      ∃ (k : ℕ) (ell : Bool), k ≤ 4 ∧
        specTable64 exampleSprintf roundingTable exampleFields
            [examplePoint "Jan" 10, examplePoint "Feb" 40, examplePoint "Mar" 25,
              examplePoint "Apr" 30] 3 true =
          specHeaderRow64 roundingTable exampleFields ++ specRowFormat64 roundingTable ++
            specDataRows64 exampleSprintf roundingTable exampleFields 0
              ([examplePoint "Jan" 10, examplePoint "Feb" 40, examplePoint "Mar" 25,
                examplePoint "Apr" 30].take k) ++
            (if ell then specEllipsisRow64 roundingTable exampleFields k else []) ∧
        (specTable64 exampleSprintf roundingTable exampleFields
            [examplePoint "Jan" 10, examplePoint "Feb" 40, examplePoint "Mar" 25,
              examplePoint "Apr" 30] 3 true).countP isEllipsisCell64 =
          (if ell then 1 else 0) ∧
        (specTable64 exampleSprintf roundingTable exampleFields
            [examplePoint "Jan" 10, examplePoint "Feb" 40, examplePoint "Mar" 25,
              examplePoint "Apr" 30] 3 true).countP isTextBox64 =
          2 + 2 * k + (if ell then 1 else 0) ∧
        (∀ j : ℕ, j < k → heightCheck64 roundingTable j = false) ∧
        (ell = true →
          k < 4 ∧ heightCheck64 roundingTable k = true ∧
          (specTable64 exampleSprintf roundingTable exampleFields
              [examplePoint "Jan" 10, examplePoint "Feb" 40, examplePoint "Mar" 25,
                examplePoint "Apr" 30] 3 true).getLast? =
            some (.MultiCell (.fin (tableWidthOf roundingTable))
              (halfRowHeight64 roundingTable) "..."
              (tableFont roundingTable).CellBorders.Style "CB"
              (tableFont roundingTable).CellFill.Filled)) ∧
        (ell = false → k = 4) :=
  ⟨by decide!, by decide!,
    (ProcessTablePDFItem_one_ellipsis exampleSprintf roundingTable exampleFields fourRecords
      { DataSource := "sales",
        DataPoints := [examplePoint "Jan" 10, examplePoint "Feb" 40, examplePoint "Mar" 25,
          examplePoint "Apr" 30] }
      (by decide!)).2
      (specTable64 exampleSprintf roundingTable exampleFields
        [examplePoint "Jan" 10, examplePoint "Feb" 40, examplePoint "Mar" 25,
          examplePoint "Apr" 30] 3 true)
      (by decide!)⟩

/-! ## Facts about the chart renderer in `float64` -/

theorem F64_ge_inf (x : F64) (h : F64.ge x (.inf false) = true) : x = .inf false := by
  cases x with
  | fin q => simp [F64.ge, F64.le] at h
  | inf s => cases s <;> simp [F64.ge, F64.le] at h ⊢
  | nan => simp [F64.ge, F64.le] at h

/-- The loop of `GetMaxValueForAxisOnChart64` stops within the evaluations it
is given unless its argument is `+Inf`; the `place` it returns is a finite
value, at least 1, and is the starting one or is not above the argument. -/
theorem placeLoop64_returns (x : F64) (hx : x ≠ .inf false) :
    ∀ (fuel k : ℕ) (pv : ℚ), (2 : ℚ) ^ k ≤ pv → pv < (2 : ℚ) ^ (1024 : ℤ) →
      1024 ≤ k + fuel →
      ∃ q : ℚ, placeLoop64 fuel x (.fin pv) = some (.fin q) ∧ (2 : ℚ) ^ k ≤ q ∧
        (q = pv ∨ F64.ge x (.fin q) = true) := by
  intro fuel
  induction fuel with
  | zero =>
    intro k pv h1 h2 h3
    exfalso
    have h4 : (2 : ℚ) ^ (1024 : ℕ) ≤ (2 : ℚ) ^ k :=
      pow_le_pow_right₀ (by norm_num) (by omega)
    have h5 : (2 : ℚ) ^ ((1024 : ℕ) : ℤ) = (2 : ℚ) ^ (1024 : ℕ) := zpow_natCast _ _
    have h6 : pv < (2 : ℚ) ^ (1024 : ℕ) := by rw [← h5]; exact h2
    exact absurd (lt_of_le_of_lt (le_trans h4 h1) h6) (lt_irrefl _)
  | succ fuel ih =>
    intro k pv h1 h2 h3
    rw [placeLoop64]
    by_cases ht : F64.ge x (F64.mul (.fin pv) (.fin 10)) = true
    · rw [if_pos ht]
      have hm : F64.mul (.fin pv) (.fin 10) = round64 (pv * 10) := rfl
      have hk : (2 : ℚ) ^ (k + 1) ≤ pv * 10 := by
        clear h2 h3 ih ht hm
        have hp : (0 : ℚ) < (2 : ℚ) ^ k := by positivity
        rw [pow_succ]
        nlinarith
      rcases round64_ge_pow (pv * 10) (k + 1) hk with hinf | ⟨r, hr, hge⟩
      · rw [hm, hinf] at ht
        exact absurd (F64_ge_inf x ht) hx
      · rw [hm, hr] at ht ⊢
        have hlt := round64_fin_lt _ _ hr
        have hr0 : 0 ≤ r := le_trans (by positivity) hge
        rw [abs_of_nonneg hr0] at hlt
        obtain ⟨q, hq, hq1, hq2⟩ := ih (k + 1) r hge hlt (by omega)
        refine ⟨q, hq, ?_, ?_⟩
        · refine le_trans ?_ hq1
          exact pow_le_pow_right₀ (by norm_num) (by omega)
        · rcases hq2 with h | h
          · right; rw [h]; exact ht
          · right; exact h
    · rw [if_neg ht]
      exact ⟨pv, rfl, h1, Or.inl rfl⟩

theorem one_lt_two_zpow_1024 : (1 : ℚ) < (2 : ℚ) ^ (1024 : ℤ) := by
  have h0 : (2 : ℚ) ^ (0 : ℤ) < (2 : ℚ) ^ (1024 : ℤ) :=
    zpow_lt_zpow_right₀ (by norm_num) (by norm_num)
  rwa [zpow_zero] at h0

theorem GetMaxValueForAxisOnChart64_zero :
    GetMaxValueForAxisOnChart64 (.fin 0) = some (.fin 0) := by
  decide!

/-- For a finite `float64` argument that is not negative,
`GetMaxValueForAxisOnChart64` returns, and it returns 0 exactly for the
argument 0. -/
theorem GetMaxValueForAxisOnChart64_eq_zero (m : ℚ) (hm : 0 ≤ m) (hf : isFloat64 m) :
    ∃ top : F64, GetMaxValueForAxisOnChart64 (.fin m) = some top ∧
      (top = .fin 0 ↔ m = 0) := by
  rcases eq_or_lt_of_le hm with h0 | hpos
  · subst h0
    exact ⟨.fin 0, GetMaxValueForAxisOnChart64_zero, by simp⟩
  obtain ⟨q, hq, hq1, hq2⟩ := placeLoop64_returns (.fin m) (by simp) 1024 0 1 (by norm_num)
    one_lt_two_zpow_1024 (by omega)
  simp only [pow_zero] at hq1
  have hq0 : q ≠ 0 := by intro h; rw [h] at hq1; norm_num at hq1
  have hqpos : (0 : ℚ) < q := lt_of_lt_of_le one_pos hq1
  refine ⟨F64.mul (F64.ceil (F64.div (.fin m) (.fin q))) (.fin q), ?_, ?_⟩
  · unfold GetMaxValueForAxisOnChart64
    rw [hq]
  · have hne : F64.mul (F64.ceil (F64.div (.fin m) (.fin q))) (.fin q) ≠ .fin 0 := by
      have hdiv : F64.div (.fin m) (.fin q) = round64 (m / q) := by
        simp [F64.div, hq0]
      -- the product of a rounded-up quotient that is at least 1 and `place`
      have key : ∀ c : ℤ, 1 ≤ c → F64.mul (.fin (c : ℚ)) (.fin q) ≠ .fin 0 := by
        intro c hc
        have h1 : (2 : ℚ) ^ 0 ≤ (c : ℚ) * q := by
          have hc' : (1 : ℚ) ≤ (c : ℚ) := by exact_mod_cast hc
          simp only [pow_zero]
          nlinarith
        have hmul : F64.mul (.fin (c : ℚ)) (.fin q) = round64 ((c : ℚ) * q) := rfl
        rw [hmul]
        rcases round64_ge_pow _ 0 h1 with hinf | ⟨r, hr, hge⟩
        · rw [hinf]; simp
        · rw [hr]
          simp only [pow_zero] at hge
          intro h
          simp only [F64.fin.injEq] at h
          rw [h] at hge
          norm_num at hge
      rw [hdiv]
      rcases hq2 with h1 | hle
      · subst h1
        rw [div_one]
        have hfm : round64 m = .fin m := hf
        rw [hfm]
        exact key ⌈m⌉ (Int.one_le_ceil_iff.mpr hpos)
      · have hqm : q ≤ m := by simpa [F64.ge, F64.le] using hle
        have h1 : (2 : ℚ) ^ 0 ≤ m / q := by
          simp only [pow_zero]
          exact (one_le_div hqpos).mpr hqm
        rcases round64_ge_pow _ 0 h1 with hinf | ⟨r, hr, hge⟩
        · rw [hinf]
          simp [F64.ceil, F64.mul, hq0]
        · rw [hr]
          simp only [pow_zero] at hge
          exact key ⌈r⌉ (Int.one_le_ceil_iff.mpr (lt_of_lt_of_le one_pos hge))
    constructor
    · intro h; exact absurd h hne
    · intro h; exact absurd h hpos.ne'

section ChartLoops64

variable (Sprintf64 : F64 → String)
  (GetStringWidth : String → String → ℚ → String → ℚ)
  (vbarItem : PdfContentItem) (pdfSettings : PdfFields)

theorem rectCalls64_append (a b : List DrawCall64) :
    rectCalls64 (a ++ b) = rectCalls64 a ++ rectCalls64 b := by
  simp [rectCalls64]

/-- On records that all hold a number, the scan returns the largest of the
starting maximum and their values, and the count after one addition of 1 per
record. -/
theorem scanSeries64_typed (points : List DataPoint) :
    ∀ (m : ℚ) (c : F64),
      (∀ p ∈ points, (seriesNumber vbarItem.DataSeries p).isSome = true) →
      scanSeries64 vbarItem points (.fin m) c =
        .ok (.fin ((seriesValues vbarItem.DataSeries points).foldl max m),
          recordCount64 c points.length) := by
  induction points with
  | nil => intro m c _; rfl
  | cons point rest ih =>
    intro m c h
    obtain ⟨v, hv⟩ := Option.isSome_iff_exists.mp (h point (by simp))
    cases point with
    | notObject => simp [seriesNumber] at hv
    | object fields =>
      simp only [seriesNumber] at hv
      cases hl : fields.lookup vbarItem.DataSeries with
      | none => rw [hl] at hv; simp at hv
      | some nv =>
        rw [hl] at hv
        cases nv with
        | str q => simp at hv
        | other => simp at hv
        | num x =>
          simp only [Option.some.injEq] at hv
          subst hv
          have hmax : (if F64.gt (.fin x) (.fin m) = true then F64.fin x else F64.fin m) =
              F64.fin (max m x) := by
            by_cases hlt : m < x
            · simp [F64.gt, F64.lt, hlt, max_eq_right hlt.le]
            · simp [F64.gt, F64.lt, hlt, max_eq_left (not_lt.mp hlt)]
          rw [scanSeries64]
          simp only [assertMap, hl, assertFloat64, hmax]
          rw [ih (max m x) _ (fun p hp => h p (by simp [hp]))]
          simp only [seriesValues, List.filterMap_cons, seriesNumber, hl, List.foldl_cons,
            List.length_cons, recordCount64]

/-- The y-axis tick loop stops within the evaluations it is given when
`yAxisTicks` is below `2 ^ 53`, and it draws no rectangle. -/
theorem yAxisTickLoop64_returns (font : Font) (boxX axisX interval top ticks : F64)
    (hT : F64.lt ticks (.fin (2 ^ 53)) = true) :
    ∀ (fuel k : ℕ) (y l : F64), k + fuel = 2 ^ 53 →
      ∃ calls : List DrawCall64,
        yAxisTickLoop64 Sprintf64 vbarItem font boxX axisX interval top ticks (fuel + 1)
            (.fin (k : ℚ)) y l = some calls ∧
          rectCalls64 calls = [] := by
  intro fuel
  induction fuel with
  | zero =>
    intro k y l hk
    have hle : ¬ F64.le (.fin (k : ℚ)) ticks = true := by
      simp only [Nat.add_zero] at hk
      subst hk
      cases ticks with
      | fin t =>
        simp only [F64.lt, decide_eq_true_eq] at hT
        simp only [F64.le, decide_eq_true_eq, not_le]
        push_cast
        exact hT
      | inf s => cases s <;> simp [F64.lt, F64.le] at hT ⊢
      | nan => simp [F64.lt] at hT
    rw [yAxisTickLoop64, if_neg hle]
    exact ⟨[], rfl, rfl⟩
  | succ fuel ih =>
    intro k y l hk
    rw [yAxisTickLoop64]
    by_cases hle : F64.le (.fin (k : ℚ)) ticks = true
    · rw [if_pos hle]
      have hadd : F64.add (.fin (k : ℚ)) (.fin 1) = .fin ((k + 1 : ℕ) : ℚ) := by
        have h1 : F64.add (.fin (k : ℚ)) (.fin 1) = round64 ((k : ℚ) + 1) := rfl
        have h2 : (k : ℚ) + 1 = ((k + 1 : ℕ) : ℚ) := by push_cast; ring
        rw [h1, h2]
        exact round64_natCast (k + 1) (by omega)
      rw [hadd]
      obtain ⟨calls, hc, hr⟩ := ih (k + 1) (F64.add y interval)
        (F64.sub l (F64.div top ticks)) (by omega)
      rw [hc]
      refine ⟨_, rfl, ?_⟩
      rw [rectCalls64_append, hr]
      rfl
    · rw [if_neg hle]
      exact ⟨[], rfl, rfl⟩

/-- On records that hold a category string and a number, the bars loop
returns, and the rectangles it draws are the bars of the series values. -/
theorem barsLoop64_rects (w top : F64) (points : List DataPoint) :
    ∀ x : F64,
      (∀ p ∈ points, (categoryOf vbarItem.DataSeriesCategory p).isSome = true ∧
        (seriesNumber vbarItem.DataSeries p).isSome = true) →
      ∃ (bars : List DrawCall64) (xEnd : F64),
        barsLoop64 vbarItem (chartFont vbarItem) w top (axisZero64 vbarItem pdfSettings)
            (axisTop64 vbarItem pdfSettings) points x = .ok (bars, xEnd) ∧
          rectCalls64 bars =
            specBarRects64 vbarItem pdfSettings w top x
              (seriesValues vbarItem.DataSeries points) := by
  induction points with
  | nil => intro x _; exact ⟨[], x, rfl, rfl⟩
  | cons point rest ih =>
    intro x h
    obtain ⟨hc, hn⟩ := h point (by simp)
    obtain ⟨s, hs⟩ := Option.isSome_iff_exists.mp hc
    obtain ⟨v, hv⟩ := Option.isSome_iff_exists.mp hn
    obtain ⟨bars, xEnd, hb, hr⟩ := ih (F64.add x w) (fun p hp => h p (by simp [hp]))
    cases point with
    | notObject => simp [categoryOf] at hs
    | object fields =>
      simp only [categoryOf, seriesNumber] at hs hv
      cases hl : fields.lookup vbarItem.DataSeriesCategory with
      | none => rw [hl] at hs; simp at hs
      | some cv =>
        rw [hl] at hs
        cases cv with
        | num q => simp at hs
        | other => simp at hs
        | str t =>
          cases hl2 : fields.lookup vbarItem.DataSeries with
          | none => rw [hl2] at hv; simp at hv
          | some nv =>
            rw [hl2] at hv
            cases nv with
            | str q => simp at hv
            | other => simp at hv
            | num y =>
              rw [barsLoop64]
              simp only [assertMap, hl, hl2, assertString, assertFloat64, hb]
              refine ⟨_, xEnd, rfl, ?_⟩
              rw [rectCalls64_append, hr]
              simp only [seriesValues, List.filterMap_cons, seriesNumber, hl2, specBarRects64]
              rfl

/-- Datasets whose name differs from the item's `DataSource` are skipped. -/
theorem chartDatasets64_filter (yAxisTicks : F64) (data : Data) :
    chartDatasets64 Sprintf64 GetStringWidth vbarItem pdfSettings yAxisTicks data =
      chartDatasets64 Sprintf64 GetStringWidth vbarItem pdfSettings yAxisTicks
        (data.filter (fun d => decide (vbarItem.DataSource = d.DataSource))) := by
  induction data with
  | nil => rfl
  | cons d rest ih =>
    by_cases hd : vbarItem.DataSource = d.DataSource
    · rw [List.filter_cons_of_pos (by simpa using hd)]
      rw [chartDatasets64, chartDatasets64, if_pos hd, if_pos hd, ih]
    · rw [List.filter_cons_of_neg (by simpa using hd)]
      rw [chartDatasets64, if_neg hd]
      exact ih

/-- With exactly one matching dataset, `ProcessVerticalBarChartPDFItem64` is
the body of the dataset loop for that dataset. -/
theorem ProcessVerticalBarChartPDFItem64_single (data : Data) (ds : DataSet)
    (hmatch : data.filter (fun d => decide (vbarItem.DataSource = d.DataSource)) = [ds]) :
    ProcessVerticalBarChartPDFItem64 Sprintf64 GetStringWidth vbarItem pdfSettings data =
      chartSeries64 Sprintf64 GetStringWidth vbarItem pdfSettings (yAxisTicks64 vbarItem)
        ds := by
  have hmem : ds ∈ data.filter (fun d => decide (vbarItem.DataSource = d.DataSource)) := by
    rw [hmatch]; simp
  have hd : vbarItem.DataSource = ds.DataSource := by
    simpa using (List.mem_filter.mp hmem).2
  show chartDatasets64 Sprintf64 GetStringWidth vbarItem pdfSettings (yAxisTicks64 vbarItem)
    data = _
  rw [chartDatasets64_filter, hmatch, chartDatasets64, if_pos hd]
  cases chartSeries64 Sprintf64 GetStringWidth vbarItem pdfSettings (yAxisTicks64 vbarItem)
      ds with
  | error e => rfl
  | ok calls => simp [chartDatasets64]

/-- With exactly one matching dataset, whose records all hold a category
string and a number, and a tick count below `2 ^ 53`, the chart renderer
returns normally in `float64`, and the rectangles it draws are the background
and the bars of the series values, scaled by the y-axis maximum. -/
theorem ProcessVerticalBarChartPDFItem64_rects (data : Data) (ds : DataSet)
    (hmatch : data.filter (fun d => decide (vbarItem.DataSource = d.DataSource)) = [ds])
    (htyped : ∀ p ∈ ds.DataPoints,
      (categoryOf vbarItem.DataSeriesCategory p).isSome = true ∧
        (seriesNumber vbarItem.DataSeries p).isSome = true)
    (hticks : F64.lt (yAxisTicks64 vbarItem) (.fin (2 ^ 53)) = true) :
    ∃ (top : F64) (calls : List DrawCall64),
      axisMax64 vbarItem ds.DataPoints = some top ∧
      ProcessVerticalBarChartPDFItem64 Sprintf64 GetStringWidth vbarItem pdfSettings data =
        .ok calls ∧
      rectCalls64 calls =
        backgroundRect64 vbarItem pdfSettings ::
          specBarRects64 vbarItem pdfSettings (cellWidth64 vbarItem ds.DataPoints.length) top
            (yAxisX64 vbarItem pdfSettings) (seriesValues vbarItem.DataSeries ds.DataPoints) := by
  have hscan := scanSeries64_typed vbarItem ds.DataPoints 0 (.fin 0)
    (fun p hp => (htyped p hp).2)
  obtain ⟨q, hq, -, -⟩ := placeLoop64_returns (.fin (seriesMax vbarItem ds.DataPoints))
    (by simp) 1024 0 1 (by norm_num)
    one_lt_two_zpow_1024 (by omega)
  have hmax : GetMaxValueForAxisOnChart64 (.fin (seriesMax vbarItem ds.DataPoints)) =
      some (F64.mul (F64.ceil (F64.div (.fin (seriesMax vbarItem ds.DataPoints)) (.fin q)))
        (.fin q)) := by
    unfold GetMaxValueForAxisOnChart64
    rw [hq]
  obtain ⟨ticks, hticksEq, hticksRect⟩ := yAxisTickLoop64_returns Sprintf64 vbarItem
    (chartFont vbarItem) (chartBoxX64 vbarItem pdfSettings) (yAxisX64 vbarItem pdfSettings)
    (F64.div (F64.sub (axisZero64 vbarItem pdfSettings) (axisTop64 vbarItem pdfSettings))
      (yAxisTicks64 vbarItem))
    (F64.mul (F64.ceil (F64.div (.fin (seriesMax vbarItem ds.DataPoints)) (.fin q))) (.fin q))
    (yAxisTicks64 vbarItem) hticks (2 ^ 53) 0 (axisTop64 vbarItem pdfSettings)
    (F64.mul (F64.ceil (F64.div (.fin (seriesMax vbarItem ds.DataPoints)) (.fin q))) (.fin q))
    (by omega)
  obtain ⟨bars, xEnd, hbars, hbarsRect⟩ := barsLoop64_rects vbarItem pdfSettings
    (cellWidth64 vbarItem ds.DataPoints.length)
    (F64.mul (F64.ceil (F64.div (.fin (seriesMax vbarItem ds.DataPoints)) (.fin q))) (.fin q))
    ds.DataPoints (yAxisX64 vbarItem pdfSettings) htyped
  have hmax' : GetMaxValueForAxisOnChart64
      (.fin ((seriesValues vbarItem.DataSeries ds.DataPoints).foldl max 0)) =
      some (F64.mul (F64.ceil (F64.div (.fin (seriesMax vbarItem ds.DataPoints)) (.fin q)))
        (.fin q)) := hmax
  simp only [chartFont, chartBoxX64, chartBoxY64, yAxisX64, axisTop64, axisZero64,
    cellWidth64, Nat.cast_zero] at hticksEq hbars
  have hP : ∃ calls : List DrawCall64,
      ProcessVerticalBarChartPDFItem64 Sprintf64 GetStringWidth vbarItem pdfSettings data =
        .ok calls ∧
      rectCalls64 calls =
        backgroundRect64 vbarItem pdfSettings :: rectCalls64 bars := by
    rw [ProcessVerticalBarChartPDFItem64_single Sprintf64 GetStringWidth vbarItem pdfSettings
      data ds hmatch]
    unfold chartSeries64
    simp only [hscan, hmax', hticksEq, hbars]
    refine ⟨_, rfl, ?_⟩
    simp only [rectCalls64_append, hticksRect]
    simp [rectCalls64, backgroundRect64, chartBoxX64, chartBoxY64]
  obtain ⟨calls, hc1, hc2⟩ := hP
  exact ⟨_, calls, hmax, hc1, by rw [hc2, hbarsRect]⟩

end ChartLoops64

/-! ## Claims about `GetMaxValueForAxisOnChart` in `float64` -/

/-- C15 (exact arithmetic).  With exactly one matching series, whose records
all hold a category string and a number, and a requested tick count that is
an integer `N ≥ 2` (5 when the configured number is not positive), the chart
renderer draws exactly `N` y-axis ticks, between the head calls and the bars,
each of them one tick line and one label; tick `i` (`0 ≤ i ≤ N - 1`) is at
`axisTop + i * (chartPixelHeight / (N - 1))` and its label shows
`axisMax - i * (axisMax / (N - 1))`, so the first tick is at the top of the
axis labelled `axisMax` and the last tick is on the zero line labelled 0. -/
theorem ProcessVerticalBarChartPDFItem_ticks (Sprintf : Option Value → String)
    (GetStringWidth : String → String → ℚ → String → ℚ) (vbarItem : PdfContentItem)
    (pdfSettings : PdfFields) (data : Data) (ds : DataSet) (N : ℕ) (hN : 2 ≤ N)
    (hcount : tickCount vbarItem = (N : ℚ))
    (hmatch : data.filter (fun d => decide (vbarItem.DataSource = d.DataSource)) = [ds])
    (htyped : ∀ p ∈ ds.DataPoints,
      (categoryOf vbarItem.DataSeriesCategory p).isSome = true ∧
        (seriesNumber vbarItem.DataSeries p).isSome = true) :
    ProcessVerticalBarChartPDFItem Sprintf GetStringWidth vbarItem pdfSettings data =
        .ok (chartHead vbarItem pdfSettings ++
          ((List.range N).flatMap
            (specTick Sprintf vbarItem pdfSettings (axisMax vbarItem ds.DataPoints) N)) ++
          expectedBars vbarItem pdfSettings (cellWidth vbarItem ds.DataPoints.length)
            (axisMax vbarItem ds.DataPoints) 0 ds.DataPoints ++
          chartEnd GetStringWidth vbarItem pdfSettings
            (yAxisX vbarItem pdfSettings +
              (ds.DataPoints.length : ℚ) * cellWidth vbarItem ds.DataPoints.length)) ∧
      (∀ i : ℕ,
        lineCalls (specTick Sprintf vbarItem pdfSettings (axisMax vbarItem ds.DataPoints) N i) =
          [ .Line (yAxisX vbarItem pdfSettings)
              (axisTop vbarItem pdfSettings +
                (i : ℚ) * (chartPixelHeight vbarItem / ((N : ℚ) - 1)))
              (yAxisX vbarItem pdfSettings - vbarItem.ChartSettings.TickMarkLength)
              (axisTop vbarItem pdfSettings +
                (i : ℚ) * (chartPixelHeight vbarItem / ((N : ℚ) - 1))) ]) ∧
      (lineCalls ((List.range N).flatMap
        (specTick Sprintf vbarItem pdfSettings (axisMax vbarItem ds.DataPoints) N))).length =
          N ∧
      specTick Sprintf vbarItem pdfSettings (axisMax vbarItem ds.DataPoints) N 0 =
        [ .SetLineWidth vbarItem.ChartSettings.AxisFormat.LineWidth,
          .SetDrawColor vbarItem.ChartSettings.AxisFormat.LineColour.R
            vbarItem.ChartSettings.AxisFormat.LineColour.G
            vbarItem.ChartSettings.AxisFormat.LineColour.B,
          .Line (yAxisX vbarItem pdfSettings) (axisTop vbarItem pdfSettings)
            (yAxisX vbarItem pdfSettings - vbarItem.ChartSettings.TickMarkLength)
            (axisTop vbarItem pdfSettings),
          .SetXY (chartBoxX vbarItem pdfSettings)
            (axisTop vbarItem pdfSettings - 0.5 * (chartFont vbarItem).Size),
          .CellFormat
            (vbarItem.ChartSettings.DistanceFromSidesOfChartArea -
              vbarItem.ChartSettings.TickMarkLength)
            (chartFont vbarItem).Size
            (Sprintf (some (.num (axisMax vbarItem ds.DataPoints)))) "" 0 "RM" false 0 "" ] ∧
      specTick Sprintf vbarItem pdfSettings (axisMax vbarItem ds.DataPoints) N (N - 1) =
        [ .SetLineWidth vbarItem.ChartSettings.AxisFormat.LineWidth,
          .SetDrawColor vbarItem.ChartSettings.AxisFormat.LineColour.R
            vbarItem.ChartSettings.AxisFormat.LineColour.G
            vbarItem.ChartSettings.AxisFormat.LineColour.B,
          .Line (yAxisX vbarItem pdfSettings) (axisZero vbarItem pdfSettings)
            (yAxisX vbarItem pdfSettings - vbarItem.ChartSettings.TickMarkLength)
            (axisZero vbarItem pdfSettings),
          .SetXY (chartBoxX vbarItem pdfSettings)
            (axisZero vbarItem pdfSettings - 0.5 * (chartFont vbarItem).Size),
          .CellFormat
            (vbarItem.ChartSettings.DistanceFromSidesOfChartArea -
              vbarItem.ChartSettings.TickMarkLength)
            (chartFont vbarItem).Size (Sprintf (some (.num 0))) "" 0 "RM" false 0 "" ] ∧
      (vbarItem.ChartSettings.NumberOfYAxisTicks ≤ 0 → N = 5) := by
  have hN1 : ((N - 1 : ℕ) : ℚ) = (N : ℚ) - 1 := by
    have : 1 ≤ N := by omega
    push_cast [this]; ring
  have hne : (N : ℚ) - 1 ≠ 0 := by
    have : (2 : ℚ) ≤ (N : ℚ) := by exact_mod_cast hN
    intro h; linarith
  have hline : ∀ i : ℕ,
      lineCalls (specTick Sprintf vbarItem pdfSettings (axisMax vbarItem ds.DataPoints) N i) =
        [ .Line (yAxisX vbarItem pdfSettings)
            (axisTop vbarItem pdfSettings +
              (i : ℚ) * (chartPixelHeight vbarItem / ((N : ℚ) - 1)))
            (yAxisX vbarItem pdfSettings - vbarItem.ChartSettings.TickMarkLength)
            (axisTop vbarItem pdfSettings +
              (i : ℚ) * (chartPixelHeight vbarItem / ((N : ℚ) - 1))) ] := by
    intro i
    simp [lineCalls, specTick]
  have hlen : ∀ M : ℕ, (lineCalls ((List.range M).flatMap
      (specTick Sprintf vbarItem pdfSettings (axisMax vbarItem ds.DataPoints) N))).length =
        M := by
    intro M
    induction M with
    | zero => rfl
    | succ M ih =>
      rw [List.range_succ, List.flatMap_append, lineCalls_append, List.length_append, ih]
      simp [hline]
  refine ⟨?_, hline, hlen N, ?_, ?_, ?_⟩
  · have h := ProcessVerticalBarChartPDFItem_output Sprintf GetStringWidth vbarItem pdfSettings
      data ds hmatch htyped
    have htick : specYTick Sprintf vbarItem pdfSettings (axisMax vbarItem ds.DataPoints) =
        specTick Sprintf vbarItem pdfSettings (axisMax vbarItem ds.DataPoints) N := by
      funext i
      simp only [specYTick, yTickCalls, axisFormatCalls, hcount, specTick, List.cons_append,
        List.nil_append]
    rw [hcount, tick_iterations N (by omega), htick] at h
    exact h
  · simp only [specTick, Nat.cast_zero, zero_mul, add_zero, sub_zero]
  · have hpos : axisTop vbarItem pdfSettings +
        ((N - 1 : ℕ) : ℚ) * (chartPixelHeight vbarItem / ((N : ℚ) - 1)) =
        axisZero vbarItem pdfSettings := by
      rw [hN1, mul_div_cancel₀ _ hne, ← chart_height_eq vbarItem pdfSettings]
      ring
    have hlab : axisMax vbarItem ds.DataPoints -
        ((N - 1 : ℕ) : ℚ) * (axisMax vbarItem ds.DataPoints / ((N : ℚ) - 1)) = 0 := by
      rw [hN1, mul_div_cancel₀ _ hne]
      ring
    simp only [specTick, hpos, hlab]
  · intro hle
    have h5 : tickCount vbarItem = 5 := by
      unfold tickCount
      rw [if_neg (not_lt.mpr hle)]
    rw [h5] at hcount
    exact_mod_cast hcount.symm

/-- Witness of C15 on the example chart, which configures no tick count and
so gets five ticks, and the series 10, 40, 25. -/
theorem ProcessVerticalBarChartPDFItem_ticks_witness :
    (2 ≤ 5 ∧ tickCount exampleChart = ((5 : ℕ) : ℚ)) ∧
      ProcessVerticalBarChartPDFItem exampleSprintf exampleStringWidth exampleChart
          exampleFields exampleChartData =
        .ok (chartHead exampleChart exampleFields ++
          ((List.range 5).flatMap
            (specTick exampleSprintf exampleChart exampleFields
              (axisMax exampleChart
                [examplePoint "Jan" 10, examplePoint "Feb" 40, examplePoint "Mar" 25]) 5)) ++
          expectedBars exampleChart exampleFields (cellWidth exampleChart 3)
            (axisMax exampleChart
              [examplePoint "Jan" 10, examplePoint "Feb" 40, examplePoint "Mar" 25])
            0 [examplePoint "Jan" 10, examplePoint "Feb" 40, examplePoint "Mar" 25] ++
          chartEnd exampleStringWidth exampleChart exampleFields
            (yAxisX exampleChart exampleFields + ((3 : ℕ) : ℚ) * cellWidth exampleChart 3)) :=
  ⟨⟨by decide, by decide!⟩,
    (ProcessVerticalBarChartPDFItem_ticks exampleSprintf exampleStringWidth exampleChart
      exampleFields exampleChartData
      { DataSource := "sales",
        DataPoints := [examplePoint "Jan" 10, examplePoint "Feb" 40, examplePoint "Mar" 25] }
      5 (by decide) (by decide!) (by decide!) (by decide!)).1⟩

theorem foldl_max_mem (l : List ℚ) : ∀ m : ℚ, l.foldl max m = m ∨ l.foldl max m ∈ l := by
  induction l with
  | nil => intro m; exact Or.inl rfl
  | cons a rest ih =>
    intro m
    rw [List.foldl_cons]
    rcases ih (max m a) with h | h
    · rcases max_choice m a with h2 | h2
      · left; rw [h, h2]
      · right; rw [h, h2]; simp
    · right; simp [h]

/-- C24, in `float64`.  With exactly one matching series, whose records all
hold a category string and a number (a `float64` value), and a tick count
below `2 ^ 53`: the y-axis maximum computed is 0 exactly when no record's
series value is strictly positive; the chart renderer returns normally
whatever the values are, and the rectangles it draws are the background and
one bar per record whose height is `-((value / axisMax) * chartHeight)`
computed in `float64`; when the axis maximum is 0 the quotient
`value / axisMax` of every record is NaN (for the value 0) or `-Inf` (for a
negative value). -/
theorem axisMax_zero_iff (Sprintf64 : F64 → String)
    (GetStringWidth : String → String → ℚ → String → ℚ) (vbarItem : PdfContentItem)
    (pdfSettings : PdfFields) (data : Data) (ds : DataSet)
    (hmatch : data.filter (fun d => decide (vbarItem.DataSource = d.DataSource)) = [ds])
    (htyped : ∀ p ∈ ds.DataPoints,
      (categoryOf vbarItem.DataSeriesCategory p).isSome = true ∧
        (seriesNumber vbarItem.DataSeries p).isSome = true)
    (hfloat : ∀ v ∈ seriesValues vbarItem.DataSeries ds.DataPoints, isFloat64 v)
    (hticks : F64.lt (yAxisTicks64 vbarItem) (.fin (2 ^ 53)) = true) :
    ∃ (top : F64) (calls : List DrawCall64),
      GetMaxValueForAxisOnChart64 (.fin (seriesMax vbarItem ds.DataPoints)) = some top ∧
      (top = .fin 0 ↔ ∀ v ∈ seriesValues vbarItem.DataSeries ds.DataPoints, ¬ 0 < v) ∧
      ProcessVerticalBarChartPDFItem64 Sprintf64 GetStringWidth vbarItem pdfSettings data =
        .ok calls ∧
      rectCalls64 calls =
        backgroundRect64 vbarItem pdfSettings ::
          specBarRects64 vbarItem pdfSettings (cellWidth64 vbarItem ds.DataPoints.length) top
            (yAxisX64 vbarItem pdfSettings)
            (seriesValues vbarItem.DataSeries ds.DataPoints) ∧
      (top = .fin 0 → ∀ v ∈ seriesValues vbarItem.DataSeries ds.DataPoints,
        F64.div (.fin v) top = if v = 0 then .nan else .inf true) := by
  obtain ⟨top, calls, htop, hcalls, hrects⟩ := ProcessVerticalBarChartPDFItem64_rects Sprintf64
    GetStringWidth vbarItem pdfSettings data ds hmatch htyped hticks
  have hfm : isFloat64 (seriesMax vbarItem ds.DataPoints) := by
    rcases foldl_max_mem (seriesValues vbarItem.DataSeries ds.DataPoints) 0 with h | h
    · have h0 : seriesMax vbarItem ds.DataPoints = 0 := h
      rw [h0]
      decide!
    · exact hfloat _ h
  obtain ⟨top', htop', hiff⟩ := GetMaxValueForAxisOnChart64_eq_zero
    (seriesMax vbarItem ds.DataPoints) (seriesMax_nonneg vbarItem ds.DataPoints) hfm
  have htt : top' = top := by
    have h1 : axisMax64 vbarItem ds.DataPoints = some top' := htop'
    rw [htop] at h1
    exact (Option.some.inj h1).symm
  subst htt
  have hzero : top' = .fin 0 ↔
      ∀ v ∈ seriesValues vbarItem.DataSeries ds.DataPoints, ¬ 0 < v :=
    hiff.trans (seriesMax_eq_zero_iff vbarItem ds.DataPoints)
  refine ⟨top', calls, htop', hzero, hcalls, hrects, ?_⟩
  intro h0 v hv
  have hv0 : ¬ 0 < v := hzero.mp h0 v hv
  rw [h0]
  by_cases hz : v = 0
  · simp [F64.div, hz]
  · have hneg : v < 0 := lt_of_le_of_ne (not_lt.mp hv0) hz
    simp [F64.div, hz, hneg]

/-- Witness of C24 on the example chart and the series 0, -5: the axis
maximum is 0, the renderer returns normally, and the heights handed to `Rect`
are 120 for the background, NaN and `+Inf` for the two bars. -/
theorem axisMax_zero_iff_witness :
    (F64.lt (yAxisTicks64 exampleChart) (.fin (2 ^ 53)) = true ∧
      GetMaxValueForAxisOnChart64
          (.fin (seriesMax exampleChart [examplePoint "Jan" 0, examplePoint "Feb" (-5)])) =
        some (.fin 0) ∧
      (ProcessVerticalBarChartPDFItem64 exampleSprintf64 exampleStringWidth exampleChart
          exampleFields nonPositiveData).map rectHeights64 =
        .ok [.fin 120, .nan, .inf false]) ∧
      ∃ (top : F64) (calls : List DrawCall64),
        GetMaxValueForAxisOnChart64
            (.fin (seriesMax exampleChart [examplePoint "Jan" 0, examplePoint "Feb" (-5)])) =
          some top ∧
        (top = .fin 0 ↔
          ∀ v ∈ seriesValues exampleChart.DataSeries
              [examplePoint "Jan" 0, examplePoint "Feb" (-5)], ¬ 0 < v) ∧
        ProcessVerticalBarChartPDFItem64 exampleSprintf64 exampleStringWidth exampleChart
            exampleFields nonPositiveData = .ok calls ∧
        rectCalls64 calls =
          backgroundRect64 exampleChart exampleFields ::
            specBarRects64 exampleChart exampleFields (cellWidth64 exampleChart 2) top
              (yAxisX64 exampleChart exampleFields)
              (seriesValues exampleChart.DataSeries
                [examplePoint "Jan" 0, examplePoint "Feb" (-5)]) ∧
        (top = .fin 0 →
          ∀ v ∈ seriesValues exampleChart.DataSeries
              [examplePoint "Jan" 0, examplePoint "Feb" (-5)],
            F64.div (.fin v) top = if v = 0 then .nan else .inf true) :=
  ⟨⟨by decide!, by decide!, by decide!⟩,
    axisMax_zero_iff exampleSprintf64 exampleStringWidth exampleChart exampleFields
      nonPositiveData
      { DataSource := "sales", DataPoints := [examplePoint "Jan" 0, examplePoint "Feb" (-5)] }
      (by decide!) (by decide!) (by decide!) (by decide!)⟩

end PdfCreator
